import Mathlib

/-!
# Musicbot: queue, loop and playback-advance logic

A shallow embedding of `src/handlers/musicPlayer.js` (class `MusicPlayer`), of the
queue-editing commands under `src/commands/music/` and of `src/config/config.js`.

Conventions of the embedding

* A JavaScript array is a `List`. A queue slot is an `Option Song`: `some s` is a
  song object, `none` is the JavaScript value `undefined` (the handler for a finished
  track can push `undefined`, see `finishAdvance`).
* A method that can throw returns a pair: `Except.error` with the message of the thrown
  `Error` (or `Except.ok` with the returned value), and the queue object as the call
  leaves it.
* Everything the code obtains from outside the process is an explicit parameter:
  the outcome of creating the audio stream/resource for a song (`Env.resolve`), the
  answer of the autoplay engine (`Env.related`), the clock (`now`), the random
  source of the shuffle (`rnd`).
* `setTimeout` / `clearTimeout` are modelled by a handle counter and the list of
  handles that are still pending (`nextHandle`, `liveTimers`).
* Sending an embed to the text channel appends its title to `sent`, replying to an
  interaction appends the title to `replies`; neither is assumed to throw.
-/

namespace Musicbot

/-! ## Data model -/

/-- A song object as built by the play command (`title`, `url`, `duration` in seconds with
`0` for unknown, and the id of the requesting user). Songs found by the autoplay engine
also carry the video `id`; the play command sets none. -/
structure Song where
  title : String
  url : String
  duration : Nat
  requestedBy : Nat
  id : Option String := none
  deriving DecidableEq, Repr

/-- The part of `src/config/config.js` the player reads. -/
structure Config where
  maxQueueSize : Nat
  defaultVolume : Int
  maxVolume : Int
  autoDisconnectTime : Nat
  deriving DecidableEq, Repr

/-- The values of `src/config/config.js`. -/
def config : Config :=
  { maxQueueSize := 100, defaultVolume := 50, maxVolume := 200, autoDisconnectTime := 300000 }

/-- The states of the audio player of the voice library. -/
inductive AudioPlayerStatus where
  | idle
  | buffering
  | playing
  | paused
  | autoPaused
  deriving DecidableEq, Repr

/-- The per-guild queue object of `createQueue`, with the fields added later by the
handlers (`progressInterval`, `progressMessage`) and the bookkeeping of the embedding
(`sent`, `replies`, `liveTimers`, `liveIntervals`, `nextHandle`, and `stopRequested`: the
resource that the player holds has been asked to stop by `player.stop()`). -/
structure Queue where
  voiceChannel : Nat := 0
  connection : Bool := false
  player : Option AudioPlayerStatus := none
  songs : List (Option Song) := []
  volume : Int := 50
  playing : Bool := false
  loop : Bool := false
  loopQueue : Bool := false
  autoplay : Bool := false
  mode247 : Bool := false
  timeout : Option Nat := none
  history : List Song := []
  startTime : Option Int := none
  pausedTime : Int := 0
  lastPauseStart : Option Int := none
  progressInterval : Option Nat := none
  progressMessage : Bool := false
  sent : List String := []
  replies : List String := []
  liveTimers : List Nat := []
  liveIntervals : List Nat := []
  nextHandle : Nat := 1
  stopRequested : Bool := false
  deriving DecidableEq, Repr

/-- What happens when `playNext` tries to turn a song into a playing resource:
`ytdl(...)` throws (`streamError`), a later statement of the `try` block throws
(`resourceError`), or nothing throws (`ok`). -/
inductive Resolution where
  | ok
  | streamError
  | resourceError
  deriving DecidableEq, Repr

/-- The outside world as seen by the player. -/
structure Env where
  resolve : Song → Resolution
  related : List Song → Nat → Except String (List Song)

/-! ## Timers and notifications -/

/-- The statement `queue.timeout = setTimeout(() => this.disconnect(queue), ...)`: a fresh
handle is pending and is stored in `timeout`; a handle stored before is overwritten, not
cancelled. -/
def armTimeout (q : Queue) : Queue :=
  { q with timeout := some q.nextHandle
           liveTimers := q.nextHandle :: q.liveTimers
           nextHandle := q.nextHandle + 1 }

/-- The block `if (queue.timeout) { clearTimeout(queue.timeout); queue.timeout = null; }`. -/
def clearTimeoutIfSet (q : Queue) : Queue :=
  match q.timeout with
  | some h => { q with timeout := none, liveTimers := q.liveTimers.erase h }
  | none => q

/-- The call `queue.textChannel.send({ embeds: [embed] })`, recorded by the embed title. -/
def send (q : Queue) (title : String) : Queue :=
  { q with sent := q.sent ++ [title] }

/-- The idle timer is armed: `timeout` holds a handle that is still pending. -/
def idleTimerArmed (q : Queue) : Bool :=
  match q.timeout with
  | some h => q.liveTimers.contains h
  | none => false

/-! ## `playNext` -/

/-- The outcome of the `try` body of `playNext` for the slot at the head of the queue.
Reading `song.url` of `undefined` throws inside the inner `try`, which is the
`streamError` path. -/
def resolveSlot (env : Env) : Option Song → Resolution
  | some s => env.resolve s
  | none => Resolution.streamError

/-- The result of one pass through the `try` block of `playNext`. -/
inductive Attempt where
  | started (q : Queue)
  | failed (q : Queue) (title : String)

/-- One pass through the `try` block of `playNext` for the head slot `slot`, the other
slots being `rest`. `started` is the state after `queue.player.play(resource)`
(the player holds a new resource, which nobody has asked to stop), `queue.playing = true`
and the clearing of the timeout; `failed` is the state in which a
`catch` block starts, with the title of the embed that this `catch` block sends when no
song is left. -/
def attempt (env : Env) (q : Queue) (slot : Option Song) (rest : List (Option Song)) :
    Attempt :=
  match resolveSlot env slot with
  | Resolution.streamError => Attempt.failed q "Stream Error"
  | Resolution.resourceError => Attempt.failed q "Playback Error"
  | Resolution.ok =>
    match q.player with
    | none =>
      -- the player is created, then `queue.connection.subscribe(queue.player)` runs
      if q.connection then
        Attempt.started (clearTimeoutIfSet
          { q with songs := slot :: rest, player := some AudioPlayerStatus.playing,
                   playing := true, stopRequested := false })
      else
        -- `queue.connection` is null: TypeError, caught by the outer catch
        Attempt.failed { q with player := some AudioPlayerStatus.idle } "Playback Error"
    | some _ =>
      Attempt.started (clearTimeoutIfSet
        { q with songs := slot :: rest, player := some AudioPlayerStatus.playing,
                 playing := true, stopRequested := false })

/-- The body of `playNext` for a queue whose head slot is `slot` and whose other slots are
`rest`. Both `catch` blocks run `queue.songs.shift()` and then either call `playNext`
again (the recursive call on the tail) or set `playing = false` and send an error embed. -/
def playNextFrom (env : Env) (q : Queue) (slot : Option Song) : List (Option Song) → Queue
  | [] =>
    match attempt env q slot [] with
    | Attempt.started q' => q'
    | Attempt.failed q' title => send { q' with songs := [], playing := false } title
  | next :: rest =>
    match attempt env q slot (next :: rest) with
    | Attempt.started q' => q'
    | Attempt.failed q' _ => playNextFrom env q' next rest

/-- The method `playNext(queue)`. -/
def playNext (env : Env) (q : Queue) : Queue :=
  match q.songs with
  | [] => armTimeout { q with playing := false }
  | slot :: rest => playNextFrom env q slot rest

/-! ## The handler of `AudioPlayerStatus.Idle` (track finished) -/

/-- The method `stopProgressTracking(queue)`. -/
def stopProgressTracking (q : Queue) : Queue :=
  match q.progressInterval with
  | some h => { q with progressInterval := none, liveIntervals := q.liveIntervals.erase h }
  | none => q

/-- The method `cleanupProgress(queue)`. -/
def cleanupProgress (q : Queue) : Queue :=
  { stopProgressTracking q with progressMessage := false }

/-- The array method `shift()`: the removed first element (`undefined` on an empty array)
and the remaining array. -/
def jsShift (l : List (Option Song)) : Option Song × List (Option Song) :=
  match l with
  | [] => (none, [])
  | x :: r => (x, r)

/-- The statements `queue.history.push(finishedSong); if (queue.history.length > 10)
queue.history.shift();`. -/
def pushHistory (history : List Song) (finishedSong : Song) : List Song :=
  let h := history ++ [finishedSong]
  if h.length > 10 then h.tail else h

/-- The first part of the Idle handler, up to and including the reset of the progress
fields: `cleanupProgress`, then (unless `loop`) shift the finished song, record it in the
history, and push it back when `loopQueue` is set. -/
def finishAdvance (q : Queue) : Queue :=
  let q := cleanupProgress q
  let q :=
    if !q.loop then
      let finishedSong := (jsShift q.songs).1
      let q := { q with songs := (jsShift q.songs).2 }
      let q :=
        match finishedSong with
        | some s => { q with history := pushHistory q.history s }
        | none => q
      if q.loopQueue then { q with songs := q.songs ++ [finishedSong] } else q
    else q
  { q with startTime := none, pausedTime := 0, lastPauseStart := none }

/-- The method `handleAutoplay(queue)`. An exception of the autoplay engine is rethrown
(`Except.error`); it is raised before the queue object is touched, so the queue is then the
argument `q`. -/
def handleAutoplay (env : Env) (q : Queue) : Except String Queue :=
  if !q.autoplay then Except.ok q
  else
    match env.related q.history 3 with
    | Except.error e => Except.error e
    | Except.ok relatedSongs =>
      if relatedSongs.length > 0 then
        let q := { q with songs := q.songs ++ relatedSongs.map some }
        let q := send q "Autoplay Active"
        Except.ok (playNext env q)
      else Except.ok q

/-- The handler registered for `AudioPlayerStatus.Idle` in `setupPlayerEvents`. -/
def onIdle (env : Env) (q : Queue) : Queue :=
  let q := finishAdvance q
  if q.songs.length > 0 then playNext env q
  else
    let q := { q with playing := false }
    let q :=
      if q.autoplay then
        match handleAutoplay env q with
        | Except.ok q' => q'
        | Except.error _ => q
      else q
    if !q.mode247 && q.songs.length == 0 then armTimeout q else q

/-- The state in which `playNext` leaves the `try` block without an exception. -/
def startedState (q : Queue) (slot : Option Song) (rest : List (Option Song)) : Queue :=
  clearTimeoutIfSet
    { q with songs := slot :: rest, player := some AudioPlayerStatus.playing, playing := true,
             stopRequested := false }

/-! ## Skip -/

/-- The call `queue.player.stop()` of the voice library (no `force` argument), with the
value it returns. An idle player returns `false`. Any other player keeps its state: the
call only asks the resource to end with its silence frames (`stopRequested`), and returns
`true`. No event is emitted by the call itself. -/
def playerStop (q : Queue) : Queue × Bool :=
  match q.player with
  | none => (q, false)
  | some AudioPlayerStatus.idle => (q, false)
  | some _ => ({ q with stopRequested := true }, true)

/-- The audio cycle of the voice library on a player that is subscribed to a live
connection. A playing player whose resource was asked to stop sends the silence frames,
becomes idle and emits Idle, which runs the Idle handler. The cycle does not read the
resource of a paused, auto-paused or buffering player: such a player keeps the request and
emits nothing until it is playing again. -/
def playerCycle (env : Env) (q : Queue) : Queue :=
  if q.player = some AudioPlayerStatus.playing ∧ q.stopRequested = true then
    onIdle env { q with player := some AudioPlayerStatus.idle, stopRequested := false }
  else q

/-- The method `skip(queue)`, followed by the audio cycle, which delivers the Idle event
that `queue.player.stop()` leads to when the player is playing. -/
def skip (env : Env) (q : Queue) : Except String Unit × Queue :=
  if !q.playing || q.player.isNone then
    (Except.error "Nothing is currently playing", q)
  else
    (Except.ok (), playerCycle env (playerStop q).1)

/-! ## Queue editing: `addSong`, `removeSong`, `shuffleQueue` -/

/-- The method `addSong(queue, song)`. -/
def addSong (cfg : Config) (q : Queue) (song : Song) : Except String Unit × Queue :=
  if q.songs.length ≥ cfg.maxQueueSize then
    (Except.error s!"Queue is full! Maximum {cfg.maxQueueSize} songs allowed.", q)
  else
    (Except.ok (), { q with songs := q.songs ++ [some song] })

/-- The array read `arr[k]` for an integer `k`: `undefined` outside the array. -/
def jsIndex (l : List (Option Song)) (k : Int) : Option Song :=
  if k < 0 then none else (l[k.toNat]?).join

/-- The array method `splice(start, 1)` for an integer `start`: a negative `start` counts
from the end, and nothing is removed at or beyond the length. Returns `[0]` of the removed
array (`undefined` when it is empty) and the remaining array. -/
def jsSplice1 (l : List (Option Song)) (start : Int) : Option Song × List (Option Song) :=
  let s : Nat := if start < 0 then (max ((l.length : Int) + start) 0).toNat else start.toNat
  ((l[s]?).join, l.eraseIdx s)

/-- The method `removeSong(queue, index)`. -/
def removeSong (q : Queue) (index : Int) : Except String (Option Song) × Queue :=
  if index < 0 || index ≥ (q.songs.length : Int) then
    (Except.error "Invalid song index", q)
  else
    (Except.ok (jsSplice1 q.songs index).1, { q with songs := (jsSplice1 q.songs index).2 })

/-- The destructuring swap `[a[i], a[j]] = [a[j], a[i]]` for indices inside the array
(the shuffle never leaves the array). -/
def swapAt {α : Type} (l : List α) (i j : Nat) : List α :=
  match l[i]?, l[j]? with
  | some x, some y => (l.set i y).set j x
  | _, _ => l

/-- The loop `for (let i = ...; i > 0; i--) { j = floor(random() * (i + 1)); swap }`,
started at `i`. The random source is the value of `Math.floor(Math.random() * (i + 1))`
drawn in the round of index `i`, an integer from `0` to `i`. -/
def fisherYates {α : Type} (rnd : (i : Nat) → Fin (i + 1)) : Nat → List α → List α
  | 0, l => l
  | i + 1, l => fisherYates rnd i (swapAt l (i + 1) (rnd (i + 1)).val)

/-- The method `shuffleQueue(queue)`. -/
def shuffleQueue (rnd : (i : Nat) → Fin (i + 1)) (q : Queue) : Except String Unit × Queue :=
  if q.songs.length ≤ 1 then
    (Except.error "Not enough songs to shuffle", q)
  else
    match q.songs with
    | [] => (Except.error "Not enough songs to shuffle", q)
    | currentSong :: remainingSongs =>
      (Except.ok (),
        { q with songs :=
            currentSong :: fisherYates rnd (remainingSongs.length - 1) remainingSongs })

/-! ## The remove command (`src/commands/music/remove.js`) -/

/-- What the remove command reads from the interaction: the voice channel of the member
(if any), whether `checkPermissions(member, 'dj')` holds, the user id, the number of
non-bot members in the voice channel of the queue, and the `position` option. -/
structure RemoveRequest where
  memberVoice : Option Nat
  isDJ : Bool
  userId : Nat
  humans : Nat
  position : Int
  deriving DecidableEq, Repr

/-- The function `execute` of the remove command, applied to the registry entry of the
guild: the title of the embed it replies with and the registry entry afterwards. A
`TypeError` (reading a property of `undefined`) ends in the `catch` block, which replies
`Remove Error`. -/
def removeCommand (req : RemoveRequest) (entry : Option Queue) : String × Option Queue :=
  match req.memberVoice with
  | none => ("Voice Channel Required", entry)
  | some voiceChannel =>
    match entry with
    | none => ("Empty Queue", none)
    | some q =>
      if q.songs.length = 0 then ("Empty Queue", some q)
      else if voiceChannel ≠ q.voiceChannel then ("Wrong Voice Channel", some q)
      else if req.position > (q.songs.length : Int) then ("Invalid Position", some q)
      else if req.position = 1 then ("Cannot Remove Current Song", some q)
      else
        let songToRemove := jsIndex q.songs (req.position - 1)
        -- `a || b || c` evaluates `songToRemove.requestedBy` only when not a DJ
        let hasPermission : Option Bool :=
          if req.isDJ then some true
          else
            match songToRemove with
            | none => none
            | some s => some (s.requestedBy = req.userId || decide (req.humans ≤ 1))
        match hasPermission with
        | none => ("Remove Error", some q)
        | some false => ("Permission Denied", some q)
        | some true =>
          let removedSong := (jsSplice1 q.songs (req.position - 1)).1
          let q := { q with songs := (jsSplice1 q.songs (req.position - 1)).2 }
          match removedSong with
          | none => ("Remove Error", some q)
          | some _ => ("Song Removed", some q)

/-! ## The play command (`src/commands/music/play.js`) -/

/-- The method `startProgressTracking(queue)`. -/
def startProgressTracking (q : Queue) : Queue :=
  let q := stopProgressTracking q
  { q with progressInterval := some q.nextHandle
           liveIntervals := q.nextHandle :: q.liveIntervals
           nextHandle := q.nextHandle + 1 }

/-- One pass through the `try` block of `playMusic` for the song `song` at the head of the
queue, the other slots being `rest`; `now` is the value of `Date.now()`. -/
def playMusicAttempt (env : Env) (now : Int) (q : Queue) (song : Song)
    (rest : List (Option Song)) : Attempt :=
  let q := { q with connection := true }
  match env.resolve song with
  | Resolution.streamError => Attempt.failed q "Stream Error"
  | Resolution.resourceError => Attempt.failed q "Playback Error"
  | Resolution.ok =>
    let q := { q with songs := some song :: rest, player := some AudioPlayerStatus.playing,
                      startTime := some now, pausedTime := 0, lastPauseStart := none,
                      replies := q.replies ++ ["Playing"], progressMessage := true,
                      stopRequested := false }
    Attempt.started (startProgressTracking q)

/-- The body of `playMusic` for a queue whose head slot is `slot` and whose other slots are
`rest`. An `undefined` head sets `playing = false` and returns. -/
def playMusicFrom (env : Env) (now : Int) (q : Queue) :
    Option Song → List (Option Song) → Queue
  | none, rest => { q with songs := none :: rest, playing := false }
  | some song, [] =>
    match playMusicAttempt env now q song [] with
    | Attempt.started q' => q'
    | Attempt.failed q' title => { q' with songs := [], replies := q'.replies ++ [title] }
  | some song, next :: rest =>
    match playMusicAttempt env now q song (next :: rest) with
    | Attempt.started q' => q'
    | Attempt.failed q' _ => playMusicFrom env now q' next rest

/-- The function `playMusic(client, queue, interaction)` of the play command. -/
def playMusic (env : Env) (now : Int) (q : Queue) : Queue :=
  match q.songs with
  | [] => { q with playing := false }
  | slot :: rest => playMusicFrom env now q slot rest

/-- The end of `execute` of the play command, from "Get or create queue for this server":
the registry entry is fetched or created, the song is pushed, and playback is started
when the queue is not playing. -/
def playEnqueue (env : Env) (now : Int) (voiceChannel : Nat) (entry : Option Queue)
    (song : Song) : Queue :=
  let queue : Queue :=
    match entry with
    | some q => q
    | none => { voiceChannel := voiceChannel, volume := config.defaultVolume }
  let queue := { queue with songs := queue.songs ++ [some song] }
  if !queue.playing then playMusic env now queue
  else { queue with replies := queue.replies ++ ["Added to Queue"] }

/-! ## Volume and loop mode -/

/-- The method `setVolume(queue, volume)` for an integer `volume`. The call that forwards
the volume to the audio resource of the player acts outside the queue object and is not
part of the state. -/
def setVolume (cfg : Config) (q : Queue) (volume : Int) : Except String Unit × Queue :=
  if volume < 0 || volume > cfg.maxVolume then
    (Except.error s!"Volume must be between 0 and {cfg.maxVolume}", q)
  else
    (Except.ok (), { q with volume := volume })

/-- The method `toggleLoop(queue, mode = null)`; `none` is `null`. The returned string is
the name of the new mode. -/
def toggleLoop (q : Queue) (mode : Option String) : Except String String × Queue :=
  match mode with
  | none =>
    if !q.loop && !q.loopQueue then
      (Except.ok "single", { q with loop := true })
    else if q.loop && !q.loopQueue then
      (Except.ok "queue", { q with loop := false, loopQueue := true })
    else
      (Except.ok "off", { q with loop := false, loopQueue := false })
  | some m =>
    if m = "off" then (Except.ok m, { q with loop := false, loopQueue := false })
    else if m = "single" then (Except.ok m, { q with loop := true, loopQueue := false })
    else if m = "queue" then (Except.ok m, { q with loop := false, loopQueue := true })
    else (Except.error "Invalid loop mode", q)

/-- What the loop command reads from the interaction: the voice channel of the member (if
any), whether `checkPermissions(member, 'dj')` holds, the number of non-bot members in the
voice channel of the queue, and the optional `mode` option. -/
structure LoopRequest where
  memberVoice : Option Nat
  isDJ : Bool
  humans : Nat
  mode : Option String
  deriving DecidableEq, Repr

/-- The function `execute` of the loop command (`src/commands/music/loop.js`), applied to
the registry entry of the guild: the title of the embed it replies with (without the emoji)
and the registry entry afterwards. A `mode` outside the three choices matches no `case`,
so nothing is set and `newMode` stays `undefined`. -/
def loopCommand (req : LoopRequest) (entry : Option Queue) : String × Option Queue :=
  match req.memberVoice with
  | none => ("Voice Channel Required", entry)
  | some voiceChannel =>
    match entry with
    | none => ("Nothing Playing", none)
    | some q =>
      if q.songs.length = 0 then ("Nothing Playing", some q)
      else if voiceChannel ≠ q.voiceChannel then ("Wrong Voice Channel", some q)
      else if !(req.isDJ || decide (req.humans ≤ 1)) then ("Permission Denied", some q)
      else
        -- `if (mode)`: a non-empty string
        match req.mode.filter (fun m => m ≠ "") with
        | some m =>
          if m = "off" then
            ("Loop Mode: Off", some { q with loop := false, loopQueue := false })
          else if m = "single" then
            ("Loop Mode: Single Song", some { q with loop := true, loopQueue := false })
          else if m = "queue" then
            ("Loop Mode: Queue", some { q with loop := false, loopQueue := true })
          else ("Loop Mode: undefined", some q)
        | none =>
          if !q.loop && !q.loopQueue then
            ("Loop Mode: Single Song", some { q with loop := true, loopQueue := false })
          else if q.loop && !q.loopQueue then
            ("Loop Mode: Queue", some { q with loop := false, loopQueue := true })
          else
            ("Loop Mode: Off", some { q with loop := false, loopQueue := false })

/-- The function `handleLoopButton(interaction, queue)` of
`src/events/interactionCreate.js`: the title of the reply (without the emoji) and the queue
afterwards. -/
def handleLoopButton (isDJ : Bool) (humans : Nat) (q : Queue) : String × Queue :=
  if !(isDJ || decide (humans ≤ 1)) then ("Permission Denied", q)
  else if !q.loop && !q.loopQueue then
    ("Loop: Single", { q with loop := true })
  else if q.loop && !q.loopQueue then
    ("Loop: Queue", { q with loop := false, loopQueue := true })
  else
    ("Loop: Off", { q with loop := false, loopQueue := false })

/-! ## The playback clock: `getCurrentProgress`, `pause`, `resume` -/

/-- JavaScript truthiness of a field that holds `null` or a number of milliseconds. -/
def truthy (t : Option Int) : Bool :=
  match t with
  | some v => v != 0
  | none => false

/-- The end of `getCurrentProgress`: `song = queue.songs[0]`, and the duration of the song
is returned instead of `currentTime` when the song exists, its duration is truthy and
`currentTime` exceeds it. -/
def clampToSong (q : Queue) (currentTime : Int) : Int :=
  match jsIndex q.songs 0 with
  | some song =>
    if song.duration ≠ 0 ∧ currentTime > (song.duration : Int) then (song.duration : Int)
    else currentTime
  | none => currentTime

/-- The method `getCurrentProgress(queue)` (the later of the two definitions in the class,
which is the one in force); `now` is the value of `Date.now()` and `none` is a missing
queue. Times are integers, so `Math.floor(elapsed / 1000)` is the floor division. -/
def getCurrentProgress (now : Int) (queue : Option Queue) : Int :=
  match queue with
  | none => 0
  | some q =>
    if !truthy q.startTime then 0
    else
      let elapsed := now - q.startTime.getD 0 - q.pausedTime
      let elapsed :=
        if truthy q.lastPauseStart then elapsed - (now - q.lastPauseStart.getD 0)
        else elapsed
      let currentTime := max 0 (Int.fdiv elapsed 1000)
      clampToSong q currentTime

/-- The static method `MusicPlayer.getCurrentProgress(queue)`, whose body repeats the
instance method. -/
def getCurrentProgressStatic (now : Int) (queue : Option Queue) : Int :=
  match queue with
  | none => 0
  | some q =>
    if !truthy q.startTime then 0
    else
      let elapsed := now - q.startTime.getD 0 - q.pausedTime
      let elapsed :=
        if truthy q.lastPauseStart then elapsed - (now - q.lastPauseStart.getD 0)
        else elapsed
      let currentTime := max 0 (Int.fdiv elapsed 1000)
      clampToSong q currentTime

/-- The handler registered for `AudioPlayerStatus.Playing` in `setupPlayerEvents`; `now` is
the value of `Date.now()`. -/
def onPlaying (now : Int) (q : Queue) : Queue :=
  let q :=
    if !truthy q.startTime then { q with startTime := some now, pausedTime := 0 }
    else if truthy q.lastPauseStart then
      { q with pausedTime := q.pausedTime + (now - q.lastPauseStart.getD 0),
               lastPauseStart := none }
    else q
  startProgressTracking q

/-- The call `queue.player.pause()` of the voice library: only a playing player becomes
paused. -/
def playerPause (q : Queue) : Queue :=
  match q.player with
  | some AudioPlayerStatus.playing => { q with player := some AudioPlayerStatus.paused }
  | _ => q

/-- The method `pause(queue)`; `now` is the value of `Date.now()`. -/
def pause (now : Int) (q : Queue) : Except String Unit × Queue :=
  if !q.playing || q.player.isNone then
    (Except.error "Nothing is currently playing", q)
  else if q.player = some AudioPlayerStatus.paused then
    (Except.error "Music is already paused", q)
  else
    let q := { q with lastPauseStart := some now }
    let q := playerPause q
    (Except.ok (), stopProgressTracking q)

/-- The method `resume(queue)`; `now` is the value of `Date.now()`. The call
`queue.player.unpause()` turns the paused player to playing, which emits the Playing event
and runs `onPlaying` before `resume` goes on. -/
def resume (now : Int) (q : Queue) : Except String Unit × Queue :=
  if q.player.isNone then
    (Except.error "Nothing to resume", q)
  else if q.player ≠ some AudioPlayerStatus.paused then
    (Except.error "Music is not paused", q)
  else
    let q := { q with player := some AudioPlayerStatus.playing }
    let q := onPlaying now q
    (Except.ok (), startProgressTracking q)

/-! ## Sequences of finished tracks -/

/-- One track-finished event with loop mode not Single: the track that finishes, the other
slots of the queue at that moment, and the `loopQueue` flag at that moment. Whatever ran
since the event before (enqueues, removals, shuffles, loop toggles) is summed up in these
three values; none of those operations touches the history. -/
structure FinishEvent where
  track : Song
  rest : List (Option Song)
  loopQueue : Bool

/-- The Idle handler run for one `FinishEvent`. -/
def finishEvent (env : Env) (q : Queue) (e : FinishEvent) : Queue :=
  onIdle env { q with songs := some e.track :: e.rest, loop := false, loopQueue := e.loopQueue }

/-- The session after a sequence of track-finished events. -/
def afterFinishes (env : Env) (q : Queue) (events : List FinishEvent) : Queue :=
  events.foldl (finishEvent env) q

/-! ## Other places that arm or fire the idle timer -/

/-- The empty-channel branch of `handleUserVoiceStateChange`
(`src/events/voiceStateUpdate.js`): `if (queue.timeout) clearTimeout(queue.timeout);`
followed by `queue.timeout = setTimeout(...)`. -/
def armEmptyChannelTimeout (q : Queue) : Queue :=
  let q :=
    match q.timeout with
    | some h => { q with liveTimers := q.liveTimers.erase h }
    | none => q
  armTimeout q

/-- The handler that `playMusic` of the play command registers for
`AudioPlayerStatus.Playing`. -/
def onPlayingPlayCommand (q : Queue) : Queue :=
  { q with playing := true }

/-- The handler that `playMusic` of the play command registers for
`AudioPlayerStatus.Idle`; `now` is the value of `Date.now()` in the `playMusic` call. -/
def onIdlePlayCommand (env : Env) (now : Int) (q : Queue) : Queue :=
  let q := if !q.loop then { q with songs := (jsShift q.songs).2 } else q
  if q.songs.length > 0 then playMusic env now q
  else armTimeout { q with playing := false }

/-- The callback of the timer armed by `onIdlePlayCommand`:
`if (queue.connection) { queue.connection.destroy(); client.musicQueues.delete(...); }`.
The result is the registry entry of the guild afterwards, `none` when it was deleted. -/
def playCommandTimeoutCallback (q : Queue) : Option Queue :=
  if q.connection then none else some q

/-- The pending timer with handle `h` fires on a session whose timers were armed by
`onIdlePlayCommand`; a handle that is no longer pending does nothing. -/
def fireTimer (h : Nat) (q : Queue) : Option Queue :=
  if h ∈ q.liveTimers then
    playCommandTimeoutCallback { q with liveTimers := q.liveTimers.erase h }
  else some q

/-! ## Teardown: `disconnect` and `stop` -/

/-- The session of one guild: the queue object, whether `client.musicQueues` still maps the
guild to it, and whether its voice connection has been destroyed (the field
`queue.connection` keeps pointing to the destroyed connection). -/
structure Session where
  queue : Queue
  registered : Bool := true
  connectionDestroyed : Bool := false
  deriving DecidableEq, Repr

/-- The method `disconnect(queue)` (the later of the two definitions in the class, which is
the one in force). `destroy()` on a connection that is already destroyed throws; the
`catch` block logs the error and the remaining statements are skipped. -/
def disconnect (s : Session) : Session :=
  if s.queue.mode247 then s
  else if s.queue.connection && s.connectionDestroyed then s
  else
    let s := if s.queue.connection then { s with connectionDestroyed := true } else s
    let q :=
      match s.queue.timeout with
      | some h => { s.queue with liveTimers := s.queue.liveTimers.erase h }
      | none => s.queue
    { s with queue := q, registered := false }

/-- The method `stop(queue)`. The call `queue.player.stop()` only leaves the stop request
with the player (`playerStop`); the Idle event it leads to is delivered by the audio cycle
after `stop` has returned (`sessionCycle`). -/
def stop (s : Session) : Session :=
  let q := { s.queue with songs := [], playing := false, loop := false, loopQueue := false }
  let q := if q.player.isSome then (playerStop q).1 else q
  disconnect { s with queue := q }

/-- The audio cycle of the voice library on a session. When the connection of the queue has
been destroyed the player has no subscriber left, and a playing player is auto-paused (the
`noSubscriber` behaviour that `createAudioPlayer()` sets up) without reading its resource;
otherwise the cycle is `playerCycle`. The Idle handler was registered on the queue object and
runs whether or not the registry still holds the session. -/
def sessionCycle (env : Env) (s : Session) : Session :=
  if s.connectionDestroyed then
    if s.queue.player = some AudioPlayerStatus.playing then
      { s with queue := { s.queue with player := some AudioPlayerStatus.autoPaused } }
    else s
  else { s with queue := playerCycle env s.queue }

/-- What the stop command reads from the interaction. -/
structure StopRequest where
  memberVoice : Option Nat
  isDJ : Bool
  humans : Nat
  deriving DecidableEq, Repr

/-- The function `execute` of the stop command (`src/commands/music/stop.js`): the title of
the embed it replies with (without the emoji) and the session afterwards. It clears the
queue and the timer, calls `queue.player.stop()`, destroys the connection and deletes the
registry entry, without reading `mode247`. `destroy()` on a connection that is already
destroyed throws, which ends in the `catch` block before the registry entry is deleted. -/
def stopCommand (req : StopRequest) (s : Session) : String × Session :=
  match req.memberVoice with
  | none => ("Voice Channel Required", s)
  | some voiceChannel =>
    if !s.registered || !s.queue.playing then ("Nothing Playing", s)
    else if voiceChannel ≠ s.queue.voiceChannel then ("Wrong Voice Channel", s)
    else if !(req.isDJ || decide (req.humans ≤ 1)) then ("Permission Denied", s)
    else
      let q := { s.queue with songs := [], playing := false, loop := false, loopQueue := false }
      let q := clearTimeoutIfSet q
      let q := if q.player.isSome then (playerStop q).1 else q
      if q.connection && s.connectionDestroyed then ("Stop Error", { s with queue := q })
      else
        ("Music Stopped",
          { s with queue := q, connectionDestroyed := q.connection || s.connectionDestroyed,
                   registered := false })

/-- The callback of the idle timer armed by `playNext` and by the Idle handler of
`setupPlayerEvents`: `this.disconnect(queue)`. A handle that is no longer pending does
nothing. -/
def idleTimerFires (h : Nat) (s : Session) : Session :=
  if h ∈ s.queue.liveTimers then
    disconnect { s with queue := { s.queue with liveTimers := s.queue.liveTimers.erase h } }
  else s

/-! ## Everything that writes the loop flags -/

/-- The operations on a session that write `loop` or `loopQueue`: `toggleLoop` with or
without a mode, `stop`, the loop command and the loop button. -/
inductive LoopAction where
  | toggle (mode : Option String)
  | stop
  | command (req : LoopRequest)
  | button (isDJ : Bool) (humans : Nat)

/-- One `LoopAction` applied to a session. The loop command looks the queue up in the
registry. -/
def applyLoopAction (s : Session) : LoopAction → Session
  | LoopAction.toggle mode => { s with queue := (toggleLoop s.queue mode).2 }
  | LoopAction.stop => stop s
  | LoopAction.command req =>
    match (loopCommand req (if s.registered then some s.queue else none)).2 with
    | some q => { s with queue := q }
    | none => s
  | LoopAction.button isDJ humans => { s with queue := (handleLoopButton isDJ humans s.queue).2 }

/-- The loop mode as `src/commands/music/queue.js` displays it:
`queue.loop ? 'Single' : queue.loopQueue ? 'Queue' : 'Off'`. -/
def loopModeName (q : Queue) : String :=
  if q.loop then "Single" else if q.loopQueue then "Queue" else "Off"

/-! ## The pause command and the pause button -/

/-- What the pause command reads from the interaction. -/
structure PauseRequest where
  memberVoice : Option Nat
  isDJ : Bool
  humans : Nat
  userId : Nat
  deriving DecidableEq, Repr

/-- The function `execute` of the pause command (`src/commands/music/pause.js`), applied to
the registry entry of the guild: the title of the embed it replies with (without the emoji)
and the registry entry afterwards. Reading `queue.player.state` of a null player throws and
ends in the `catch` block. -/
def pauseCommand (req : PauseRequest) (entry : Option Queue) : String × Option Queue :=
  match req.memberVoice with
  | none => ("Voice Channel Required", entry)
  | some voiceChannel =>
    match entry with
    | none => ("Nothing Playing", none)
    | some q =>
      if !q.playing then ("Nothing Playing", some q)
      else if voiceChannel ≠ q.voiceChannel then ("Wrong Voice Channel", some q)
      else
        match q.player with
        | none => ("Pause Error", some q)
        | some status =>
          if status = AudioPlayerStatus.paused then ("Already Paused", some q)
          else
            let hasPermission := req.isDJ || decide (req.humans ≤ 1)
            if !hasPermission && (jsIndex q.songs 0).map Song.requestedBy != some req.userId
            then ("Permission Denied", some q)
            else ("Music Paused", some (playerPause q))

/-- The function `handlePauseButton(interaction, queue)` of
`src/events/interactionCreate.js`; `hasPermission` is the value of
`checkPermissions(...) || canControlSong(...)`. -/
def handlePauseButton (hasPermission : Bool) (q : Queue) : String × Queue :=
  if !q.playing || q.player.isNone then ("Nothing Playing", q)
  else if q.player = some AudioPlayerStatus.paused then ("Already Paused", q)
  else if !hasPermission then ("Permission Denied", q)
  else ("Music Paused", playerPause q)

/-! ## Counting the attempts of `playNext` -/

/-- The body of `playNext` as in `playNextFrom`, returning also the number of passes
through the `try` block (one resolution attempt each). -/
def playNextFromCounted (env : Env) (q : Queue) (slot : Option Song) :
    List (Option Song) → Queue × Nat
  | [] =>
    match attempt env q slot [] with
    | Attempt.started q' => (q', 1)
    | Attempt.failed q' title => (send { q' with songs := [], playing := false } title, 1)
  | next :: rest =>
    match attempt env q slot (next :: rest) with
    | Attempt.started q' => (q', 1)
    | Attempt.failed q' _ =>
      ((playNextFromCounted env q' next rest).1, (playNextFromCounted env q' next rest).2 + 1)

/-- The method `playNext(queue)`, returning also the number of resolution attempts. -/
def playNextCounted (env : Env) (q : Queue) : Queue × Nat :=
  match q.songs with
  | [] => (armTimeout { q with playing := false }, 0)
  | slot :: rest => playNextFromCounted env q slot rest

/-! ## The autoplay engine (`src/utils/autoplayEngine.js`) -/

/-- One item of a `ytsr` result as `searchYouTube` sees it: whether its type is `video`,
the verdict of `isLikelyMusic`, whether `ytdl.getBasicInfo` succeeds on it, and the song
object that `searchYouTube` builds from it. -/
structure SearchItem where
  isVideo : Bool
  likelyMusic : Bool
  accessible : Bool
  song : Song
  deriving DecidableEq, Repr

/-- What the autoplay engine obtains from outside: the string method `toLowerCase`, the
result of `extractSearchTerms` on a title (an error when it throws), the answer of `ytsr`
to a query with a result limit (an error when it throws), the index drawn by
`getPopularSongs` among its five queries, and the random duration given to the mock result
of each index. -/
structure EngineEnv where
  toLowerCase : String → String
  extractSearchTerms : String → Except String (List String)
  ytsr : String → Nat → Except String (List SearchItem)
  popularIndex : Fin 5
  mockDuration : Nat → Nat

/-- An entry of the cache of the engine. -/
structure CacheEntry where
  songs : List Song
  timestamp : Int
  deriving DecidableEq, Repr

/-- The `Map` held in `this.cache`, as a list of keys with their entries. -/
abbrev Cache := List (String × CacheEntry)

/-- The call `this.cache.get(key)` (`none` when `has(key)` is false). -/
def cacheGet (cache : Cache) (key : String) : Option CacheEntry :=
  (cache.find? (fun kv => kv.1 == key)).map (fun kv => kv.2)

/-- The call `this.cache.set(key, entry)`. -/
def cacheSet (cache : Cache) (key : String) (entry : CacheEntry) : Cache :=
  (key, entry) :: cache.filter (fun kv => kv.1 != key)

/-- The filter of `removeDuplicates`, started with the sets `existingTitles` and
`existingUrls` holding `titles` and `urls`: a song whose lower-cased title or whose url is
in the sets is dropped, a kept song adds both to the sets. -/
def removeDuplicatesFrom (toLowerCase : String → String) (titles urls : List String) :
    List Song → List Song
  | [] => []
  | song :: rest =>
    if toLowerCase song.title ∈ titles ∨ song.url ∈ urls then
      removeDuplicatesFrom toLowerCase titles urls rest
    else
      song :: removeDuplicatesFrom toLowerCase (toLowerCase song.title :: titles)
        (song.url :: urls) rest

/-- The method `removeDuplicates(newSongs, existingSongs)`. -/
def removeDuplicates (toLowerCase : String → String) (newSongs existingSongs : List Song) :
    List Song :=
  removeDuplicatesFrom toLowerCase (existingSongs.map (fun song => toLowerCase song.title))
    (existingSongs.map (fun song => song.url)) newSongs

/-- The method `generateMockSearchResults(query, count)`; `now` is the value of
`Date.now()`. The requester of an autoplay song (the string `Autoplay System`) is written
as user 0. -/
def generateMockSearchResults (env : EngineEnv) (now : Int) (query : String) (count : Nat) :
    List Song :=
  let mockTitles : List String :=
    [s!"{query} - Popular Mix", s!"Best of {query}", s!"{query} Compilation",
     s!"{query} Hits Collection", s!"{query} Music Playlist"]
  (mockTitles.take count).enum.map fun entry =>
    { title := entry.2,
      url := s!"https://youtube.com/watch?v=mock_{now}_{entry.1}",
      duration := env.mockDuration entry.1,
      requestedBy := 0,
      id := some s!"mock_{now}_{entry.1}" }

/-- The loop of `searchYouTube` over the items of the search result, `musicResults` being
the songs collected so far. -/
def collectMusic (limit : Nat) : List SearchItem → List Song → List Song
  | [], musicResults => musicResults
  | item :: rest, musicResults =>
    if !item.isVideo then collectMusic limit rest musicResults
    else if musicResults.length ≥ limit then musicResults
    else if item.likelyMusic && item.accessible then
      collectMusic limit rest (musicResults ++ [item.song])
    else collectMusic limit rest musicResults

/-- The method `searchYouTube(query, limit)`; a failing search falls back to the mock
results. -/
def searchYouTube (env : EngineEnv) (now : Int) (query : String) (limit : Nat) : List Song :=
  match env.ytsr query (limit * 2) with
  | Except.ok items => collectMusic limit items []
  | Except.error _ => generateMockSearchResults env now query limit

/-- The five queries of `getPopularSongs`. -/
def popularQueries : List String :=
  ["popular music 2024", "trending songs", "top hits playlist", "viral music mix",
   "best songs ever"]

/-- The method `getPopularSongs(count)`. -/
def getPopularSongs (env : EngineEnv) (now : Int) (count : Nat) : List Song :=
  searchYouTube env now (popularQueries.getD env.popularIndex.val "") count

/-- The loop of `findRelatedSongs` over the search terms, `relatedSongs` being the songs
gathered so far: two results per term, until `count` songs are there. -/
def gatherRelated (env : EngineEnv) (now : Int) (count : Nat) :
    List String → List Song → List Song
  | [], relatedSongs => relatedSongs
  | term :: rest, relatedSongs =>
    let relatedSongs := relatedSongs ++ searchYouTube env now term 2
    if relatedSongs.length ≥ count then relatedSongs
    else gatherRelated env now count rest relatedSongs

/-- The key under which `findRelatedSongs` caches its result:
`related_` followed by `lastSong.id || lastSong.title`. -/
def cacheKeyOf (lastSong : Song) : String :=
  "related_" ++ (lastSong.id.filter (fun i => i ≠ "")).getD lastSong.title

/-- The part of `findRelatedSongs` after a cache miss: the fresh search. -/
def findRelatedFresh (env : EngineEnv) (cache : Cache) (now : Int) (recentSongs : List Song)
    (lastSong : Song) (count : Nat) : List Song × Cache :=
  match env.extractSearchTerms lastSong.title with
  | Except.error _ => (getPopularSongs env now count, cache)
  | Except.ok searchTerms =>
    let relatedSongs := gatherRelated env now count (searchTerms.take 3) []
    let uniqueSongs := removeDuplicates env.toLowerCase relatedSongs recentSongs
    (uniqueSongs.take count,
      cacheSet cache (cacheKeyOf lastSong) { songs := uniqueSongs, timestamp := now })

/-- The method `findRelatedSongs(recentSongs, count)` for a count that is a natural number:
the returned songs and the cache afterwards; `now` is the value of `Date.now()`. -/
def findRelatedSongs (env : EngineEnv) (cache : Cache) (now : Int) (recentSongs : List Song)
    (count : Nat) : List Song × Cache :=
  match recentSongs.getLast? with
  | none => (getPopularSongs env now count, cache)
  | some lastSong =>
    match cacheGet cache (cacheKeyOf lastSong) with
    | some cached =>
      if now - cached.timestamp < 3600000 then (cached.songs.take count, cache)
      else findRelatedFresh env cache now recentSongs lastSong count
    | none => findRelatedFresh env cache now recentSongs lastSong count

/-! ## Durations as text (`src/utils/formatters.js`)

In this part a JavaScript string is a list of characters and `NaN`/`null` are `none`. -/

/-- The character is one of `0` to `9` (the class `\d`). -/
def isDecimalDigit (c : Char) : Bool :=
  decide (48 ≤ c.toNat) && decide (c.toNat ≤ 57)

/-- The value of a character as a digit in a radix up to 16, if it is one. -/
def digitValue (c : Char) : Option Nat :=
  if 48 ≤ c.toNat ∧ c.toNat ≤ 57 then some (c.toNat - 48)
  else if 97 ≤ c.toNat ∧ c.toNat ≤ 102 then some (c.toNat - 87)
  else if 65 ≤ c.toNat ∧ c.toNat ≤ 70 then some (c.toNat - 55)
  else none

/-- The character is a digit of the given radix. -/
def isDigitIn (radix : Nat) (c : Char) : Bool :=
  match digitValue c with
  | some v => decide (v < radix)
  | none => false

/-- The number written by a list of digits of the given radix. -/
def digitsValue (radix : Nat) (digits : List Char) : Nat :=
  digits.foldl (fun acc c => acc * radix + (digitValue c).getD 0) 0

/-- White space as `trim` and `parseInt` skip it (space, tab, line feed, vertical tab, form
feed, carriage return, no-break space). -/
def isWhiteSpace (c : Char) : Bool :=
  c.toNat == 32 || c.toNat == 9 || c.toNat == 10 || c.toNat == 11 || c.toNat == 12 ||
    c.toNat == 13 || c.toNat == 160

/-- The string method `toLowerCase` on the letters `A` to `Z`; other characters are kept. -/
def toLowerCase (s : List Char) : List Char :=
  s.map fun c => if 65 ≤ c.toNat ∧ c.toNat ≤ 90 then Char.ofNat (c.toNat + 32) else c

/-- The string method `trim`. -/
def trim (s : List Char) : List Char :=
  ((s.dropWhile isWhiteSpace).reverse.dropWhile isWhiteSpace).reverse

/-- The string method `split(sep)` for a separator of one character. -/
def splitAt (sep : Char) : List Char → List (List Char)
  | [] => [[]]
  | c :: rest =>
    if c = sep then [] :: splitAt sep rest
    else
      match splitAt sep rest with
      | [] => [[c]]
      | part :: parts => (c :: part) :: parts

/-- The sign that `parseInt` reads: whether it is a minus, and the rest of the string. -/
def stripSign (s : List Char) : Bool × List Char :=
  match s with
  | c :: rest => if c = '-' then (true, rest) else if c = '+' then (false, rest) else (false, s)
  | [] => (false, [])

/-- The radix that `parseInt` chooses without a radix argument: 16 after a prefix `0x` or
`0X`, else 10; and the rest of the string. -/
def stripRadix (s : List Char) : Nat × List Char :=
  match s with
  | c :: d :: rest =>
    if c = '0' ∧ (d = 'x' ∨ d = 'X') then (16, rest) else (10, s)
  | _ => (10, s)

/-- The function `parseInt(string)`: white space is skipped, then a sign, then the radix
prefix, and the longest run of digits is read; `none` is `NaN`. -/
def parseInt (s : List Char) : Option Int :=
  let s := s.dropWhile isWhiteSpace
  let signed := stripSign s
  let based := stripRadix signed.2
  let digits := based.2.takeWhile (isDigitIn based.1)
  if digits = [] then none
  else
    let value : Int := (digitsValue based.1 digits : Nat)
    some (if signed.1 then -value else value)

/-- The method `toString()` of a non-negative integer. -/
def numberToString (n : Nat) : List Char :=
  Nat.toDigits 10 n

/-- The string method `padStart(targetLength, pad)` for a pad of one character. -/
def padStart (targetLength : Nat) (pad : Char) (s : List Char) : List Char :=
  List.replicate (targetLength - s.length) pad ++ s

/-- The function `formatDuration(seconds)` for a non-negative integer. -/
def formatDuration (seconds : Nat) : List Char :=
  if seconds = 0 then ['0', ':', '0', '0']
  else
    let hours := seconds / 3600
    let minutes := (seconds % 3600) / 60
    let secs := seconds % 60
    if hours > 0 then
      numberToString hours ++ [':'] ++ padStart 2 '0' (numberToString minutes) ++ [':'] ++
        padStart 2 '0' (numberToString secs)
    else
      numberToString minutes ++ [':'] ++ padStart 2 '0' (numberToString secs)

/-- The first match of the pattern `(\d+)` followed by the character `unit`: the captured
digits. `run` holds the digits read since the last character that was not a digit. -/
def matchDigitsBefore (unit : Char) : List Char → List Char → Option (List Char)
  | _, [] => none
  | run, c :: rest =>
    if isDecimalDigit c then matchDigitsBefore unit (run ++ [c]) rest
    else if c = unit ∧ run ≠ [] then some run
    else matchDigitsBefore unit [] rest

/-- The value `parseInt(match[1]) * factor` added for one unit, 0 without a match. -/
def unitSeconds (unit : Char) (factor : Nat) (s : List Char) : Nat :=
  match matchDigitsBefore unit [] s with
  | some digits => digitsValue 10 digits * factor
  | none => 0

/-- The function `parseTimeString(timeString)` applied to a string; `none` is `null`. -/
def parseTimeString (timeString : List Char) : Option Int :=
  if timeString = [] then none
  else
    let timeString := trim (toLowerCase timeString)
    if ':' ∈ timeString then
      match (splitAt ':' timeString).map parseInt with
      | [minutes, seconds] =>
        match minutes, seconds with
        | some m, some s => if s ≥ 60 then none else some (m * 60 + s)
        | _, _ => none
      | [hours, minutes, seconds] =>
        match hours, minutes, seconds with
        | some h, some m, some s =>
          if m ≥ 60 ∨ s ≥ 60 then none else some (h * 3600 + m * 60 + s)
        | _, _, _ => none
      | _ => none
    else
      let totalSeconds :=
        unitSeconds 'h' 3600 timeString + unitSeconds 'm' 60 timeString +
          unitSeconds 's' 1 timeString
      let totalSeconds :=
        if totalSeconds = 0 then
          if timeString ≠ [] ∧ timeString.all isDecimalDigit then digitsValue 10 timeString
          else totalSeconds
        else totalSeconds
      if totalSeconds > 0 then some (totalSeconds : Int) else none

/-! ## Sample data -/

/-- A first sample track, of duration 180. -/
def T1 : Song := { title := "T1", url := "u1", duration := 180, requestedBy := 1 }

/-- A second sample track. -/
def T2 : Song := { title := "T2", url := "u2", duration := 200, requestedBy := 2 }

/-- A third sample track. -/
def T3 : Song := { title := "T3", url := "u3", duration := 240, requestedBy := 1 }

/-- An environment in which every song resolves and the autoplay engine finds nothing. -/
def envOk : Env :=
  { resolve := fun _ => Resolution.ok, related := fun _ _ => Except.ok [] }

/-- An environment in which `T2` cannot be streamed and every other song resolves. -/
def envT2Fails : Env :=
  { resolve := fun s => if s = T2 then Resolution.streamError else Resolution.ok,
    related := fun _ _ => Except.ok [] }

/-- A connected session that is playing the given slots. -/
def playingQueue (songs : List (Option Song)) : Queue :=
  { connection := true, player := some AudioPlayerStatus.playing, songs := songs,
    playing := true, startTime := some 1000 }

/-- A fourth sample track. -/
def T4 : Song := { title := "T4", url := "u4", duration := 210, requestedBy := 0 }

/-- A fifth sample track. -/
def T5 : Song := { title := "T5", url := "u5", duration := 190, requestedBy := 0 }

/-- An environment in which every song resolves and the autoplay engine proposes
`[T4, T5]`. -/
def envAutoplay : Env :=
  { resolve := fun _ => Resolution.ok, related := fun _ _ => Except.ok [T4, T5] }

/-- An environment in which no song resolves. -/
def envNoneResolves : Env :=
  { resolve := fun _ => Resolution.resourceError, related := fun _ _ => Except.ok [] }

/-- A session of the `MusicPlayer` handlers whose only track `T1` has finished: the queue is
empty and the idle timer (handle 1) is pending. -/
def idleArmedQueue : Queue :=
  onIdle envOk { playingQueue [some T1] with player := some AudioPlayerStatus.idle }

/-- A session of the play command: `/play T1` at epoch 1000 on a guild without a session,
the Playing event, then the Idle event when `T1` has finished at epoch 181000. The queue is
empty and the idle timer of the play command is pending. -/
def playCommandIdleQueue : Queue :=
  onIdlePlayCommand envOk 181000
    { onPlayingPlayCommand (playEnqueue envOk 1000 7 none T1) with
      player := some AudioPlayerStatus.idle }

/-- The session `playCommandIdleQueue` after `/play T2` at epoch 200000, before the idle
timer (due at epoch 481000) fires, and the Playing event. -/
def playCommandRestartedQueue : Queue :=
  onPlayingPlayCommand (playEnqueue envOk 200000 7 (some playCommandIdleQueue) T2)

/-- Eleven track-finished events: `T1`, `T2`, `T3` in turn, the last one with the queue
loop on. -/
def elevenEvents : List FinishEvent :=
  [⟨T1, [some T2], false⟩, ⟨T2, [some T3], false⟩, ⟨T3, [], false⟩,
   ⟨T1, [some T2], false⟩, ⟨T2, [some T3], false⟩, ⟨T3, [], false⟩,
   ⟨T1, [some T2], false⟩, ⟨T2, [some T3], false⟩, ⟨T3, [], false⟩,
   ⟨T1, [some T2], false⟩, ⟨T2, [some T3], true⟩]

/-- A registered session in 24/7 mode that is playing `T1` in front of `T2`, with queue
loop on. -/
def stickySession : Session :=
  { queue := { playingQueue [some T1, some T2] with mode247 := true, loopQueue := true } }

/-- A registered session that is playing `T1` in front of `T2` after the 24/7 command has
switched 24/7 mode on, which sets `mode247` and `autoplay`. -/
def stickyAutoplaySession : Session :=
  { queue := { playingQueue [some T1, some T2] with mode247 := true, autoplay := true } }

/-- A DJ in the voice channel of the sample queues who uses the stop command. -/
def stopRequest : StopRequest :=
  { memberVoice := some 0, isDJ := true, humans := 2 }

/-- A registered session, not in 24/7 mode, that is playing `T1` in front of `T2` with
single loop on and an idle timer (handle 1) still pending. -/
def plainSession : Session :=
  { queue := { playingQueue [some T1, some T2] with
                 loop := true, timeout := some 1, liveTimers := [1], nextHandle := 2 } }

/-- A session whose player has gone idle on an empty queue, with the given loop flags;
autoplay and 24/7 mode are off and no timer is pending. -/
def emptyIdleQueue (loop loopQueue : Bool) : Queue :=
  { playingQueue [] with
      player := some AudioPlayerStatus.idle, loop := loop, loopQueue := loopQueue }

/-- A DJ in the voice channel of the sample queues who uses the pause command. -/
def pauseRequest : PauseRequest :=
  { memberVoice := some 0, isDJ := true, humans := 2, userId := 7 }

/-- An engine environment whose search answers every query with `T4` and `T5`; titles are
compared as they are. -/
def engineEnv : EngineEnv :=
  { toLowerCase := fun t => t,
    extractSearchTerms := fun title => Except.ok [title ++ " mix"],
    ytsr := fun _ _ => Except.ok [⟨true, true, true, T4⟩, ⟨true, true, true, T5⟩],
    popularIndex := 0,
    mockDuration := fun _ => 180 }

/-- The cache after `findRelatedSongs([T1], 3)` at epoch 1000 on an empty cache. -/
def cacheAfterT1 : Cache :=
  (findRelatedSongs engineEnv [] 1000 [T1] 3).2

/-! # Verification -/

/-! ## Frame lemmas for `playNext` -/

theorem clearTimeoutIfSet_songs (q : Queue) : (clearTimeoutIfSet q).songs = q.songs := by
  unfold clearTimeoutIfSet; split <;> rfl

theorem clearTimeoutIfSet_history (q : Queue) :
    (clearTimeoutIfSet q).history = q.history := by
  unfold clearTimeoutIfSet; split <;> rfl

theorem clearTimeoutIfSet_playing (q : Queue) :
    (clearTimeoutIfSet q).playing = q.playing := by
  unfold clearTimeoutIfSet; split <;> rfl

theorem attempt_started {env : Env} {q q' : Queue} {slot : Option Song}
    {rest : List (Option Song)} (h : attempt env q slot rest = Attempt.started q') :
    q' = startedState q slot rest ∧ resolveSlot env slot = Resolution.ok ∧
      (q.player ≠ none ∨ q.connection = true) := by
  unfold attempt at h
  cases hres : resolveSlot env slot <;> rw [hres] at h <;> simp only at h
  · cases hp : q.player with
    | none =>
      rw [hp] at h
      simp only at h
      by_cases hc : q.connection = true
      · rw [if_pos hc] at h
        injection h with h
        exact ⟨h.symm, rfl, Or.inr hc⟩
      · rw [if_neg hc] at h
        cases h
    | some st =>
      rw [hp] at h
      simp only at h
      injection h with h
      exact ⟨h.symm, rfl, Or.inl (by simp)⟩
  · cases h
  · cases h

theorem attempt_failed {env : Env} {q q' : Queue} {slot : Option Song}
    {rest : List (Option Song)} {title : String}
    (h : attempt env q slot rest = Attempt.failed q' title) :
    (q' = q ∨ q' = { q with player := some AudioPlayerStatus.idle }) ∧
      (resolveSlot env slot ≠ Resolution.ok ∨ (q.player = none ∧ q.connection = false)) := by
  unfold attempt at h
  cases hres : resolveSlot env slot <;> rw [hres] at h <;> simp only at h
  · cases hp : q.player with
    | none =>
      rw [hp] at h
      simp only at h
      by_cases hc : q.connection = true
      · rw [if_pos hc] at h
        cases h
      · rw [if_neg hc] at h
        injection h with h _
        refine ⟨Or.inr h.symm, Or.inr ⟨rfl, ?_⟩⟩
        simpa using hc
    | some st =>
      rw [hp] at h
      simp only at h
      cases h
  · injection h with h _
    exact ⟨Or.inl h.symm, Or.inl (by simp)⟩
  · injection h with h _
    exact ⟨Or.inl h.symm, Or.inl (by simp)⟩

theorem attempt_ok {env : Env} {q : Queue} {slot : Option Song} (rest : List (Option Song))
    (hres : resolveSlot env slot = Resolution.ok)
    (hp : q.player ≠ none ∨ q.connection = true) :
    attempt env q slot rest = Attempt.started (startedState q slot rest) := by
  unfold attempt startedState
  rw [hres]
  cases hq : q.player with
  | none =>
    rcases hp with hp | hp
    · exact absurd hq hp
    · simp [hp]
  | some st => rfl

theorem playNextFrom_ok {env : Env} {q : Queue} {slot : Option Song}
    (rest : List (Option Song)) (hres : resolveSlot env slot = Resolution.ok)
    (hp : q.player ≠ none ∨ q.connection = true) :
    playNextFrom env q slot rest = startedState q slot rest := by
  cases rest <;> simp [playNextFrom, attempt_ok _ hres hp]

theorem startedState_songs (q : Queue) (slot : Option Song) (rest : List (Option Song)) :
    (startedState q slot rest).songs = slot :: rest := by
  simp [startedState, clearTimeoutIfSet_songs]

theorem startedState_history (q : Queue) (slot : Option Song) (rest : List (Option Song)) :
    (startedState q slot rest).history = q.history := by
  simp [startedState, clearTimeoutIfSet_history]

theorem startedState_playing (q : Queue) (slot : Option Song) (rest : List (Option Song)) :
    (startedState q slot rest).playing = true := by
  simp [startedState, clearTimeoutIfSet_playing]

theorem playNextFrom_history (env : Env) (rest : List (Option Song)) :
    ∀ (q : Queue) (slot : Option Song),
      (playNextFrom env q slot rest).history = q.history := by
  induction rest with
  | nil =>
    intro q slot
    unfold playNextFrom
    cases h : attempt env q slot [] with
    | started q' => simp [(attempt_started h).1, startedState_history]
    | failed q' title => rcases (attempt_failed h).1 with e | e <;> simp [e, send]
  | cons next rest ih =>
    intro q slot
    unfold playNextFrom
    cases h : attempt env q slot (next :: rest) with
    | started q' => simp [(attempt_started h).1, startedState_history]
    | failed q' title => rcases (attempt_failed h).1 with e | e <;> simp [e, ih]

theorem playNextFrom_suffix (env : Env) (rest : List (Option Song)) :
    ∀ (q : Queue) (slot : Option Song),
      (playNextFrom env q slot rest).songs <:+ slot :: rest := by
  induction rest with
  | nil =>
    intro q slot
    unfold playNextFrom
    cases h : attempt env q slot [] with
    | started q' => simp [(attempt_started h).1, startedState_songs]
    | failed q' title => simp [send]
  | cons next rest ih =>
    intro q slot
    unfold playNextFrom
    cases h : attempt env q slot (next :: rest) with
    | started q' => simp [(attempt_started h).1, startedState_songs]
    | failed q' title => exact (ih q' next).trans (List.suffix_cons _ _)

theorem playNext_history (env : Env) (q : Queue) : (playNext env q).history = q.history := by
  unfold playNext
  split
  · rfl
  · exact playNextFrom_history env _ _ _

theorem playNext_suffix (env : Env) (q : Queue) : (playNext env q).songs <:+ q.songs := by
  unfold playNext
  split
  next h => simp [armTimeout, h]
  next slot rest h => rw [h]; exact playNextFrom_suffix env _ _ _

/-! ## Lemmas on the Idle handler -/

theorem handleAutoplay_history {env : Env} {q q' : Queue}
    (h : handleAutoplay env q = Except.ok q') : q'.history = q.history := by
  unfold handleAutoplay at h
  split at h
  · injection h with h; rw [← h]
  · split at h
    · cases h
    · split at h
      · injection h with h
        rw [← h, playNext_history]
        rfl
      · injection h with h; rw [← h]

theorem onIdle_history (env : Env) (q : Queue) :
    (onIdle env q).history = (finishAdvance q).history := by
  unfold onIdle
  simp only
  split
  · exact playNext_history env _
  · have key : ∀ q1 : Queue, q1.history = (finishAdvance q).history →
        (if (!q1.mode247 && q1.songs.length == 0) = true then armTimeout q1 else q1).history
          = (finishAdvance q).history := by
      intro q1 h1
      split
      · simpa [armTimeout] using h1
      · exact h1
    apply key
    split
    · split
      next q' hq' => rw [handleAutoplay_history hq']
      next => rfl
    · rfl

theorem finishAdvance_of_cons {q : Queue} {slot : Option Song} {rest : List (Option Song)}
    (hq : q.songs = slot :: rest) (hl : q.loop = false) :
    (finishAdvance q).songs = (if q.loopQueue then rest ++ [slot] else rest) ∧
      (finishAdvance q).history =
        (match slot with
         | some s => pushHistory q.history s
         | none => q.history) := by
  unfold finishAdvance cleanupProgress stopProgressTracking
  cases hi : q.progressInterval <;> cases slot <;> cases hlq : q.loopQueue <;>
    simp [hq, hl, hlq, jsShift]

theorem finishAdvance_of_loop {q : Queue} (hl : q.loop = true) :
    (finishAdvance q).songs = q.songs ∧ (finishAdvance q).history = q.history := by
  unfold finishAdvance cleanupProgress stopProgressTracking
  cases hi : q.progressInterval <;> simp [hl]

theorem finishAdvance_frame (q : Queue) :
    (finishAdvance q).player = q.player ∧ (finishAdvance q).connection = q.connection ∧
      (finishAdvance q).autoplay = q.autoplay ∧ (finishAdvance q).mode247 = q.mode247 ∧
      (finishAdvance q).loop = q.loop ∧ (finishAdvance q).loopQueue = q.loopQueue := by
  unfold finishAdvance cleanupProgress stopProgressTracking
  cases hi : q.progressInterval <;> cases hl : q.loop <;> cases hlq : q.loopQueue <;>
    cases hs : (jsShift q.songs).1 <;> simp [hl, hlq, hs]

theorem pushHistory_getLast (history : List Song) (s : Song) :
    (pushHistory history s).getLast? = some s := by
  unfold pushHistory
  simp only
  split
  · cases history with
    | nil => simp at *
    | cons a l => simp [List.getLast?_append]
  · simp

theorem onIdle_of_nonempty {env : Env} {q : Queue} (h : (finishAdvance q).songs ≠ []) :
    onIdle env q = playNext env (finishAdvance q) := by
  unfold onIdle
  simp only
  rw [if_pos (List.length_pos.mpr h)]

theorem onIdle_of_empty {env : Env} {q : Queue} (h : (finishAdvance q).songs = [])
    (ha : q.autoplay = false) (hm : q.mode247 = false) :
    onIdle env q = armTimeout { finishAdvance q with playing := false } := by
  unfold onIdle
  have h1 := (finishAdvance_frame q).2.2.1
  have h2 := (finishAdvance_frame q).2.2.2.1
  simp [h, h1, h2, ha, hm]

theorem armTimeout_armed (q : Queue) : idleTimerArmed (armTimeout q) = true := by
  simp [idleTimerArmed, armTimeout]

theorem playNext_ok {env : Env} {q : Queue} {slot : Option Song} {rest : List (Option Song)}
    (hq : q.songs = slot :: rest) (hres : resolveSlot env slot = Resolution.ok)
    (hp : q.player ≠ none ∨ q.connection = true) :
    playNext env q = startedState q slot rest := by
  unfold playNext
  rw [hq]
  exact playNextFrom_ok rest hres hp

/-! ## The finish transition in the three loop modes -/

/-- C1: on a queue `some t :: rest` with `loop = false` and `loopQueue = false` the Idle
(track finished) handler shifts `t` out and pushes it on the history (which keeps its last
10 entries, so `t` is its last entry and, below 10 entries, the history is the old one
followed by `t`); the queue handed to `playNext` is exactly `rest`, the final queue is a
suffix of `rest` and is `rest` itself when the next slot starts playing. When `rest` is
empty, autoplay is off and 24/7 mode is off, the session ends with an empty queue,
`playing = false` and the idle timer armed. -/
theorem onIdle_loop_off (env : Env) (q : Queue) (t : Song) (rest : List (Option Song))
    (hq : q.songs = some t :: rest) (hl : q.loop = false) (hlq : q.loopQueue = false) :
    (finishAdvance q).songs = rest ∧
    (onIdle env q).history = pushHistory q.history t ∧
    (onIdle env q).history.getLast? = some t ∧
    (q.history.length < 10 → (onIdle env q).history = q.history ++ [t]) ∧
    (rest ≠ [] → onIdle env q = playNext env (finishAdvance q) ∧
      (onIdle env q).songs <:+ rest) ∧
    (∀ next rest', rest = next :: rest' → resolveSlot env next = Resolution.ok →
      (q.player ≠ none ∨ q.connection = true) →
      (onIdle env q).songs = rest ∧ (onIdle env q).playing = true) ∧
    (rest = [] → q.autoplay = false → q.mode247 = false →
      (onIdle env q).songs = [] ∧ (onIdle env q).playing = false ∧
      idleTimerArmed (onIdle env q) = true) := by
  have hadv := finishAdvance_of_cons hq hl
  rw [hlq] at hadv
  simp only [Bool.false_eq_true, if_false] at hadv
  have hhist : (onIdle env q).history = pushHistory q.history t := by
    rw [onIdle_history, hadv.2]
  have hfr := finishAdvance_frame q
  refine ⟨hadv.1, hhist, ?_, ?_, ?_, ?_, ?_⟩
  · rw [hhist]; exact pushHistory_getLast _ _
  · intro hlen
    rw [hhist]
    unfold pushHistory
    simp only [List.length_append, List.length_singleton]
    rw [if_neg (by omega)]
  · intro hne
    have h1 : onIdle env q = playNext env (finishAdvance q) :=
      onIdle_of_nonempty (by rw [hadv.1]; exact hne)
    refine ⟨h1, ?_⟩
    rw [h1]
    have := playNext_suffix env (finishAdvance q)
    rwa [hadv.1] at this
  · intro next rest' hrest hres hp
    have hne : (finishAdvance q).songs ≠ [] := by rw [hadv.1, hrest]; simp
    have hs : (finishAdvance q).songs = next :: rest' := by rw [hadv.1, hrest]
    have hp' : (finishAdvance q).player ≠ none ∨ (finishAdvance q).connection = true := by
      rw [hfr.1, hfr.2.1]; exact hp
    rw [onIdle_of_nonempty hne, playNext_ok hs hres hp', startedState_songs,
      startedState_playing, hrest]
    exact ⟨rfl, rfl⟩
  · intro hrest ha hm
    have hs : (finishAdvance q).songs = [] := by rw [hadv.1, hrest]
    rw [onIdle_of_empty hs ha hm]
    exact ⟨by simp [armTimeout, hs], by simp [armTimeout], armTimeout_armed _⟩

/-- Scenario A of the specification: `T1` alone in the queue, loop off, autoplay off, 24/7
off; after the track finishes the history is `[T1]`, the queue is empty, the session is not
playing and the idle timer is armed. -/
theorem onIdle_loop_off_witness :
    (playingQueue [some T1]).songs = some T1 :: [] ∧
    (onIdle envOk (playingQueue [some T1])).history = [T1] ∧
    (onIdle envOk (playingQueue [some T1])).songs = [] ∧
    (onIdle envOk (playingQueue [some T1])).playing = false ∧
    idleTimerArmed (onIdle envOk (playingQueue [some T1])) = true := by
  have h := onIdle_loop_off envOk (playingQueue [some T1]) T1 [] rfl rfl rfl
  have h7 := h.2.2.2.2.2.2 rfl rfl rfl
  exact ⟨rfl, h.2.2.2.1 (by decide), h7.1, h7.2.1, h7.2.2⟩

/-- C2: on a queue `some t :: rest` with `loop = false` and `loopQueue = true` the Idle
handler moves the finished track from the head to the tail: the queue handed to `playNext`
is `rest ++ [some t]` (so `[some t]` again for a one-track queue), `t` is pushed on the
history, and when the new head slot starts playing the session ends with exactly that queue
and `playing = true`. In general the final queue is what `playNext` leaves of
`rest ++ [some t]`, a suffix of it. -/
theorem onIdle_loop_queue (env : Env) (q : Queue) (t : Song) (rest : List (Option Song))
    (hq : q.songs = some t :: rest) (hl : q.loop = false) (hlq : q.loopQueue = true) :
    (finishAdvance q).songs = rest ++ [some t] ∧
    (onIdle env q).history = pushHistory q.history t ∧
    (onIdle env q).history.getLast? = some t ∧
    onIdle env q = playNext env (finishAdvance q) ∧
    (onIdle env q).songs <:+ rest ++ [some t] ∧
    (resolveSlot env ((rest ++ [some t]).head (by simp)) = Resolution.ok →
      (q.player ≠ none ∨ q.connection = true) →
      (onIdle env q).songs = rest ++ [some t] ∧ (onIdle env q).playing = true ∧
      (onIdle env q).songs.head? = (rest ++ [some t]).head?) := by
  have hadv := finishAdvance_of_cons hq hl
  rw [hlq] at hadv
  simp only [if_true] at hadv
  have hhist : (onIdle env q).history = pushHistory q.history t := by
    rw [onIdle_history, hadv.2]
  have hfr := finishAdvance_frame q
  have hne : (finishAdvance q).songs ≠ [] := by rw [hadv.1]; simp
  have h1 : onIdle env q = playNext env (finishAdvance q) := onIdle_of_nonempty hne
  refine ⟨hadv.1, hhist, ?_, h1, ?_, ?_⟩
  · rw [hhist]; exact pushHistory_getLast _ _
  · rw [h1]
    have := playNext_suffix env (finishAdvance q)
    rwa [hadv.1] at this
  · intro hres hp
    have hp' : (finishAdvance q).player ≠ none ∨ (finishAdvance q).connection = true := by
      rw [hfr.1, hfr.2.1]; exact hp
    have hs : (finishAdvance q).songs =
        (rest ++ [some t]).head (by simp) :: (rest ++ [some t]).tail := by
      rw [hadv.1]; exact (List.head_cons_tail _ _).symm
    have hsongs : (onIdle env q).songs = rest ++ [some t] := by
      rw [h1, playNext_ok hs hres hp', startedState_songs]
      exact List.head_cons_tail _ _
    refine ⟨hsongs, ?_, by rw [hsongs]⟩
    rw [h1, playNext_ok hs hres hp', startedState_playing]

/-- Scenario B of the specification: `T1` alone in the queue with queue loop on; after the
track finishes the queue is `[T1]` again, the history is `[T1]` and the session is playing. -/
theorem onIdle_loop_queue_witness :
    (onIdle envOk { playingQueue [some T1] with loopQueue := true }).songs = [some T1] ∧
    (onIdle envOk { playingQueue [some T1] with loopQueue := true }).playing = true ∧
    (onIdle envOk { playingQueue [some T1] with loopQueue := true }).history = [T1] := by
  have h := onIdle_loop_queue envOk { playingQueue [some T1] with loopQueue := true } T1 []
    rfl rfl rfl
  have h6 := h.2.2.2.2.2 rfl (Or.inr rfl)
  exact ⟨h6.1, h6.2.1, h.2.1⟩

/-- C3: on a non-empty queue with `loop = true` the Idle handler shifts nothing: the queue
and the history it hands to `playNext` are the old ones, the history stays unchanged
whatever happens next, and when the head track starts playing again the session ends with
the unchanged queue, the same head and `playing = true`. -/
theorem onIdle_loop_single (env : Env) (q : Queue) (t : Song) (rest : List (Option Song))
    (hq : q.songs = some t :: rest) (hl : q.loop = true) :
    (finishAdvance q).songs = q.songs ∧
    (finishAdvance q).history = q.history ∧
    (onIdle env q).history = q.history ∧
    onIdle env q = playNext env (finishAdvance q) ∧
    (env.resolve t = Resolution.ok → (q.player ≠ none ∨ q.connection = true) →
      (onIdle env q).songs = q.songs ∧ (onIdle env q).playing = true ∧
      (onIdle env q).songs.head? = some (some t)) := by
  have hadv := finishAdvance_of_loop hl
  have hfr := finishAdvance_frame q
  have hne : (finishAdvance q).songs ≠ [] := by rw [hadv.1, hq]; simp
  have h1 : onIdle env q = playNext env (finishAdvance q) := onIdle_of_nonempty hne
  refine ⟨hadv.1, hadv.2, by rw [onIdle_history, hadv.2], h1, ?_⟩
  intro hres hp
  have hp' : (finishAdvance q).player ≠ none ∨ (finishAdvance q).connection = true := by
    rw [hfr.1, hfr.2.1]; exact hp
  have hs : (finishAdvance q).songs = some t :: rest := by rw [hadv.1, hq]
  have hsongs : (onIdle env q).songs = q.songs := by
    rw [h1, playNext_ok hs hres hp', startedState_songs, hq]
  refine ⟨hsongs, ?_, by rw [hsongs, hq]; rfl⟩
  rw [h1, playNext_ok hs hres hp', startedState_playing]

/-- With single loop on, a finished `T1` in front of `T2` is replayed and nothing moves. -/
theorem onIdle_loop_single_witness :
    (onIdle envOk { playingQueue [some T1, some T2] with loop := true }).songs
      = [some T1, some T2] ∧
    (onIdle envOk { playingQueue [some T1, some T2] with loop := true }).history = [] ∧
    (onIdle envOk { playingQueue [some T1, some T2] with loop := true }).playing = true := by
  have h := onIdle_loop_single envOk { playingQueue [some T1, some T2] with loop := true }
    T1 [some T2] rfl rfl
  have h5 := h.2.2.2.2 rfl (Or.inr rfl)
  exact ⟨h5.1, h.2.2.1, h5.2.1⟩

/-! ## Skip -/

theorem onIdle_replays {env : Env} {q : Queue} {t : Song} {rest : List (Option Song)}
    (hq : q.songs = some t :: rest) (hl : q.loop = true)
    (hres : env.resolve t = Resolution.ok) (hp : q.player ≠ none ∨ q.connection = true) :
    (onIdle env q).songs = some t :: rest ∧ (onIdle env q).history = q.history ∧
      (onIdle env q).playing = true := by
  have hadv := finishAdvance_of_loop hl
  have hfr := finishAdvance_frame q
  have hs : (finishAdvance q).songs = some t :: rest := by rw [hadv.1, hq]
  have hne : (finishAdvance q).songs ≠ [] := by rw [hs]; simp
  have hp' : (finishAdvance q).player ≠ none ∨ (finishAdvance q).connection = true := by
    rw [hfr.1, hfr.2.1]; exact hp
  have hres' : resolveSlot env (some t) = Resolution.ok := hres
  refine ⟨?_, by rw [onIdle_history, hadv.2], ?_⟩
  · rw [onIdle_of_nonempty hne, playNext_ok hs hres' hp', startedState_songs]
  · rw [onIdle_of_nonempty hne, playNext_ok hs hres' hp', startedState_playing]

theorem onIdle_advances {env : Env} {q : Queue} {t : Song} {next : Option Song}
    {rest : List (Option Song)} (hq : q.songs = some t :: next :: rest)
    (hl : q.loop = false) (hlq : q.loopQueue = false)
    (hres : resolveSlot env next = Resolution.ok)
    (hp : q.player ≠ none ∨ q.connection = true) :
    (onIdle env q).songs = next :: rest ∧ (onIdle env q).history = pushHistory q.history t ∧
      (onIdle env q).playing = true := by
  have hadv := finishAdvance_of_cons hq hl
  rw [hlq] at hadv
  simp only [Bool.false_eq_true, if_false] at hadv
  have hfr := finishAdvance_frame q
  have hne : (finishAdvance q).songs ≠ [] := by rw [hadv.1]; simp
  have hp' : (finishAdvance q).player ≠ none ∨ (finishAdvance q).connection = true := by
    rw [hfr.1, hfr.2.1]; exact hp
  refine ⟨?_, by rw [onIdle_history, hadv.2], ?_⟩
  · rw [onIdle_of_nonempty hne, playNext_ok hadv.1 hres hp', startedState_songs]
  · rw [onIdle_of_nonempty hne, playNext_ok hadv.1 hres hp', startedState_playing]

theorem skip_eq_onIdle {env : Env} {q : Queue}
    (hplay : q.playing = true) (hst : q.player = some AudioPlayerStatus.playing) :
    skip env q = (Except.ok (),
      onIdle env { q with player := some AudioPlayerStatus.idle, stopRequested := false }) := by
  simp [skip, playerStop, playerCycle, hst, hplay]

/-- A skip on a paused player only leaves the stop request with the player: no Idle event
is emitted, so the Idle handler does not run and the queue stays as it is. -/
theorem skip_of_paused {env : Env} {q : Queue}
    (hplay : q.playing = true) (hst : q.player = some AudioPlayerStatus.paused) :
    skip env q = (Except.ok (), { q with stopRequested := true }) := by
  simp [skip, playerStop, playerCycle, hst, hplay]

/-- On a session whose player is playing the queue `some t :: rest`, `skip` succeeds and the
Idle handler runs as after a natural finish. With `loop = true` nothing is shifted: when `t`
resolves again the queue and history are unchanged and `t` is replayed. With both loop flags
off the skip advances past `t` exactly once: `t` goes to the history and, when the next
slot starts playing, the queue is `rest`. -/
theorem skip_runs_finish (env : Env) (q : Queue) (t : Song) (rest : List (Option Song))
    (hq : q.songs = some t :: rest) (hplay : q.playing = true)
    (hst : q.player = some AudioPlayerStatus.playing) :
    (skip env q).1 = Except.ok () ∧
    (q.loop = true → env.resolve t = Resolution.ok →
      (skip env q).2.songs = some t :: rest ∧ (skip env q).2.history = q.history ∧
      (skip env q).2.playing = true) ∧
    (q.loop = false → q.loopQueue = false →
      ∀ next rest', rest = next :: rest' → resolveSlot env next = Resolution.ok →
        (skip env q).2.songs = rest ∧ (skip env q).2.history = pushHistory q.history t ∧
        (skip env q).2.playing = true) := by
  rw [skip_eq_onIdle hplay hst]
  refine ⟨rfl, ?_, ?_⟩
  · intro hl hres
    exact @onIdle_replays env
      { q with player := some AudioPlayerStatus.idle, stopRequested := false } t rest
      hq hl hres (Or.inl (by simp))
  · intro hl hlq next rest' hrest hres
    subst hrest
    exact @onIdle_advances env
      { q with player := some AudioPlayerStatus.idle, stopRequested := false } t next rest'
      hq hl hlq hres (Or.inl (by simp))

/-- With loop off, skipping `T1` in front of `T2` leaves `[T2]` playing and `T1` in the
history. -/
theorem skip_runs_finish_witness :
    (skip envOk (playingQueue [some T1, some T2])).2.songs = [some T2] ∧
    (skip envOk (playingQueue [some T1, some T2])).2.history = pushHistory [] T1 ∧
    (skip envOk (playingQueue [some T1, some T2])).2.playing = true :=
  (skip_runs_finish envOk (playingQueue [some T1, some T2]) T1 [some T2]
    rfl rfl rfl).2.2 rfl rfl (some T2) [] rfl rfl

/-- C4 fails in the loop mode Single. On the session that is playing `[T1, T2]` with
`loop = true`, `skip` succeeds and the Idle handler that the stopped player triggers shifts
nothing and plays the head again: afterwards the queue is still `[T1, T2]`, `T1` is
`queue[0]` and is playing again, `T2` has not become current and nothing went to the
history. The same skip with loop off advances to `[T2]` with `T1` in the history, which is
what the skip command announces (`Skipped T1`). -/
theorem skip_loop_single_counterexample :
    (skip envOk { playingQueue [some T1, some T2] with loop := true }).1 = Except.ok () ∧
    (skip envOk { playingQueue [some T1, some T2] with loop := true }).2.songs
      = [some T1, some T2] ∧
    (skip envOk { playingQueue [some T1, some T2] with loop := true }).2.songs.head?
      ≠ some (some T2) ∧
    (skip envOk { playingQueue [some T1, some T2] with loop := true }).2.history = [] ∧
    (skip envOk { playingQueue [some T1, some T2] with loop := true }).2.playing = true ∧
    (skip envOk { playingQueue [some T1, some T2] with loop := true }).2.player
      = some AudioPlayerStatus.playing ∧
    (skip envOk (playingQueue [some T1, some T2])).2.songs = [some T2] ∧
    (skip envOk (playingQueue [some T1, some T2])).2.history = [T1] :=
  ⟨rfl, by decide, by decide, by decide, by decide, by decide, by decide, by decide⟩

/-! ## Shuffle -/

theorem swapAt_length {α : Type} (l : List α) (i j : Nat) :
    (swapAt l i j).length = l.length := by
  unfold swapAt
  split <;> simp

theorem swapAt_perm {α : Type} [DecidableEq α] (l : List α) (i j : Nat) :
    (swapAt l i j).Perm l := by
  unfold swapAt
  split
  next x y hx hy =>
    obtain ⟨hi, hxi⟩ := List.getElem?_eq_some.mp hx
    obtain ⟨hj, hyj⟩ := List.getElem?_eq_some.mp hy
    rw [List.perm_iff_count]
    intro a
    have hj' : j < (l.set i y).length := by simpa using hj
    rw [List.count_set _ _ _ _ hj', List.count_set _ _ _ _ hi]
    have hget : (l.set i y)[j] = y := by
      rw [List.getElem_set]
      split
      · rfl
      · exact hyj
    rw [hget, hxi]
    have hxpos : x = a → 0 < l.count a := by
      intro h; subst h
      exact List.count_pos_iff.mpr (hxi ▸ List.getElem_mem _)
    by_cases h1 : x = a
    · have hpos := hxpos h1
      by_cases h2 : y = a <;> simp [h1, h2] <;> omega
    · by_cases h2 : y = a <;> simp [h1, h2]
  next => exact List.Perm.refl _

theorem fisherYates_length {α : Type} (rnd : (i : Nat) → Fin (i + 1)) (n : Nat) :
    ∀ l : List α, (fisherYates rnd n l).length = l.length := by
  induction n with
  | zero => intro l; rfl
  | succ i ih => intro l; simp [fisherYates, ih, swapAt_length]

theorem fisherYates_perm {α : Type} [DecidableEq α] (rnd : (i : Nat) → Fin (i + 1))
    (n : Nat) : ∀ l : List α, (fisherYates rnd n l).Perm l := by
  induction n with
  | zero => intro l; exact List.Perm.refl _
  | succ i ih => intro l; exact (ih _).trans (swapAt_perm _ _ _)

/-- C5: for every outcome `rnd` of the random source, `shuffleQueue` on a queue of at least
2 slots succeeds, keeps the head slot and the length and leaves in the tail a permutation of
the old tail; on a queue of fewer than 2 slots it throws `Not enough songs to shuffle` and
the queue object is unchanged. -/
theorem shuffleQueue_spec (rnd : (i : Nat) → Fin (i + 1)) (q : Queue) :
    (2 ≤ q.songs.length →
      (shuffleQueue rnd q).1 = Except.ok () ∧
      (shuffleQueue rnd q).2.songs.head? = q.songs.head? ∧
      (shuffleQueue rnd q).2.songs.length = q.songs.length ∧
      (shuffleQueue rnd q).2.songs.tail.Perm q.songs.tail) ∧
    (q.songs.length < 2 →
      (shuffleQueue rnd q).1 = Except.error "Not enough songs to shuffle" ∧
      (shuffleQueue rnd q).2 = q) := by
  constructor
  · intro h
    unfold shuffleQueue
    rw [if_neg (by omega)]
    cases hs : q.songs with
    | nil => rw [hs] at h; simp at h
    | cons c r =>
      simp only [List.head?_cons, List.length_cons, List.tail_cons, fisherYates_length,
        true_and]
      exact fisherYates_perm _ _ _
  · intro h
    unfold shuffleQueue
    rw [if_pos (by omega)]
    exact ⟨rfl, rfl⟩

/-- A shuffle of `[T1, T2, T3]` in which the random source always draws `0` keeps `T1` in
front and exchanges `T2` and `T3`; a shuffle of `[T1]` is refused. -/
theorem shuffleQueue_spec_witness :
    (shuffleQueue (fun _ => 0) (playingQueue [some T1, some T2, some T3])).2.songs
      = [some T1, some T3, some T2] ∧
    (shuffleQueue (fun _ => 0) (playingQueue [some T1, some T2, some T3])).2.songs.tail.Perm
      [some T2, some T3] ∧
    (shuffleQueue (fun _ => 0) (playingQueue [some T1])).1
      = Except.error "Not enough songs to shuffle" ∧
    (shuffleQueue (fun _ => 0) (playingQueue [some T1])).2 = playingQueue [some T1] :=
  ⟨by decide,
   ((shuffleQueue_spec (fun _ => 0) (playingQueue [some T1, some T2, some T3])).1
      (by decide)).2.2.2,
   ((shuffleQueue_spec (fun _ => 0) (playingQueue [some T1])).2 (by decide)).1,
   ((shuffleQueue_spec (fun _ => 0) (playingQueue [some T1])).2 (by decide)).2⟩

/-! ## Remove -/

/-- C6: on a non-empty queue the remove command with `position = 1` never changes the
registry entry and never reports a removal, whoever calls it; for a member who is in the
voice channel of the queue (the check made first by `execute`) the reply is
`Cannot Remove Current Song`. -/
theorem removeCommand_position_one (req : RemoveRequest) (q : Queue) (hne : q.songs ≠ [])
    (hpos : req.position = 1) :
    (removeCommand req (some q)).2 = some q ∧
    (removeCommand req (some q)).1 ≠ "Song Removed" ∧
    (req.memberVoice = some q.voiceChannel →
      (removeCommand req (some q)).1 = "Cannot Remove Current Song") := by
  have hlen : q.songs.length ≠ 0 := by
    intro h; exact hne (List.length_eq_zero.mp h)
  have hle : ¬ ((1 : Int) > (q.songs.length : Int)) := by omega
  unfold removeCommand
  cases hv : req.memberVoice with
  | none => simp
  | some vc =>
    simp only [hpos, if_neg hlen, if_neg hle]
    by_cases hvc : vc = q.voiceChannel
    · simp [hvc]
    · simp only [ne_eq, hvc, not_false_eq_true, if_true, true_and]
      refine ⟨by decide, ?_⟩
      intro h
      injection h with h
      exact absurd h hvc

/-- A DJ in the voice channel of the queue `[T1, T2]` who asks to remove position 1 is told
`Cannot Remove Current Song` and the queue stays `[T1, T2]`. -/
theorem removeCommand_position_one_witness :
    (removeCommand
        { memberVoice := some 0, isDJ := true, userId := 7, humans := 3, position := 1 }
        (some (playingQueue [some T1, some T2]))).1 = "Cannot Remove Current Song" ∧
    (removeCommand
        { memberVoice := some 0, isDJ := true, userId := 7, humans := 3, position := 1 }
        (some (playingQueue [some T1, some T2]))).2 = some (playingQueue [some T1, some T2]) :=
  have h := removeCommand_position_one
    { memberVoice := some 0, isDJ := true, userId := 7, humans := 3, position := 1 }
    (playingQueue [some T1, some T2]) (by decide) rfl
  ⟨h.2.2 rfl, h.1⟩

theorem jsSplice1_of_nonneg (l : List (Option Song)) {i : Int} (h0 : 0 ≤ i) :
    jsSplice1 l i = ((l[i.toNat]?).join, l.eraseIdx i.toNat) := by
  unfold jsSplice1
  simp only
  rw [if_neg (by omega)]

theorem removeSong_of_valid (q : Queue) {i : Int} (h0 : 0 ≤ i) (h1 : i < (q.songs.length : Int)) :
    removeSong q i =
      (Except.ok (q.songs[i.toNat]?).join, { q with songs := q.songs.eraseIdx i.toNat }) := by
  unfold removeSong
  have hc : (decide (i < 0) || decide (i ≥ (q.songs.length : Int))) = false := by
    simp only [Bool.or_eq_false_iff, decide_eq_false_iff_not]
    omega
  rw [hc, jsSplice1_of_nonneg _ h0]
  rfl

theorem removeSong_of_invalid (q : Queue) {i : Int} (h : i < 0 ∨ (q.songs.length : Int) ≤ i) :
    removeSong q i = (Except.error "Invalid song index", q) := by
  unfold removeSong
  have hc : (decide (i < 0) || decide (i ≥ (q.songs.length : Int))) = true := by
    simp only [Bool.or_eq_true, decide_eq_true_eq]
    omega
  rw [hc]
  rfl

/-- The claim C7 fails: `removeSong` applied to the playing queue `[T1, T2]` and index `0`
is not rejected; it returns `T1` and leaves `[T2]`. -/
theorem removeSong_zero_counterexample :
    (removeSong (playingQueue [some T1, some T2]) 0).1 = Except.ok (some T1) ∧
    (removeSong (playingQueue [some T1, some T2]) 0).2.songs = [some T2] :=
  ⟨rfl, by decide⟩

/-- C7, amended: `removeSong` checks the range of the index only. On every non-empty queue
`slot :: rest`, `removeSong(queue, 0)` succeeds, returns the head slot and leaves `rest`.
The current track is protected by the remove command instead: whatever the request with a
position of at least 1, the head of the queue after the command is the head before it. -/
theorem removeSong_zero_removes_head (q : Queue) (slot : Option Song)
    (rest : List (Option Song)) (hq : q.songs = slot :: rest) :
    (removeSong q 0).1 = Except.ok slot ∧
    (removeSong q 0).2 = { q with songs := rest } ∧
    (∀ req : RemoveRequest, 1 ≤ req.position →
      ∃ q', (removeCommand req (some q)).2 = some q' ∧ q'.songs.head? = some slot) := by
  have h := removeSong_of_valid q (le_refl (0 : Int)) (by rw [hq]; simp)
  refine ⟨by rw [h]; simp [hq], by rw [h]; simp [hq], ?_⟩
  intro req hpos
  unfold removeCommand
  cases req.memberVoice with
  | none => exact ⟨q, rfl, by simp [hq]⟩
  | some vc =>
    simp only
    split
    · exact ⟨q, rfl, by simp [hq]⟩
    · split
      · exact ⟨q, rfl, by simp [hq]⟩
      · split
        · exact ⟨q, rfl, by simp [hq]⟩
        · split
          · exact ⟨q, rfl, by simp [hq]⟩
          · next hne1 =>
            have h2 : 0 ≤ req.position - 1 := by omega
            have h3 : (req.position - 1).toNat = (req.position - 1).toNat - 1 + 1 := by omega
            have hhead : ((jsSplice1 q.songs (req.position - 1)).2).head? = some slot := by
              rw [jsSplice1_of_nonneg _ h2, hq, h3]
              simp
            split
            · exact ⟨q, rfl, by simp [hq]⟩
            · exact ⟨q, rfl, by simp [hq]⟩
            · split
              · exact ⟨_, rfl, hhead⟩
              · exact ⟨_, rfl, hhead⟩

/-- On the queue `[T1, T2]`, `removeSong` with index 0 returns `T1` and leaves `[T2]`, while
the remove command with position 2 keeps `T1` in front. -/
theorem removeSong_zero_removes_head_witness :
    (removeSong (playingQueue [some T1, some T2]) 0).1 = Except.ok (some T1) ∧
    (removeSong (playingQueue [some T1, some T2]) 0).2
      = { playingQueue [some T1, some T2] with songs := [some T2] } ∧
    (∃ q', (removeCommand
        { memberVoice := some 0, isDJ := true, userId := 7, humans := 3, position := 2 }
        (some (playingQueue [some T1, some T2]))).2 = some q' ∧
      q'.songs.head? = some (some T1)) :=
  have h := removeSong_zero_removes_head (playingQueue [some T1, some T2]) (some T1)
    [some T2] rfl
  ⟨h.1, h.2.1,
    h.2.2 { memberVoice := some 0, isDJ := true, userId := 7, humans := 3, position := 2 }
      (by decide)⟩

/-- C8: for a queue of `n` slots and an integer `i`, `removeSong` throws
`Invalid song index` exactly when `i < 0` or `i >= n`, and then the queue object is
unchanged; otherwise it returns the slot at index `i`, and the queue becomes the slots
before `i` followed by the slots after `i`, one slot shorter. -/
theorem removeSong_spec (q : Queue) (i : Int) :
    ((removeSong q i).1 = Except.error "Invalid song index" ↔
      (i < 0 ∨ (q.songs.length : Int) ≤ i)) ∧
    ((i < 0 ∨ (q.songs.length : Int) ≤ i) → (removeSong q i).2 = q) ∧
    (0 ≤ i → i < (q.songs.length : Int) →
      ∃ slot, q.songs[i.toNat]? = some slot ∧
        (removeSong q i).1 = Except.ok slot ∧
        (removeSong q i).2.songs = q.songs.take i.toNat ++ q.songs.drop (i.toNat + 1) ∧
        (removeSong q i).2.songs.length + 1 = q.songs.length) := by
  refine ⟨⟨?_, ?_⟩, ?_, ?_⟩
  · intro h
    by_contra hc
    have h0 : 0 ≤ i := by omega
    have h1 : i < (q.songs.length : Int) := by omega
    rw [removeSong_of_valid q h0 h1] at h
    cases h
  · intro h
    rw [removeSong_of_invalid q h]
  · intro h
    rw [removeSong_of_invalid q h]
  · intro h0 h1
    have hlt : i.toNat < q.songs.length := by omega
    refine ⟨q.songs[i.toNat], List.getElem?_eq_getElem hlt, ?_, ?_, ?_⟩
    · rw [removeSong_of_valid q h0 h1, List.getElem?_eq_getElem hlt]
      rfl
    · rw [removeSong_of_valid q h0 h1]
      exact List.eraseIdx_eq_take_drop_succ _ _
    · rw [removeSong_of_valid q h0 h1]
      simp only [List.length_eraseIdx, hlt, if_true]
      omega

/-- Scenario C of the specification: removing the 1-based position 2 (index 1) from
`[T1, T2, T3]` returns `T2` and leaves `[T1, T3]`, through `removeSong` and through the
remove command; index 3 is refused. -/
theorem removeSong_spec_witness :
    (removeSong (playingQueue [some T1, some T2, some T3]) 1).1 = Except.ok (some T2) ∧
    (removeSong (playingQueue [some T1, some T2, some T3]) 1).2.songs = [some T1, some T3] ∧
    (removeCommand
        { memberVoice := some 0, isDJ := true, userId := 7, humans := 3, position := 2 }
        (some (playingQueue [some T1, some T2, some T3])))
      = ("Song Removed", some (playingQueue [some T1, some T3])) ∧
    (removeSong (playingQueue [some T1, some T2, some T3]) 3).1
      = Except.error "Invalid song index" ∧
    (removeSong (playingQueue [some T1, some T2, some T3]) 3).2
      = playingQueue [some T1, some T2, some T3] := by
  have h := removeSong_spec (playingQueue [some T1, some T2, some T3]) 1
  have h3 := removeSong_spec (playingQueue [some T1, some T2, some T3]) 3
  obtain ⟨slot, hs, hr, hsongs, _⟩ := h.2.2 (by decide) (by decide)
  have hslot : slot = some T2 := by
    have : (playingQueue [some T1, some T2, some T3]).songs[(1 : Int).toNat]? = some (some T2) :=
      by decide
    rw [this] at hs
    exact (Option.some.inj hs).symm
  refine ⟨by rw [hr, hslot], by rw [hsongs]; decide, by decide,
    h3.1.2 (Or.inr (by decide)), h3.2.1 (Or.inr (by decide))⟩

/-! ## Enqueue and the queue bound -/

theorem addSong_of_full (q : Queue) (song : Song) (h : q.songs.length ≥ 100) :
    addSong config q song = (Except.error "Queue is full! Maximum 100 songs allowed.", q) := by
  unfold addSong
  rw [if_pos (show q.songs.length ≥ config.maxQueueSize from h)]
  rfl

theorem addSong_of_room (q : Queue) (song : Song) (h : q.songs.length < 100) :
    addSong config q song = (Except.ok (), { q with songs := q.songs ++ [some song] }) := by
  unfold addSong
  rw [if_neg (show ¬ q.songs.length ≥ config.maxQueueSize from Nat.not_le.mpr h)]

/-- C9: with the configured `maxQueueSize` of 100, `addSong` throws the queue-full error
exactly when the queue already holds 100 or more slots, and then the queue object is
unchanged; otherwise it succeeds, the song becomes the last slot, the length grows by one
and every earlier index holds what it held before. -/
theorem addSong_spec (q : Queue) (song : Song) :
    config.maxQueueSize = 100 ∧
    ((addSong config q song).1 = Except.error "Queue is full! Maximum 100 songs allowed." ↔
      q.songs.length ≥ 100) ∧
    (q.songs.length ≥ 100 → (addSong config q song).2 = q) ∧
    (q.songs.length < 100 →
      (addSong config q song).1 = Except.ok () ∧
      (addSong config q song).2 = { q with songs := q.songs ++ [some song] } ∧
      (addSong config q song).2.songs.length = q.songs.length + 1 ∧
      (addSong config q song).2.songs.getLast? = some (some song) ∧
      ∀ k, k < q.songs.length → (addSong config q song).2.songs[k]? = q.songs[k]?) := by
  refine ⟨rfl, ⟨?_, ?_⟩, ?_, ?_⟩
  · intro h
    by_contra hc
    rw [addSong_of_room q song (by omega)] at h
    cases h
  · intro h
    rw [addSong_of_full q song h]
  · intro h
    rw [addSong_of_full q song h]
  · intro h
    rw [addSong_of_room q song h]
    refine ⟨rfl, rfl, by simp, by simp, ?_⟩
    intro k hk
    exact List.getElem?_append_left hk

/-- Adding `T3` to `[T1, T2]` gives `[T1, T2, T3]`; adding to a queue of 100 slots is refused
and changes nothing. -/
theorem addSong_spec_witness :
    (addSong config (playingQueue [some T1, some T2]) T3).1 = Except.ok () ∧
    (addSong config (playingQueue [some T1, some T2]) T3).2
      = playingQueue [some T1, some T2, some T3] ∧
    (addSong config (playingQueue (List.replicate 100 (some T1))) T3).1
      = Except.error "Queue is full! Maximum 100 songs allowed." ∧
    (addSong config (playingQueue (List.replicate 100 (some T1))) T3).2
      = playingQueue (List.replicate 100 (some T1)) :=
  have h := (addSong_spec (playingQueue [some T1, some T2]) T3).2.2.2 (by decide)
  have hfull : (playingQueue (List.replicate 100 (some T1))).songs.length ≥ 100 := by
    simp [playingQueue]
  have h' := addSong_spec (playingQueue (List.replicate 100 (some T1))) T3
  ⟨h.1, h.2.1, h'.2.1.2 hfull, h'.2.2.1 hfull⟩

/-- C10 fails on the play command: on a playing session whose queue holds exactly
`maxQueueSize = 100` slots, the enqueue of the play command pushes the new song without
any check and the queue then holds 101 slots, whereas `addSong` refuses the same request. -/
theorem playEnqueue_exceeds_maxQueueSize :
    (playingQueue (List.replicate 100 (some T1))).songs.length = config.maxQueueSize ∧
    (playEnqueue envOk 5000 0 (some (playingQueue (List.replicate 100 (some T1)))) T2).songs
      = List.replicate 100 (some T1) ++ [some T2] ∧
    (playEnqueue envOk 5000 0
      (some (playingQueue (List.replicate 100 (some T1)))) T2).songs.length = 101 ∧
    config.maxQueueSize < (playEnqueue envOk 5000 0
      (some (playingQueue (List.replicate 100 (some T1)))) T2).songs.length ∧
    (addSong config (playingQueue (List.replicate 100 (some T1))) T2).1
      = Except.error "Queue is full! Maximum 100 songs allowed." := by
  have hs : (playEnqueue envOk 5000 0
      (some (playingQueue (List.replicate 100 (some T1)))) T2).songs
      = List.replicate 100 (some T1) ++ [some T2] := rfl
  refine ⟨by simp [playingQueue, config], hs, by rw [hs]; simp, by rw [hs]; simp [config], ?_⟩
  rw [addSong_of_full _ _ (by simp [playingQueue])]

/-! ## Volume -/

theorem setVolume_of_valid (q : Queue) {v : Int} (h0 : 0 ≤ v) (h1 : v ≤ 200) :
    setVolume config q v = (Except.ok (), { q with volume := v }) := by
  unfold setVolume
  have hc : (decide (v < 0) || decide (v > config.maxVolume)) = false := by
    simp only [Bool.or_eq_false_iff, decide_eq_false_iff_not, config]
    omega
  rw [hc]
  rfl

theorem setVolume_of_invalid (q : Queue) {v : Int} (h : v < 0 ∨ 200 < v) :
    setVolume config q v = (Except.error "Volume must be between 0 and 200", q) := by
  unfold setVolume
  have hc : (decide (v < 0) || decide (v > config.maxVolume)) = true := by
    simp only [Bool.or_eq_true, decide_eq_true_eq, config]
    omega
  rw [hc]
  rfl

/-- C11: with the configured `maxVolume` of 200 and an integer `v`: when `0 <= v <= 200`,
`setVolume` succeeds and sets the volume to `v`, and a second call with the same `v`
succeeds too and leaves the queue as the first call left it; when `v < 0` or `v > 200` it
throws `Volume must be between 0 and 200` and the queue (so the volume) is unchanged. -/
theorem setVolume_spec (q : Queue) (v : Int) :
    config.maxVolume = 200 ∧
    (0 ≤ v → v ≤ 200 →
      (setVolume config q v).1 = Except.ok () ∧
      (setVolume config q v).2 = { q with volume := v } ∧
      (setVolume config q v).2.volume = v ∧
      (setVolume config (setVolume config q v).2 v).1 = Except.ok () ∧
      (setVolume config (setVolume config q v).2 v).2 = (setVolume config q v).2 ∧
      (setVolume config (setVolume config q v).2 v).2.volume = v) ∧
    ((v < 0 ∨ 200 < v) →
      (setVolume config q v).1 = Except.error "Volume must be between 0 and 200" ∧
      (setVolume config q v).2 = q ∧
      (setVolume config q v).2.volume = q.volume) := by
  refine ⟨rfl, ?_, ?_⟩
  · intro h0 h1
    rw [setVolume_of_valid q h0 h1]
    refine ⟨rfl, rfl, rfl, ?_, ?_, ?_⟩ <;> rw [setVolume_of_valid _ h0 h1]
  · intro h
    rw [setVolume_of_invalid q h]
    exact ⟨rfl, rfl, rfl⟩

/-- Setting the volume of a session at 50 to 80 twice leaves it at 80 without error; setting
it to 201 is refused and the volume stays 50. -/
theorem setVolume_spec_witness :
    (setVolume config (playingQueue [some T1]) 80).1 = Except.ok () ∧
    (setVolume config (playingQueue [some T1]) 80).2.volume = 80 ∧
    (setVolume config (setVolume config (playingQueue [some T1]) 80).2 80).1 = Except.ok () ∧
    (setVolume config (setVolume config (playingQueue [some T1]) 80).2 80).2.volume = 80 ∧
    (setVolume config (playingQueue [some T1]) 201).1
      = Except.error "Volume must be between 0 and 200" ∧
    (setVolume config (playingQueue [some T1]) 201).2.volume = 50 :=
  have h := (setVolume_spec (playingQueue [some T1]) 80).2.1 (by decide) (by decide)
  have h' := (setVolume_spec (playingQueue [some T1]) 201).2.2 (Or.inr (by decide))
  ⟨h.1, h.2.2.1, h.2.2.2.1, h.2.2.2.2.2, h'.1, h'.2.2⟩

/-! ## Loop mode -/

/-- Three calls of `toggleLoop` without a mode, one after the other. -/
theorem toggleLoop_thrice_eq (q : Queue) (h : ¬ (q.loop = true ∧ q.loopQueue = true)) :
    (toggleLoop (toggleLoop (toggleLoop q none).2 none).2 none).2 = q := by
  cases hl : q.loop <;> cases hlq : q.loopQueue <;> simp_all [toggleLoop] <;>
    (cases q; simp_all)

/-- C12: `toggleLoop` without a mode goes Off to Single (returns `single`), Single to Queue
(returns `queue`) and Queue to Off (returns `off`), touching nothing but the two loop flags;
hence from each of the three modes three toggles in a row give back the original queue
object. The loop command without a `mode` and the loop button, once their permission check
passes, leave the queue exactly as `toggleLoop` does. -/
theorem toggleLoop_cycle (q : Queue) :
    (q.loop = false → q.loopQueue = false →
      toggleLoop q none = (Except.ok "single", { q with loop := true, loopQueue := false })) ∧
    (q.loop = true → q.loopQueue = false →
      toggleLoop q none = (Except.ok "queue", { q with loop := false, loopQueue := true })) ∧
    (q.loop = false → q.loopQueue = true →
      toggleLoop q none = (Except.ok "off", { q with loop := false, loopQueue := false })) ∧
    (¬ (q.loop = true ∧ q.loopQueue = true) →
      (toggleLoop (toggleLoop (toggleLoop q none).2 none).2 none).2 = q) ∧
    (∀ req : LoopRequest, req.memberVoice = some q.voiceChannel → q.songs ≠ [] →
      (req.isDJ = true ∨ req.humans ≤ 1) → req.mode = none →
      (loopCommand req (some q)).2 = some (toggleLoop q none).2) ∧
    (∀ (isDJ : Bool) (humans : Nat), (isDJ = true ∨ humans ≤ 1) →
      (handleLoopButton isDJ humans q).2 = (toggleLoop q none).2) := by
  refine ⟨?_, ?_, ?_, toggleLoop_thrice_eq q, ?_, ?_⟩
  · intro h1 h2
    cases q
    simp_all [toggleLoop]
  · intro h1 h2
    simp [toggleLoop, h1, h2]
  · intro h1 h2
    simp [toggleLoop, h1, h2]
  · intro req hv hne hperm hmode
    have hlen : q.songs.length ≠ 0 := fun h => hne (List.length_eq_zero.mp h)
    have hp : (!(req.isDJ || decide (req.humans ≤ 1))) = false := by
      rcases hperm with h | h <;> simp [h]
    unfold loopCommand toggleLoop
    rw [hv, hmode]
    simp only [if_neg hlen, ne_eq, not_true_eq_false, if_false, hp, Bool.false_eq_true,
      Option.filter]
    cases hl : q.loop <;> cases hlq : q.loopQueue <;> simp
  · intro isDJ humans hperm
    have hp : (!(isDJ || decide (humans ≤ 1))) = false := by
      rcases hperm with h | h <;> simp [h]
    unfold handleLoopButton toggleLoop
    simp only [hp, Bool.false_eq_true, if_false]
    split
    · rfl
    · split <;> rfl

/-- From Off, one toggle gives Single, and three toggles give back the queue; a DJ using the
loop command or the loop button on the same queue also lands in Single. -/
theorem toggleLoop_cycle_witness :
    toggleLoop (playingQueue [some T1]) none
      = (Except.ok "single", { playingQueue [some T1] with loop := true, loopQueue := false }) ∧
    (toggleLoop (toggleLoop (toggleLoop (playingQueue [some T1]) none).2 none).2 none).2
      = playingQueue [some T1] ∧
    (loopCommand { memberVoice := some 0, isDJ := true, humans := 3, mode := none }
        (some (playingQueue [some T1]))).2
      = some (toggleLoop (playingQueue [some T1]) none).2 ∧
    (handleLoopButton true 3 (playingQueue [some T1])).2
      = (toggleLoop (playingQueue [some T1]) none).2 :=
  have h := toggleLoop_cycle (playingQueue [some T1])
  ⟨h.1 rfl rfl, h.2.2.2.1 (by decide),
    h.2.2.2.2.1 { memberVoice := some 0, isDJ := true, humans := 3, mode := none } rfl
      (by decide) (Or.inl rfl) rfl,
    h.2.2.2.2.2 true 3 (Or.inl rfl)⟩

/-! ## The playback clock -/

theorem clampToSong_nonneg (q : Queue) {t : Int} (h : 0 ≤ t) : 0 ≤ clampToSong q t := by
  unfold clampToSong
  split
  · split
    · exact Int.ofNat_nonneg _
    · exact h
  · exact h

theorem clampToSong_le (q : Queue) (t : Int) {song : Song} {rest : List (Option Song)}
    (hq : q.songs = some song :: rest) (hd : song.duration ≠ 0) :
    clampToSong q t ≤ (song.duration : Int) := by
  have hj : jsIndex q.songs 0 = some song := by simp [jsIndex, hq]
  unfold clampToSong
  rw [hj]
  simp only
  split
  · exact le_refl _
  · next hn =>
    have : ¬ t > (song.duration : Int) := fun hgt => hn ⟨hd, hgt⟩
    omega

theorem clampToSong_congr {q q' : Queue} (h : q'.songs = q.songs) (t : Int) :
    clampToSong q' t = clampToSong q t := by
  unfold clampToSong
  rw [h]

theorem getCurrentProgress_congr {q q' : Queue} (now : Int)
    (h1 : q'.startTime = q.startTime) (h2 : q'.pausedTime = q.pausedTime)
    (h3 : q'.lastPauseStart = q.lastPauseStart) (h4 : q'.songs = q.songs) :
    getCurrentProgress now (some q') = getCurrentProgress now (some q) := by
  unfold getCurrentProgress
  simp only [h1, h2, h3, clampToSong_congr h4]

theorem getCurrentProgress_paused {q : Queue} {start p : Int} (now : Int)
    (hs : q.startTime = some start) (hs0 : start ≠ 0)
    (hl : q.lastPauseStart = some p) (hp0 : p ≠ 0) :
    getCurrentProgress now (some q)
      = clampToSong q (max 0 (Int.fdiv (p - start - q.pausedTime) 1000)) := by
  have hts : truthy q.startTime = true := by simp [truthy, hs, hs0]
  have htl : truthy q.lastPauseStart = true := by simp [truthy, hl, hp0]
  have he : now - start - q.pausedTime - (now - p) = p - start - q.pausedTime := by omega
  unfold getCurrentProgress
  simp only [hts, htl, Bool.not_true, Bool.false_eq_true, if_false, if_true]
  rw [hs, hl]
  simp only [Option.getD_some]
  rw [he]

theorem getCurrentProgress_running {q : Queue} {start : Int} (now : Int)
    (hs : q.startTime = some start) (hs0 : start ≠ 0)
    (hl : truthy q.lastPauseStart = false) :
    getCurrentProgress now (some q)
      = clampToSong q (max 0 (Int.fdiv (now - start - q.pausedTime) 1000)) := by
  have hts : truthy q.startTime = true := by simp [truthy, hs, hs0]
  unfold getCurrentProgress
  simp only [hts, hl, Bool.not_true, Bool.false_eq_true, if_false]
  rw [hs]
  simp only [Option.getD_some]

theorem stopProgressTracking_clock (q : Queue) :
    (stopProgressTracking q).startTime = q.startTime ∧
    (stopProgressTracking q).pausedTime = q.pausedTime ∧
    (stopProgressTracking q).lastPauseStart = q.lastPauseStart ∧
    (stopProgressTracking q).songs = q.songs ∧
    (stopProgressTracking q).player = q.player := by
  unfold stopProgressTracking
  split <;> exact ⟨rfl, rfl, rfl, rfl, rfl⟩

theorem startProgressTracking_clock (q : Queue) :
    (startProgressTracking q).startTime = q.startTime ∧
    (startProgressTracking q).pausedTime = q.pausedTime ∧
    (startProgressTracking q).lastPauseStart = q.lastPauseStart ∧
    (startProgressTracking q).songs = q.songs ∧
    (startProgressTracking q).player = q.player := by
  have h := stopProgressTracking_clock q
  unfold startProgressTracking
  exact ⟨h.1, h.2.1, h.2.2.1, h.2.2.2.1, h.2.2.2.2⟩

/-- C13: for every queue object and every time `now`, `getCurrentProgress` returns an
integer that is at least 0; when `queue[0]` is a song of non-zero duration `d` the value is
at most `d`; it is 0 when `startTime` is not recorded (null or 0) and on a missing queue.
The static method returns the same values. -/
theorem getCurrentProgress_bounds (now : Int) (q : Queue) :
    0 ≤ getCurrentProgress now (some q) ∧
    (∀ (song : Song) (rest : List (Option Song)), q.songs = some song :: rest →
      song.duration ≠ 0 → getCurrentProgress now (some q) ≤ (song.duration : Int)) ∧
    (truthy q.startTime = false → getCurrentProgress now (some q) = 0) ∧
    getCurrentProgress now none = 0 ∧
    (∀ queue : Option Queue,
      getCurrentProgressStatic now queue = getCurrentProgress now queue) := by
  refine ⟨?_, ?_, ?_, rfl, fun _ => rfl⟩
  · unfold getCurrentProgress
    simp only
    split
    · exact le_refl _
    · exact clampToSong_nonneg q (le_max_left _ _)
  · intro song rest hq hd
    unfold getCurrentProgress
    simp only
    split
    · exact Int.ofNat_nonneg _
    · exact clampToSong_le q _ hq hd
  · intro h
    unfold getCurrentProgress
    simp [h]

/-- A session started at epoch 1000 playing `T1` (180 s): at epoch 61000 the progress is 60,
at epoch 500000 it is capped at 180, and without a start epoch it is 0. -/
theorem getCurrentProgress_bounds_witness :
    getCurrentProgress 61000 (some (playingQueue [some T1])) = 60 ∧
    getCurrentProgress 500000 (some (playingQueue [some T1])) = 180 ∧
    getCurrentProgress 500000 (some (playingQueue [some T1])) ≤ ((T1.duration : Nat) : Int) ∧
    getCurrentProgress 61000 (some { playingQueue [some T1] with startTime := none }) = 0 :=
  ⟨by decide, by decide,
    (getCurrentProgress_bounds 500000 (playingQueue [some T1])).2.1 T1 [] rfl (by decide),
    (getCurrentProgress_bounds 61000 { playingQueue [some T1] with startTime := none }).2.2.1
      rfl⟩

theorem truthy_eq_true {t : Option Int} (h : truthy t = true) :
    ∃ v : Int, t = some v ∧ v ≠ 0 := by
  cases t with
  | none => simp [truthy] at h
  | some v => exact ⟨v, rfl, by simpa [truthy] using h⟩

theorem pause_eq {q : Queue} {st : AudioPlayerStatus} (p : Int) (hplay : q.playing = true)
    (hst : q.player = some st) (hne : st ≠ AudioPlayerStatus.paused) :
    pause p q = (Except.ok (),
      stopProgressTracking (playerPause { q with lastPauseStart := some p })) := by
  unfold pause
  have h1 : (!q.playing || q.player.isNone) = false := by simp [hplay, hst]
  have h2 : ¬ q.player = some AudioPlayerStatus.paused := by
    rw [hst]
    intro h
    exact hne (Option.some.inj h)
  rw [h1]
  simp only [Bool.false_eq_true, if_false, if_neg h2]

theorem playerPause_clock (q : Queue) :
    (playerPause q).startTime = q.startTime ∧
    (playerPause q).pausedTime = q.pausedTime ∧
    (playerPause q).lastPauseStart = q.lastPauseStart ∧
    (playerPause q).songs = q.songs := by
  unfold playerPause
  split <;> exact ⟨rfl, rfl, rfl, rfl⟩

/-- C14: `pause` at epoch `p` (a non-zero `Date.now()`) on a session that is playing and not
already paused succeeds and records `lastPauseStart = p`; a playing player becomes paused.
From then on `getCurrentProgress` returns the same value at every query time. When a start
epoch is recorded that value is `max(0, floor((p - startTime - pausedTime) / 1000))` capped
by the duration of `queue[0]`, and when no earlier pause was pending it is the value that
`getCurrentProgress` had at time `p` before the pause. -/
theorem pause_freezes_clock (p : Int) (q : Queue) (st : AudioPlayerStatus)
    (hplay : q.playing = true) (hst : q.player = some st)
    (hne : st ≠ AudioPlayerStatus.paused) (hp : p ≠ 0) :
    (pause p q).1 = Except.ok () ∧
    (pause p q).2.lastPauseStart = some p ∧
    (st = AudioPlayerStatus.playing → (pause p q).2.player = some AudioPlayerStatus.paused) ∧
    (∀ now now' : Int,
      getCurrentProgress now (some (pause p q).2)
        = getCurrentProgress now' (some (pause p q).2)) ∧
    (∀ start : Int, q.startTime = some start → start ≠ 0 → ∀ now : Int,
      getCurrentProgress now (some (pause p q).2)
        = clampToSong q (max 0 (Int.fdiv (p - start - q.pausedTime) 1000))) ∧
    (truthy q.lastPauseStart = false → ∀ now : Int,
      getCurrentProgress now (some (pause p q).2) = getCurrentProgress p (some q)) := by
  rw [pause_eq p hplay hst hne]
  have hs := stopProgressTracking_clock (playerPause { q with lastPauseStart := some p })
  have hpp := playerPause_clock { q with lastPauseStart := some p }
  have hcongr : ∀ now : Int,
      getCurrentProgress now
          (some (stopProgressTracking (playerPause { q with lastPauseStart := some p })))
        = getCurrentProgress now (some { q with lastPauseStart := some p }) := by
    intro now
    exact getCurrentProgress_congr now (hs.1.trans hpp.1) (hs.2.1.trans hpp.2.1)
      (hs.2.2.1.trans hpp.2.2.1) (hs.2.2.2.1.trans hpp.2.2.2)
  have hformula : ∀ start : Int, q.startTime = some start → start ≠ 0 → ∀ now : Int,
      getCurrentProgress now (some { q with lastPauseStart := some p })
        = clampToSong q (max 0 (Int.fdiv (p - start - q.pausedTime) 1000)) := by
    intro start hstart hs0 now
    have h := @getCurrentProgress_paused { q with lastPauseStart := some p } start p now
      hstart hs0 rfl hp
    rw [h]
    exact clampToSong_congr rfl _
  have hnone : truthy q.startTime = false → ∀ now : Int,
      getCurrentProgress now (some { q with lastPauseStart := some p }) = 0 := by
    intro h now
    unfold getCurrentProgress
    simp [h]
  refine ⟨rfl, ?_, ?_, ?_, ?_, ?_⟩
  · exact hs.2.2.1.trans hpp.2.2.1
  · intro hplaying
    rw [hs.2.2.2.2]
    unfold playerPause
    simp [hst, hplaying]
  · intro now now'
    rw [hcongr now, hcongr now']
    by_cases ht : truthy q.startTime = true
    · obtain ⟨start, hstart, hs0⟩ := truthy_eq_true ht
      rw [hformula start hstart hs0 now, hformula start hstart hs0 now']
    · have hf : truthy q.startTime = false := by simpa using ht
      rw [hnone hf now, hnone hf now']
  · intro start hstart hs0 now
    rw [hcongr now, hformula start hstart hs0 now]
  · intro hl now
    rw [hcongr now]
    by_cases ht : truthy q.startTime = true
    · obtain ⟨start, hstart, hs0⟩ := truthy_eq_true ht
      rw [hformula start hstart hs0 now, getCurrentProgress_running p hstart hs0 hl]
    · have hf : truthy q.startTime = false := by simpa using ht
      rw [hnone hf now]
      unfold getCurrentProgress
      simp [hf]

/-- A session started at epoch 1000 and paused at epoch 61000 shows 60 seconds at the time
of the pause and at every later query (here epochs 61000, 90000 and 400000). -/
theorem pause_freezes_clock_witness :
    (pause 61000 (playingQueue [some T1])).2.lastPauseStart = some 61000 ∧
    getCurrentProgress 61000 (some (playingQueue [some T1])) = 60 ∧
    getCurrentProgress 61000 (some (pause 61000 (playingQueue [some T1])).2) = 60 ∧
    getCurrentProgress 90000 (some (pause 61000 (playingQueue [some T1])).2)
      = getCurrentProgress 400000 (some (pause 61000 (playingQueue [some T1])).2) ∧
    getCurrentProgress 400000 (some (pause 61000 (playingQueue [some T1])).2)
      = getCurrentProgress 61000 (some (playingQueue [some T1])) :=
  have h := pause_freezes_clock 61000 (playingQueue [some T1]) AudioPlayerStatus.playing
    rfl rfl (by decide) (by decide)
  ⟨h.2.1, by decide, by decide, h.2.2.2.1 90000 400000, h.2.2.2.2.2 rfl 400000⟩

theorem resume_eq {q : Queue} (r : Int) (hst : q.player = some AudioPlayerStatus.paused) :
    resume r q = (Except.ok (),
      startProgressTracking
        (onPlaying r { q with player := some AudioPlayerStatus.playing })) := by
  unfold resume
  simp [hst]

theorem onPlaying_of_paused {q : Queue} {start p : Int} (r : Int)
    (hs : q.startTime = some start) (hs0 : start ≠ 0)
    (hl : q.lastPauseStart = some p) (hp0 : p ≠ 0) :
    onPlaying r q = startProgressTracking
      { q with pausedTime := q.pausedTime + (r - p), lastPauseStart := none } := by
  have hts : truthy q.startTime = true := by simp [truthy, hs, hs0]
  have htl : truthy q.lastPauseStart = true := by simp [truthy, hl, hp0]
  unfold onPlaying
  simp only [hts, htl, Bool.not_true, Bool.false_eq_true, if_false, if_true]
  rw [hl]
  rfl

/-- C15: when a paused session (start epoch recorded, pause-start epoch `p`, both
non-zero) is resumed at epoch `r`, `resume` succeeds, the player is playing again,
`pausedTime` has grown by exactly `r - p`, `lastPauseStart` is null and `startTime` is
untouched. The progress reported at `r` right after the resume equals the progress reported
while paused, and at every time `now` it is
`max(0, floor((now - startTime - pausedTime') / 1000))` capped by the duration of
`queue[0]`, where `pausedTime'` is the new total. -/
theorem resume_accumulates_pause (r p start : Int) (q : Queue)
    (hst : q.player = some AudioPlayerStatus.paused)
    (hs : q.startTime = some start) (hs0 : start ≠ 0)
    (hl : q.lastPauseStart = some p) (hp0 : p ≠ 0) :
    (resume r q).1 = Except.ok () ∧
    (resume r q).2.player = some AudioPlayerStatus.playing ∧
    (resume r q).2.pausedTime = q.pausedTime + (r - p) ∧
    (resume r q).2.lastPauseStart = none ∧
    (resume r q).2.startTime = some start ∧
    (∀ now : Int,
      getCurrentProgress r (some (resume r q).2) = getCurrentProgress now (some q)) ∧
    (∀ now : Int,
      getCurrentProgress now (some (resume r q).2)
        = clampToSong q
            (max 0 (Int.fdiv (now - start - (q.pausedTime + (r - p))) 1000))) := by
  rw [resume_eq r hst]
  have hon := @onPlaying_of_paused { q with player := some AudioPlayerStatus.playing }
    start p r hs hs0 hl hp0
  rw [hon]
  have h1 := startProgressTracking_clock
    (startProgressTracking
      { q with player := some AudioPlayerStatus.playing,
               pausedTime := q.pausedTime + (r - p), lastPauseStart := none })
  have h2 := startProgressTracking_clock
    { q with player := some AudioPlayerStatus.playing,
             pausedTime := q.pausedTime + (r - p), lastPauseStart := none }
  have hformula : ∀ now : Int,
      getCurrentProgress now (some (startProgressTracking (startProgressTracking
        { q with player := some AudioPlayerStatus.playing,
                 pausedTime := q.pausedTime + (r - p), lastPauseStart := none })))
        = clampToSong q
            (max 0 (Int.fdiv (now - start - (q.pausedTime + (r - p))) 1000)) := by
    intro now
    rw [getCurrentProgress_congr now (h1.1.trans h2.1) (h1.2.1.trans h2.2.1)
      (h1.2.2.1.trans h2.2.2.1) (h1.2.2.2.1.trans h2.2.2.2.1)]
    have h := @getCurrentProgress_running
      { q with player := some AudioPlayerStatus.playing,
               pausedTime := q.pausedTime + (r - p), lastPauseStart := none }
      start now hs hs0 rfl
    rw [h]
    exact clampToSong_congr rfl _
  refine ⟨rfl, ?_, ?_, ?_, ?_, ?_, hformula⟩
  · exact h1.2.2.2.2.trans h2.2.2.2.2
  · exact h1.2.1.trans h2.2.1
  · exact h1.2.2.1.trans h2.2.2.1
  · exact (h1.1.trans h2.1).trans hs
  · intro now
    rw [hformula r, getCurrentProgress_paused now hs hs0 hl hp0]
    have he : r - start - (q.pausedTime + (r - p)) = p - start - q.pausedTime := by omega
    rw [he]

/-- The session started at epoch 1000 and paused at 61000 is resumed at 91000: 30000 ms are
added to the paused time, the progress right after the resume is still 60, and 10 seconds
later it is 70. -/
theorem resume_accumulates_pause_witness :
    (resume 91000 (pause 61000 (playingQueue [some T1])).2).2.pausedTime = 30000 ∧
    (resume 91000 (pause 61000 (playingQueue [some T1])).2).2.lastPauseStart = none ∧
    getCurrentProgress 91000 (some (resume 91000 (pause 61000 (playingQueue [some T1])).2).2)
      = getCurrentProgress 75000 (some (pause 61000 (playingQueue [some T1])).2) ∧
    getCurrentProgress 91000 (some (resume 91000 (pause 61000 (playingQueue [some T1])).2).2)
      = 60 ∧
    getCurrentProgress 101000 (some (resume 91000 (pause 61000 (playingQueue [some T1])).2).2)
      = 70 :=
  have h := resume_accumulates_pause 91000 61000 1000 (pause 61000 (playingQueue [some T1])).2
    rfl rfl (by decide) rfl (by decide)
  ⟨h.2.2.1, h.2.2.2.1, h.2.2.2.2.2.1 75000, by decide, by decide⟩

/-! ## The bounded history -/

theorem pushHistory_eq_drop (history : List Song) (t : Song) (h : history.length ≤ 10) :
    pushHistory history t = (history ++ [t]).drop ((history ++ [t]).length - 10) := by
  unfold pushHistory
  simp only [List.length_append, List.length_singleton]
  split
  · have h11 : history.length + 1 - 10 = 1 := by omega
    rw [h11]
    cases history with
    | nil => simp at *
    | cons a l => simp
  · have h0 : history.length + 1 - 10 = 0 := by omega
    rw [h0]
    rfl

theorem pushHistory_length_le (history : List Song) (t : Song) (h : history.length ≤ 10) :
    (pushHistory history t).length ≤ 10 := by
  rw [pushHistory_eq_drop history t h]
  simp only [List.length_drop, List.length_append, List.length_singleton]
  omega

theorem drop_append_last {α : Type} (l ts : List α) (n : Nat) :
    (l.drop (l.length - n) ++ ts).drop ((l.drop (l.length - n) ++ ts).length - n)
      = (l ++ ts).drop ((l ++ ts).length - n) := by
  have hle : l.length - n ≤ l.length := Nat.sub_le _ _
  have h1 : (l.drop (l.length - n) ++ ts) = (l ++ ts).drop (l.length - n) := by
    rw [List.drop_append_of_le_length hle]
  rw [h1, List.drop_drop]
  congr 1
  simp only [List.length_drop, List.length_append]
  omega

theorem finishEvent_history (env : Env) (q : Queue) (e : FinishEvent) :
    (finishEvent env q e).history = pushHistory q.history e.track := by
  unfold finishEvent
  rw [onIdle_history]
  exact (@finishAdvance_of_cons
    { q with songs := some e.track :: e.rest, loop := false, loopQueue := e.loopQueue }
    (some e.track) e.rest rfl rfl).2

theorem afterFinishes_history (env : Env) (events : List FinishEvent) :
    ∀ q : Queue, q.history.length ≤ 10 →
      (afterFinishes env q events).history
        = (q.history ++ events.map FinishEvent.track).drop
            ((q.history ++ events.map FinishEvent.track).length - 10) := by
  induction events with
  | nil =>
    intro q h
    simp only [afterFinishes, List.foldl_nil, List.map_nil, List.append_nil]
    have h0 : q.history.length - 10 = 0 := by omega
    rw [h0]
    rfl
  | cons e es ih =>
    intro q h
    have hstep : afterFinishes env q (e :: es) = afterFinishes env (finishEvent env q e) es :=
      rfl
    have hh := finishEvent_history env q e
    rw [hstep, ih _ (by rw [hh]; exact pushHistory_length_le _ _ h), hh,
      pushHistory_eq_drop _ _ h, drop_append_last]
    simp

/-- C16: start from an empty history and let `k` track-finished events with `loop = false`
happen (whatever the queue and the `loopQueue` flag are at each event). Then the history has
`min(k, 10)` entries and is the list of the last `min(k, 10)` finished tracks in the order
in which they finished, oldest first. -/
theorem history_keeps_last_ten (env : Env) (q : Queue) (events : List FinishEvent)
    (h : q.history = []) :
    (afterFinishes env q events).history.length = min events.length 10 ∧
    (afterFinishes env q events).history
      = (events.map FinishEvent.track).drop (events.length - min events.length 10) ∧
    (afterFinishes env q events).history
      = ((events.map FinishEvent.track).reverse.take 10).reverse := by
  have hk := afterFinishes_history env events q (by rw [h]; simp)
  rw [h] at hk
  simp only [List.nil_append, List.length_map] at hk
  have hmin : events.length - min events.length 10 = events.length - 10 := by omega
  refine ⟨?_, ?_, ?_⟩
  · rw [hk]
    simp only [List.length_drop, List.length_map]
    omega
  · rw [hk, hmin]
  · rw [hk, List.reverse_take, List.reverse_reverse]
    simp

/-- After the eleven events `elevenEvents` the history holds the last ten finished tracks:
the first `T1` is gone. -/
theorem history_keeps_last_ten_witness :
    (playingQueue []).history = [] ∧
    (afterFinishes envOk (playingQueue []) elevenEvents).history.length = 10 ∧
    (afterFinishes envOk (playingQueue []) elevenEvents).history
      = [T2, T3, T1, T2, T3, T1, T2, T3, T1, T2] :=
  have h := history_keeps_last_ten envOk (playingQueue []) elevenEvents rfl
  ⟨rfl, h.1, h.2.1⟩

/-! ## Autoplay when the queue empties -/

theorem finishAdvance_timers (q : Queue) :
    (finishAdvance q).timeout = q.timeout ∧ (finishAdvance q).liveTimers = q.liveTimers ∧
      (finishAdvance q).sent = q.sent := by
  unfold finishAdvance cleanupProgress stopProgressTracking
  cases hi : q.progressInterval <;> cases hl : q.loop <;> cases hlq : q.loopQueue <;>
    cases hs : (jsShift q.songs).1 <;> simp [hl, hlq, hs]

theorem onIdle_autoplay_ok {env : Env} {q q' : Queue} (hs : (finishAdvance q).songs = [])
    (ha : q.autoplay = true)
    (hh : handleAutoplay env { finishAdvance q with playing := false } = Except.ok q') :
    onIdle env q
      = if (!q'.mode247 && q'.songs.length == 0) = true then armTimeout q' else q' := by
  have hfr := finishAdvance_frame q
  have hlen : ¬ (finishAdvance q).songs.length > 0 := by rw [hs]; simp
  have ha1 : (finishAdvance q).autoplay = true := by rw [hfr.2.2.1, ha]
  unfold onIdle
  simp only
  rw [if_neg hlen, if_pos ha1, hh]

theorem onIdle_autoplay_error {env : Env} {q : Queue} {e : String}
    (hs : (finishAdvance q).songs = []) (ha : q.autoplay = true)
    (hh : handleAutoplay env { finishAdvance q with playing := false } = Except.error e) :
    onIdle env q
      = if (!q.mode247) = true then armTimeout { finishAdvance q with playing := false }
        else { finishAdvance q with playing := false } := by
  have hfr := finishAdvance_frame q
  have hlen : ¬ (finishAdvance q).songs.length > 0 := by rw [hs]; simp
  have ha1 : (finishAdvance q).autoplay = true := by rw [hfr.2.2.1, ha]
  unfold onIdle
  simp only
  rw [if_neg hlen, if_pos ha1, hh]
  simp only [hs, hfr.2.2.2.1, List.length_nil, beq_self_eq_true, Bool.and_true]

theorem handleAutoplay_of_songs {env : Env} {q : Queue} {related : List Song}
    (ha : q.autoplay = true) (hr : env.related q.history 3 = Except.ok related)
    (hne : related ≠ []) :
    handleAutoplay env q = Except.ok (playNext env
      (send { q with songs := q.songs ++ related.map some } "Autoplay Active")) := by
  unfold handleAutoplay
  have hlen : related.length > 0 := List.length_pos.mpr hne
  simp [ha, hr, hlen]

theorem handleAutoplay_of_nothing {env : Env} {q : Queue} (ha : q.autoplay = true)
    (hr : env.related q.history 3 = Except.ok []) :
    handleAutoplay env q = Except.ok q := by
  unfold handleAutoplay
  simp [ha, hr]

theorem handleAutoplay_of_error {env : Env} {q : Queue} {e : String} (ha : q.autoplay = true)
    (hr : env.related q.history 3 = Except.error e) :
    handleAutoplay env q = Except.error e := by
  unfold handleAutoplay
  simp [ha, hr]

theorem startedState_timeout (q : Queue) (slot : Option Song) (rest : List (Option Song)) :
    (startedState q slot rest).timeout = none ∧ (startedState q slot rest).sent = q.sent := by
  unfold startedState clearTimeoutIfSet
  simp only
  split
  · exact ⟨rfl, rfl⟩
  · next h => exact ⟨h, rfl⟩

/-- C17: the last track `t` of the queue finishes with both loop flags off and autoplay on;
the autoplay engine is asked with the updated history. If it returns a non-empty list
`first :: more` whose first song starts playing, the queue becomes exactly that list, the
session is playing with `first` at the head, the `Autoplay Active` embed has been sent and
no idle timer is stored. If it throws or returns an empty list, the queue stays empty and
the session is not playing; the idle timer is then armed when 24/7 mode is off, and the
timers are left as they were when 24/7 mode is on. -/
theorem onIdle_autoplay (env : Env) (q : Queue) (t : Song)
    (hq : q.songs = [some t]) (hl : q.loop = false) (hlq : q.loopQueue = false)
    (ha : q.autoplay = true) :
    (∀ (first : Song) (more : List Song),
      env.related (pushHistory q.history t) 3 = Except.ok (first :: more) →
      env.resolve first = Resolution.ok → (q.player ≠ none ∨ q.connection = true) →
      (onIdle env q).songs = (first :: more).map some ∧
      (onIdle env q).songs.head? = some (some first) ∧
      (onIdle env q).playing = true ∧
      (onIdle env q).sent = q.sent ++ ["Autoplay Active"] ∧
      (onIdle env q).timeout = none) ∧
    ((env.related (pushHistory q.history t) 3 = Except.ok [] ∨
        ∃ e, env.related (pushHistory q.history t) 3 = Except.error e) →
      (onIdle env q).songs = [] ∧ (onIdle env q).playing = false ∧
      (q.mode247 = false → idleTimerArmed (onIdle env q) = true) ∧
      (q.mode247 = true → (onIdle env q).timeout = q.timeout ∧
        (onIdle env q).liveTimers = q.liveTimers)) := by
  have hadv := finishAdvance_of_cons hq hl
  rw [hlq] at hadv
  simp only [Bool.false_eq_true, if_false] at hadv
  have hfr := finishAdvance_frame q
  have htm := finishAdvance_timers q
  have ha' : ({ finishAdvance q with playing := false } : Queue).autoplay = true := by
    show (finishAdvance q).autoplay = true
    rw [hfr.2.2.1, ha]
  have hhist : ({ finishAdvance q with playing := false } : Queue).history
      = pushHistory q.history t := hadv.2
  have hidle : ∀ q1 : Queue, onIdle env q
        = (if (!q1.mode247 && q1.songs.length == 0) = true then armTimeout q1 else q1) →
      q1.songs = [] → q1.playing = false → q1.mode247 = q.mode247 →
      q1.timeout = q.timeout → q1.liveTimers = q.liveTimers →
      (onIdle env q).songs = [] ∧ (onIdle env q).playing = false ∧
      (q.mode247 = false → idleTimerArmed (onIdle env q) = true) ∧
      (q.mode247 = true → (onIdle env q).timeout = q.timeout ∧
        (onIdle env q).liveTimers = q.liveTimers) := by
    intro q1 heq h1 h2 h3 h4 h5
    rw [heq]
    cases hm : q.mode247
    · rw [if_pos (by simp [h3, hm, h1])]
      exact ⟨h1, h2, fun _ => armTimeout_armed q1, fun h => absurd h (by simp)⟩
    · rw [if_neg (by simp [h3, hm])]
      exact ⟨h1, h2, fun h => absurd h (by simp), fun _ => ⟨h4, h5⟩⟩
  constructor
  · intro first more hrel hres hp
    have hh := @handleAutoplay_of_songs env { finishAdvance q with playing := false }
      (first :: more) ha' (by rw [hhist]; exact hrel) (by simp)
    have hsongs : (send { ({ finishAdvance q with playing := false } : Queue) with
          songs := ({ finishAdvance q with playing := false } : Queue).songs
            ++ (first :: more).map some } "Autoplay Active").songs
        = some first :: more.map some := by
      show (finishAdvance q).songs ++ (first :: more).map some = _
      rw [hadv.1]; rfl
    have hp' : (send { ({ finishAdvance q with playing := false } : Queue) with
          songs := ({ finishAdvance q with playing := false } : Queue).songs
            ++ (first :: more).map some } "Autoplay Active").player ≠ none ∨
        (send { ({ finishAdvance q with playing := false } : Queue) with
          songs := ({ finishAdvance q with playing := false } : Queue).songs
            ++ (first :: more).map some } "Autoplay Active").connection = true := by
      show (finishAdvance q).player ≠ none ∨ (finishAdvance q).connection = true
      rw [hfr.1, hfr.2.1]; exact hp
    have hres' : resolveSlot env (some first) = Resolution.ok := hres
    have hsent : (send { ({ finishAdvance q with playing := false } : Queue) with
          songs := ({ finishAdvance q with playing := false } : Queue).songs
            ++ (first :: more).map some } "Autoplay Active").sent
        = q.sent ++ ["Autoplay Active"] := by
      show (finishAdvance q).sent ++ ["Autoplay Active"] = _
      rw [htm.2.2]
    have hex : ∃ q2 : Queue,
        handleAutoplay env { finishAdvance q with playing := false }
          = Except.ok (playNext env q2) ∧
        q2.songs = some first :: more.map some ∧
        (q2.player ≠ none ∨ q2.connection = true) ∧
        q2.sent = q.sent ++ ["Autoplay Active"] := ⟨_, hh, hsongs, hp', hsent⟩
    obtain ⟨q2, hh2, hs2, hp2, hsent2⟩ := hex
    rw [playNext_ok hs2 hres' hp2] at hh2
    rw [onIdle_autoplay_ok hadv.1 ha hh2]
    have hnz : ¬ ((!(startedState q2 (some first) (more.map some)).mode247 &&
        (startedState q2 (some first) (more.map some)).songs.length == 0) = true) := by
      rw [startedState_songs]
      simp
    rw [if_neg hnz]
    refine ⟨by rw [startedState_songs]; rfl, by rw [startedState_songs]; rfl,
      startedState_playing _ _ _, ?_, (startedState_timeout _ _ _).1⟩
    rw [(startedState_timeout _ _ _).2, hsent2]
  · intro hcase
    rcases hcase with hnil | ⟨e, herr⟩
    · have hh := @handleAutoplay_of_nothing env { finishAdvance q with playing := false }
        ha' (by rw [hhist]; exact hnil)
      exact hidle _ (onIdle_autoplay_ok hadv.1 ha hh) hadv.1 rfl hfr.2.2.2.1 htm.1 htm.2.1
    · have hh := @handleAutoplay_of_error env { finishAdvance q with playing := false } e
        ha' (by rw [hhist]; exact herr)
      have heq := onIdle_autoplay_error hadv.1 ha hh
      have heq' : onIdle env q
          = (if (!({ finishAdvance q with playing := false } : Queue).mode247 &&
                ({ finishAdvance q with playing := false } : Queue).songs.length == 0) = true
             then armTimeout { finishAdvance q with playing := false }
             else { finishAdvance q with playing := false }) := by
        rw [heq]
        have e1 : ({ finishAdvance q with playing := false } : Queue).mode247 = q.mode247 :=
          hfr.2.2.2.1
        have e2 : ({ finishAdvance q with playing := false } : Queue).songs = [] := hadv.1
        rw [e1, e2]
        simp
      exact hidle _ heq' hadv.1 rfl hfr.2.2.2.1 htm.1 htm.2.1

/-- Scenario D of the specification: `T1` finishes as the last track with autoplay on and the
engine proposes `[T4, T5]`; the queue becomes `[T4, T5]` and the session plays `T4`. When
the engine finds nothing the session ends idle with the timer armed. -/
theorem onIdle_autoplay_witness :
    (onIdle envAutoplay { playingQueue [some T1] with autoplay := true }).songs
      = [some T4, some T5] ∧
    (onIdle envAutoplay { playingQueue [some T1] with autoplay := true }).songs.head?
      = some (some T4) ∧
    (onIdle envAutoplay { playingQueue [some T1] with autoplay := true }).playing = true ∧
    (onIdle envOk { playingQueue [some T1] with autoplay := true }).songs = [] ∧
    (onIdle envOk { playingQueue [some T1] with autoplay := true }).playing = false ∧
    idleTimerArmed (onIdle envOk { playingQueue [some T1] with autoplay := true }) = true :=
  have h := (onIdle_autoplay envAutoplay { playingQueue [some T1] with autoplay := true } T1
    rfl rfl rfl rfl).1 T4 [T5] rfl rfl (Or.inr rfl)
  have h' := (onIdle_autoplay envOk { playingQueue [some T1] with autoplay := true } T1
    rfl rfl rfl rfl).2 (Or.inl rfl)
  ⟨h.1, h.2.1, h.2.2.1, h'.1, h'.2.1, h'.2.2.1 rfl⟩

/-! ## Drop and advance -/

theorem attempt_of_unresolved {env : Env} (q : Queue) {slot : Option Song}
    (rest : List (Option Song)) (h : resolveSlot env slot ≠ Resolution.ok) :
    ∃ title, attempt env q slot rest = Attempt.failed q title ∧
      (title = "Stream Error" ∨ title = "Playback Error") := by
  unfold attempt
  cases hres : resolveSlot env slot with
  | ok => exact absurd hres h
  | streamError => exact ⟨"Stream Error", rfl, Or.inl rfl⟩
  | resourceError => exact ⟨"Playback Error", rfl, Or.inr rfl⟩

theorem playNextFrom_drops (env : Env) (rest : List (Option Song)) :
    ∀ (q : Queue) (slot : Option Song), (q.player ≠ none ∨ q.connection = true) →
      (∀ first later,
        (slot :: rest).dropWhile (fun s => resolveSlot env s != Resolution.ok)
          = first :: later →
        (playNextFrom env q slot rest).songs = first :: later ∧
        (playNextFrom env q slot rest).playing = true ∧
        (playNextFrom env q slot rest).sent = q.sent) ∧
      ((slot :: rest).dropWhile (fun s => resolveSlot env s != Resolution.ok) = [] →
        (playNextFrom env q slot rest).songs = [] ∧
        (playNextFrom env q slot rest).playing = false ∧
        ∃ title, (playNextFrom env q slot rest).sent = q.sent ++ [title] ∧
          (title = "Stream Error" ∨ title = "Playback Error")) := by
  induction rest with
  | nil =>
    intro q slot hp
    by_cases hres : resolveSlot env slot = Resolution.ok
    · rw [playNextFrom_ok [] hres hp]
      simp only [List.dropWhile_cons, hres, bne_self_eq_false, Bool.false_eq_true, if_false]
      refine ⟨?_, fun h => absurd h (by simp)⟩
      intro first later h
      rw [← h]
      exact ⟨startedState_songs _ _ _, startedState_playing _ _ _,
        (startedState_timeout _ _ _).2⟩
    · obtain ⟨title, hatt, htitle⟩ := attempt_of_unresolved q [] hres
      have hb : (resolveSlot env slot != Resolution.ok) = true := by simpa using hres
      simp only [List.dropWhile_cons, hb, if_true, List.dropWhile_nil]
      unfold playNextFrom
      rw [hatt]
      refine ⟨fun first later h => absurd h (by simp), fun _ => ?_⟩
      exact ⟨rfl, rfl, title, rfl, htitle⟩
  | cons next rest ih =>
    intro q slot hp
    by_cases hres : resolveSlot env slot = Resolution.ok
    · rw [playNextFrom_ok (next :: rest) hres hp]
      simp only [List.dropWhile_cons, hres, bne_self_eq_false, Bool.false_eq_true, if_false]
      refine ⟨?_, fun h => absurd h (by simp)⟩
      intro first later h
      rw [← h]
      exact ⟨startedState_songs _ _ _, startedState_playing _ _ _,
        (startedState_timeout _ _ _).2⟩
    · obtain ⟨title, hatt, _⟩ := attempt_of_unresolved q (next :: rest) hres
      have hb : (resolveSlot env slot != Resolution.ok) = true := by simpa using hres
      have hstep : playNextFrom env q slot (next :: rest) = playNextFrom env q next rest := by
        rw [playNextFrom, hatt]
      have hdrop : (slot :: next :: rest).dropWhile
            (fun s => resolveSlot env s != Resolution.ok)
          = (next :: rest).dropWhile (fun s => resolveSlot env s != Resolution.ok) := by
        rw [List.dropWhile_cons]
        simp only [hb, if_true]
      rw [hstep, hdrop]
      exact ih q next hp

/-- The claim C18 fails on two kinds of input. On an empty queue `playNext` ends not playing
with nothing sent to the text channel, so neither alternative of the claim holds. On a
session that has neither a player nor a voice connection (the state `createQueue` builds)
with the queue `[T1, T2]`, both resolving, `T1` is dropped and the session ends playing
`[T2]`, which is not the suffix that starts at the first resolving track. -/
theorem playNext_counterexample :
    ((playNext envOk (playingQueue [])).playing = false ∧
      (playNext envOk (playingQueue [])).sent = [] ∧
      (playNext envOk (playingQueue [])).songs = []) ∧
    (resolveSlot envOk (some T1) = Resolution.ok ∧
      (playNext envOk { songs := [some T1, some T2] }).playing = true ∧
      (playNext envOk { songs := [some T1, some T2] }).songs = [some T2]) := by
  decide

/-- C18, amended: on a non-empty queue of a session that has a player or a voice
connection, `playNext` ends in one of two ways. If some slot resolves, the queue is the
suffix of the original queue that starts at the first resolving slot, the session is
playing and nothing has been sent. If no slot resolves, the queue is empty, the session is
not playing and exactly one error embed (`Stream Error` or `Playback Error`) has been sent
to the text channel. On an empty queue `playNext` sets `playing = false` and arms the idle
timer, sending nothing. -/
theorem playNext_drop_and_advance (env : Env) (q : Queue)
    (hp : q.player ≠ none ∨ q.connection = true) :
    (q.songs ≠ [] →
      (∀ first later,
        q.songs.dropWhile (fun s => resolveSlot env s != Resolution.ok) = first :: later →
        (playNext env q).songs = first :: later ∧ (playNext env q).playing = true ∧
        resolveSlot env first = Resolution.ok ∧ (playNext env q).sent = q.sent) ∧
      (q.songs.dropWhile (fun s => resolveSlot env s != Resolution.ok) = [] →
        (playNext env q).songs = [] ∧ (playNext env q).playing = false ∧
        ∃ title, (playNext env q).sent = q.sent ++ [title] ∧
          (title = "Stream Error" ∨ title = "Playback Error"))) ∧
    (q.songs = [] →
      playNext env q = armTimeout { q with playing := false } ∧
      (playNext env q).playing = false ∧ (playNext env q).sent = q.sent ∧
      idleTimerArmed (playNext env q) = true) := by
  constructor
  · intro hne
    cases hs : q.songs with
    | nil => exact absurd hs hne
    | cons slot rest =>
      have hpn : playNext env q = playNextFrom env q slot rest := by
        unfold playNext
        rw [hs]
      rw [hpn]
      have h := playNextFrom_drops env rest q slot hp
      refine ⟨fun first later hd => ?_, h.2⟩
      have h1 := h.1 first later hd
      refine ⟨h1.1, h1.2.1, ?_, h1.2.2⟩
      have hmem := List.head_dropWhile_not
        (fun s => resolveSlot env s != Resolution.ok) (slot :: rest) (by rw [hd]; simp)
      simp only [hd, List.head_cons] at hmem
      simpa using hmem
  · intro hs
    have hpn : playNext env q = armTimeout { q with playing := false } := by
      unfold playNext
      rw [hs]
    rw [hpn]
    exact ⟨rfl, rfl, rfl, armTimeout_armed _⟩

/-- On `[T1, T2, T3]` where `T2` cannot be streamed nothing is dropped (`T1` resolves); on
`[T2, T3]` the unplayable `T2` is dropped and `T3` plays; when nothing resolves the queue
ends empty with one error embed sent. -/
theorem playNext_drop_and_advance_witness :
    (playNext envT2Fails (playingQueue [some T1, some T2, some T3])).songs
      = [some T1, some T2, some T3] ∧
    (playNext envT2Fails (playingQueue [some T2, some T3])).songs = [some T3] ∧
    (playNext envT2Fails (playingQueue [some T2, some T3])).playing = true ∧
    (playNext envNoneResolves (playingQueue [some T1, some T2])).songs = [] ∧
    (playNext envNoneResolves (playingQueue [some T1, some T2])).playing = false ∧
    (∃ title, (playNext envNoneResolves (playingQueue [some T1, some T2])).sent = [] ++ [title] ∧
      (title = "Stream Error" ∨ title = "Playback Error")) :=
  have h1 := ((playNext_drop_and_advance envT2Fails (playingQueue [some T1, some T2, some T3])
    (Or.inr rfl)).1 (by decide)).1 (some T1) [some T2, some T3] (by decide)
  have h2 := ((playNext_drop_and_advance envT2Fails (playingQueue [some T2, some T3])
    (Or.inr rfl)).1 (by decide)).1 (some T3) [] (by decide)
  have h3 := ((playNext_drop_and_advance envNoneResolves (playingQueue [some T1, some T2])
    (Or.inr rfl)).1 (by decide)).2 (by decide)
  ⟨h1.1, h2.1, h2.2.1, h3.1, h3.2.1, h3.2.2⟩

/-! ## The idle timer -/

/-- C19 fails in `playNext` and in the Idle handler: both store a new timer in
`queue.timeout` without cancelling the one stored there. Starting from the idle session
`idleArmedQueue`, whose timer 1 is pending: `playNext` on its empty queue leaves the timers
2 and 1 pending; so does the Idle handler when a track that was enqueued without clearing
the timer finishes; so does the Idle handler of the play command on its own idle session.
The empty-channel branch of the voice-state handler, which clears before it arms, leaves
only the new timer pending. -/
theorem idle_timer_armed_twice :
    (idleArmedQueue.timeout = some 1 ∧ idleArmedQueue.liveTimers = [1]) ∧
    ((playNext envOk idleArmedQueue).timeout = some 2 ∧
      (playNext envOk idleArmedQueue).liveTimers = [2, 1]) ∧
    ((onIdle envOk { idleArmedQueue with songs := [some T2] }).timeout = some 2 ∧
      (onIdle envOk { idleArmedQueue with songs := [some T2] }).liveTimers = [2, 1]) ∧
    (playCommandIdleQueue.liveTimers = [2] ∧
      (onIdlePlayCommand envOk 400000
        { playCommandRestartedQueue with player := some AudioPlayerStatus.idle }).liveTimers
        = [4, 2]) ∧
    ((armEmptyChannelTimeout idleArmedQueue).timeout = some 2 ∧
      (armEmptyChannelTimeout idleArmedQueue).liveTimers = [2]) := by
  decide

/-- C20 fails on the play command. The session `playCommandIdleQueue` is idle with its idle
timer (handle 2) pending; `/play T2` then enqueues and starts `T2` and the Playing event
arrives (`playCommandRestartedQueue`). The session is playing `T2`, but `queue.timeout`
still holds handle 2 and the timer is still pending; when it fires, the registry entry of
the playing session is deleted. On the `MusicPlayer` path the same race is handled:
`addSong` followed by `playNext` on `idleArmedQueue` ends playing with the timeout cleared
and no timer pending. -/
theorem play_command_keeps_idle_timer :
    (playCommandIdleQueue.songs = [] ∧ playCommandIdleQueue.playing = false ∧
      playCommandIdleQueue.timeout = some 2 ∧ playCommandIdleQueue.liveTimers = [2]) ∧
    (playCommandRestartedQueue.songs = [some T2] ∧
      playCommandRestartedQueue.playing = true ∧
      playCommandRestartedQueue.player = some AudioPlayerStatus.playing ∧
      playCommandRestartedQueue.timeout = some 2 ∧
      playCommandRestartedQueue.liveTimers = [2] ∧
      idleTimerArmed playCommandRestartedQueue = true) ∧
    fireTimer 2 playCommandRestartedQueue = none ∧
    ((playNext envOk (addSong config idleArmedQueue T2).2).playing = true ∧
      (playNext envOk (addSong config idleArmedQueue T2).2).songs = [some T2] ∧
      (playNext envOk (addSong config idleArmedQueue T2).2).timeout = none ∧
      (playNext envOk (addSong config idleArmedQueue T2).2).liveTimers = []) := by
  decide

/-! ## Teardown -/

theorem disconnect_of_mode247 {s : Session} (h : s.queue.mode247 = true) : disconnect s = s := by
  unfold disconnect
  rw [if_pos h]

/-- C21: while `mode247` is set, `disconnect` returns the session exactly as it got it: the
connection is not destroyed, the registry still holds the queue and no field of the queue
changes. When the idle timer fires on such a session, its callback (which calls
`disconnect`) changes nothing either, apart from the fired handle no longer being
pending. -/
theorem disconnect_mode247_unchanged (s : Session) (h : s.queue.mode247 = true) :
    disconnect s = s ∧
    (disconnect s).registered = s.registered ∧
    (disconnect s).connectionDestroyed = s.connectionDestroyed ∧
    (disconnect s).queue = s.queue ∧
    (∀ handle : Nat, handle ∈ s.queue.liveTimers →
      idleTimerFires handle s
        = { s with queue := { s.queue with liveTimers := s.queue.liveTimers.erase handle } }) := by
  rw [disconnect_of_mode247 h]
  refine ⟨rfl, rfl, rfl, rfl, ?_⟩
  intro handle hmem
  unfold idleTimerFires
  rw [if_pos hmem]
  exact @disconnect_of_mode247
    { s with queue := { s.queue with liveTimers := s.queue.liveTimers.erase handle } } h

/-- The 24/7 session `stickySession` survives `disconnect`: it is returned unchanged, still
registered and still connected. -/
theorem disconnect_mode247_unchanged_witness :
    stickySession.queue.mode247 = true ∧
    disconnect stickySession = stickySession ∧
    (disconnect stickySession).registered = true ∧
    (disconnect stickySession).connectionDestroyed = false :=
  have h := disconnect_mode247_unchanged stickySession rfl
  ⟨rfl, h.1, h.2.1, h.2.2.1⟩

theorem disconnect_queue_fields (s : Session) :
    (disconnect s).queue.songs = s.queue.songs ∧
    (disconnect s).queue.playing = s.queue.playing ∧
    (disconnect s).queue.loop = s.queue.loop ∧
    (disconnect s).queue.loopQueue = s.queue.loopQueue ∧
    (disconnect s).queue.mode247 = s.queue.mode247 := by
  unfold disconnect
  split
  · exact ⟨rfl, rfl, rfl, rfl, rfl⟩
  · split
    · exact ⟨rfl, rfl, rfl, rfl, rfl⟩
    · simp only
      split <;> split <;> exact ⟨rfl, rfl, rfl, rfl, rfl⟩

theorem playerStop_fields (q : Queue) :
    (playerStop q).1.songs = q.songs ∧ (playerStop q).1.playing = q.playing ∧
    (playerStop q).1.loop = q.loop ∧ (playerStop q).1.loopQueue = q.loopQueue ∧
    (playerStop q).1.mode247 = q.mode247 ∧ (playerStop q).1.connection = q.connection ∧
    (playerStop q).1.timeout = q.timeout ∧ (playerStop q).1.liveTimers = q.liveTimers := by
  unfold playerStop
  split <;> exact ⟨rfl, rfl, rfl, rfl, rfl, rfl, rfl, rfl⟩

theorem stop_queue_fields (s : Session) :
    (stop s).queue.songs = [] ∧ (stop s).queue.playing = false ∧
    (stop s).queue.loop = false ∧ (stop s).queue.loopQueue = false ∧
    (stop s).queue.mode247 = s.queue.mode247 := by
  unfold stop
  simp only
  split
  · have hd := disconnect_queue_fields
      { s with queue := (playerStop { s.queue with songs := [], playing := false,
                                                   loop := false, loopQueue := false }).1 }
    have hp := playerStop_fields
      { s.queue with songs := [], playing := false, loop := false, loopQueue := false }
    exact ⟨hd.1.trans hp.1, hd.2.1.trans hp.2.1, hd.2.2.1.trans hp.2.2.1,
      hd.2.2.2.1.trans hp.2.2.2.1, hd.2.2.2.2.trans hp.2.2.2.2.1⟩
  · have hd := disconnect_queue_fields
      { s with queue := { s.queue with songs := [], playing := false,
                                       loop := false, loopQueue := false } }
    exact ⟨hd.1, hd.2.1, hd.2.2.1, hd.2.2.2.1, hd.2.2.2.2⟩

/-- When `stop` returns, the queue is empty, `playing` is false and both loop flags are
off, on every session. With 24/7 mode off (and the connection, if there is one, not
destroyed before) the connection is destroyed and the registry no longer holds the session.
With 24/7 mode on, `disconnect` returns early: the registry entry and the connection are
left as they were. -/
theorem stop_clears_and_tears_down (s : Session) :
    (stop s).queue.songs = [] ∧ (stop s).queue.playing = false ∧
    (stop s).queue.loop = false ∧ (stop s).queue.loopQueue = false ∧
    (s.queue.mode247 = false → (s.queue.connection = false ∨ s.connectionDestroyed = false) →
      (stop s).registered = false ∧
      (s.queue.connection = true → (stop s).connectionDestroyed = true)) ∧
    (s.queue.mode247 = true →
      (stop s).registered = s.registered ∧
      (stop s).connectionDestroyed = s.connectionDestroyed) := by
  have hq := stop_queue_fields s
  refine ⟨hq.1, hq.2.1, hq.2.2.1, hq.2.2.2.1, ?_, ?_⟩
  · intro hm hc
    have key : ∀ q : Queue, q.mode247 = false → q.connection = s.queue.connection →
        (disconnect { s with queue := q }).registered = false ∧
        (s.queue.connection = true →
          (disconnect { s with queue := q }).connectionDestroyed = true) := by
      intro q hqm hqc
      unfold disconnect
      have hnot : ¬ ((q.connection && s.connectionDestroyed) = true) := by
        rw [hqc]
        rcases hc with h | h <;> simp [h]
      simp only [hqm, Bool.false_eq_true, if_false, hnot]
      refine ⟨by first | rfl | trivial, ?_⟩
      intro hconn
      have hqt : q.connection = true := by rw [hqc]; exact hconn
      simp [hqt]
    unfold stop
    simp only
    split
    · have hp := playerStop_fields
        { s.queue with songs := [], playing := false, loop := false, loopQueue := false }
      exact key _ (hp.2.2.2.2.1.trans hm) hp.2.2.2.2.2.1
    · exact key _ hm rfl
  · intro hm
    have key : ∀ q : Queue, q.mode247 = true →
        (disconnect { s with queue := q }).registered = s.registered ∧
        (disconnect { s with queue := q }).connectionDestroyed = s.connectionDestroyed := by
      intro q hqm
      rw [@disconnect_of_mode247 { s with queue := q } hqm]
      exact ⟨rfl, rfl⟩
    unfold stop
    simp only
    split
    · have hp := playerStop_fields
        { s.queue with songs := [], playing := false, loop := false, loopQueue := false }
      exact key _ (hp.2.2.2.2.1.trans hm)
    · exact key _ hm

/-- After `stop` on `plainSession` (24/7 off) the queue is empty, nothing is playing, the
loop flags are off, the connection is destroyed and the registry no longer holds the
session. -/
theorem stop_clears_and_tears_down_witness :
    (stop plainSession).queue.songs = [] ∧ (stop plainSession).queue.playing = false ∧
    (stop plainSession).queue.loop = false ∧ (stop plainSession).queue.loopQueue = false ∧
    (stop plainSession).registered = false ∧
    (stop plainSession).connectionDestroyed = true :=
  have h := stop_clears_and_tears_down plainSession
  have h5 := h.2.2.2.2.1 rfl (Or.inr rfl)
  ⟨h.1, h.2.1, h.2.2.1, h.2.2.2.1, h5.1, h5.2 rfl⟩

/-- C22 fails on a session in 24/7 mode. `stickyAutoplaySession` is registered and playing
`[T1, T2]` with 24/7 mode and autoplay on, as the 24/7 command sets them. After `stop` the
queue is empty and nothing is playing, but the registry still holds the session and its
connection has not been destroyed, so a later lookup finds the session. The stop command on
the same session replies `Music Stopped`, destroys the connection and deletes the registry
entry, and `stop` with 24/7 mode off (`plainSession`) deletes it as well. The stop request
that `stop` left with the playing player then ends in the Idle event, and its handler refills
the emptied queue through autoplay: the session is playing `[T4, T5]`, still registered. -/
theorem stop_mode247_counterexample :
    stickyAutoplaySession.registered = true ∧
    (stop stickyAutoplaySession).queue.songs = [] ∧
    (stop stickyAutoplaySession).queue.playing = false ∧
    (stop stickyAutoplaySession).registered = true ∧
    (stop stickyAutoplaySession).connectionDestroyed = false ∧
    (stopCommand stopRequest stickyAutoplaySession).1 = "Music Stopped" ∧
    (stopCommand stopRequest stickyAutoplaySession).2.registered = false ∧
    (stopCommand stopRequest stickyAutoplaySession).2.connectionDestroyed = true ∧
    (stop plainSession).registered = false ∧
    (sessionCycle envAutoplay (stop stickyAutoplaySession)).queue.songs
      = [some T4, some T5] ∧
    (sessionCycle envAutoplay (stop stickyAutoplaySession)).queue.playing = true ∧
    (sessionCycle envAutoplay (stop stickyAutoplaySession)).registered = true := by
  decide

/-! ## The retry of `playNext` is bounded -/

theorem playNextFromCounted_spec (env : Env) (rest : List (Option Song)) :
    ∀ (q : Queue) (slot : Option Song),
      (playNextFromCounted env q slot rest).1 = playNextFrom env q slot rest ∧
      1 ≤ (playNextFromCounted env q slot rest).2 ∧
      (playNextFromCounted env q slot rest).2 ≤ rest.length + 1 ∧
      (playNextFrom env q slot rest).songs.length + (playNextFromCounted env q slot rest).2
        ≤ rest.length + 2 ∧
      rest.length + 1
        ≤ (playNextFrom env q slot rest).songs.length
          + (playNextFromCounted env q slot rest).2 := by
  induction rest with
  | nil =>
    intro q slot
    unfold playNextFromCounted playNextFrom
    cases h : attempt env q slot [] with
    | started q' =>
      have hs : q'.songs.length = 1 := by
        rw [(attempt_started h).1, startedState_songs]; rfl
      refine ⟨rfl, ?_, ?_, ?_, ?_⟩ <;> simp only [List.length_nil, hs] <;> omega
    | failed q' title =>
      have hs : (send { q' with songs := [], playing := false } title).songs.length = 0 := rfl
      refine ⟨rfl, ?_, ?_, ?_, ?_⟩ <;> simp only [List.length_nil, hs] <;> omega
  | cons next rest ih =>
    intro q slot
    unfold playNextFromCounted playNextFrom
    cases h : attempt env q slot (next :: rest) with
    | started q' =>
      have hs : q'.songs.length = rest.length + 2 := by
        rw [(attempt_started h).1, startedState_songs]; rfl
      refine ⟨rfl, ?_, ?_, ?_, ?_⟩ <;> simp only [List.length_cons, hs] <;> omega
    | failed q' title =>
      have h' := ih q' next
      refine ⟨h'.1, ?_, ?_, ?_, ?_⟩ <;> simp only [List.length_cons] <;> omega

/-- C26: `playNext` is a total function of the queue (its retry is a recursion on the slots
that are left), and counting one resolution attempt per pass through its `try` block: the
counted version computes the same final queue, a call on a queue of `n` slots makes at most
`n` attempts, and the slots dropped (`n` minus the final length) number at most the
attempts and at least the attempts minus one, so every failed attempt removes exactly one
slot before the retry. -/
theorem playNext_attempts_bounded (env : Env) (q : Queue) :
    (playNextCounted env q).1 = playNext env q ∧
    (playNextCounted env q).2 ≤ q.songs.length ∧
    q.songs.length ≤ (playNext env q).songs.length + (playNextCounted env q).2 ∧
    (playNext env q).songs.length + (playNextCounted env q).2 ≤ q.songs.length + 1 := by
  unfold playNextCounted playNext
  cases hs : q.songs with
  | nil => simp [armTimeout, hs]
  | cons slot rest =>
    have h := playNextFromCounted_spec env rest q slot
    simp only [List.length_cons]
    refine ⟨h.1, ?_, ?_, ?_⟩ <;> omega

/-! ## The loop flags are never both set -/

theorem toggleLoop_not_both (q : Queue) (mode : Option String)
    (h : ¬ (q.loop = true ∧ q.loopQueue = true)) :
    ¬ ((toggleLoop q mode).2.loop = true ∧ (toggleLoop q mode).2.loopQueue = true) := by
  unfold toggleLoop
  cases mode with
  | none =>
    cases hl : q.loop <;> cases hlq : q.loopQueue <;> simp_all
  | some m =>
    simp only
    split
    · simp
    · split
      · simp
      · split
        · simp
        · exact h

theorem loopCommand_not_both (req : LoopRequest) (q q' : Queue)
    (h : ¬ (q.loop = true ∧ q.loopQueue = true))
    (hq : (loopCommand req (some q)).2 = some q') :
    ¬ (q'.loop = true ∧ q'.loopQueue = true) := by
  unfold loopCommand at hq
  cases hv : req.memberVoice with
  | none =>
    rw [hv] at hq
    simp only [Option.some.injEq] at hq
    rw [← hq]; exact h
  | some vc =>
    rw [hv] at hq
    simp only at hq
    split at hq
    · simp only [Option.some.injEq] at hq; rw [← hq]; exact h
    · split at hq
      · simp only [Option.some.injEq] at hq; rw [← hq]; exact h
      · split at hq
        · simp only [Option.some.injEq] at hq; rw [← hq]; exact h
        · split at hq
          · split at hq
            · simp only [Option.some.injEq] at hq; rw [← hq]; simp
            · split at hq
              · simp only [Option.some.injEq] at hq; rw [← hq]; simp
              · split at hq
                · simp only [Option.some.injEq] at hq; rw [← hq]; simp
                · simp only [Option.some.injEq] at hq; rw [← hq]; exact h
          · split at hq
            · simp only [Option.some.injEq] at hq; rw [← hq]; simp
            · split at hq
              · simp only [Option.some.injEq] at hq; rw [← hq]; simp
              · simp only [Option.some.injEq] at hq; rw [← hq]; simp

theorem handleLoopButton_not_both (isDJ : Bool) (humans : Nat) (q : Queue)
    (h : ¬ (q.loop = true ∧ q.loopQueue = true)) :
    ¬ ((handleLoopButton isDJ humans q).2.loop = true ∧
       (handleLoopButton isDJ humans q).2.loopQueue = true) := by
  unfold handleLoopButton
  split
  · exact h
  · cases hl : q.loop <;> cases hlq : q.loopQueue <;> simp_all

theorem applyLoopAction_not_both (s : Session) (a : LoopAction)
    (h : ¬ (s.queue.loop = true ∧ s.queue.loopQueue = true)) :
    ¬ ((applyLoopAction s a).queue.loop = true ∧
       (applyLoopAction s a).queue.loopQueue = true) := by
  cases a with
  | toggle mode => exact toggleLoop_not_both s.queue mode h
  | stop =>
    have hs := stop_queue_fields s
    show ¬ ((stop s).queue.loop = true ∧ (stop s).queue.loopQueue = true)
    rw [hs.2.2.1, hs.2.2.2.1]
    simp
  | command req =>
    have heq : applyLoopAction s (LoopAction.command req)
        = (match (loopCommand req (if s.registered then some s.queue else none)).2 with
           | some q => { s with queue := q }
           | none => s) := rfl
    rw [heq]
    cases hres : (loopCommand req (if s.registered = true then some s.queue else none)).2 with
    | none => exact h
    | some q' =>
      by_cases hr : s.registered = true
      · rw [if_pos hr] at hres
        exact loopCommand_not_both req s.queue q' h hres
      · rw [if_neg hr] at hres
        unfold loopCommand at hres
        cases hv : req.memberVoice <;> simp [hv] at hres
  | button isDJ humans => exact handleLoopButton_not_both isDJ humans s.queue h

/-- C27: from a session in which `loop` and `loopQueue` are not both set (a new session has
both off), after any sequence of `toggleLoop` calls (with any mode string or none, a
rejected mode leaving the flags alone), `stop`, loop commands and loop-button presses, the
two flags are still not both set; so exactly one of Off (both off), Single (`loop` only)
and Queue (`loopQueue` only) holds. -/
theorem loop_flags_never_both (actions : List LoopAction) (s : Session)
    (h : ¬ (s.queue.loop = true ∧ s.queue.loopQueue = true)) :
    ¬ ((actions.foldl applyLoopAction s).queue.loop = true ∧
       (actions.foldl applyLoopAction s).queue.loopQueue = true) ∧
    (((actions.foldl applyLoopAction s).queue.loop = false ∧
        (actions.foldl applyLoopAction s).queue.loopQueue = false) ∨
      ((actions.foldl applyLoopAction s).queue.loop = true ∧
        (actions.foldl applyLoopAction s).queue.loopQueue = false) ∨
      ((actions.foldl applyLoopAction s).queue.loop = false ∧
        (actions.foldl applyLoopAction s).queue.loopQueue = true)) := by
  have key : ∀ (l : List LoopAction) (t : Session),
      ¬ (t.queue.loop = true ∧ t.queue.loopQueue = true) →
      ¬ ((l.foldl applyLoopAction t).queue.loop = true ∧
         (l.foldl applyLoopAction t).queue.loopQueue = true) := by
    intro l
    induction l with
    | nil => intro t ht; exact ht
    | cons a l ih =>
      intro t ht
      exact ih (applyLoopAction t a) (applyLoopAction_not_both t a ht)
  have hk := key actions s h
  refine ⟨hk, ?_⟩
  cases hl : (actions.foldl applyLoopAction s).queue.loop <;>
    cases hlq : (actions.foldl applyLoopAction s).queue.loopQueue <;> simp_all

/-- On a new session: a toggle, an explicit `queue` mode, a rejected mode `both`, a button
press, a loop command for `single`, and a last toggle leave the session in Queue mode, with
`loop` off and `loopQueue` on. -/
theorem loop_flags_never_both_witness :
    ¬ (({ queue := playingQueue [some T1] } : Session).queue.loop = true ∧
       ({ queue := playingQueue [some T1] } : Session).queue.loopQueue = true) ∧
    ¬ ((List.foldl applyLoopAction { queue := playingQueue [some T1] }
          [LoopAction.toggle none, LoopAction.toggle (some "queue"),
           LoopAction.toggle (some "both"), LoopAction.button true 1,
           LoopAction.command
             { memberVoice := some 0, isDJ := true, humans := 2, mode := some "single" },
           LoopAction.toggle none]).queue.loop = true ∧
        (List.foldl applyLoopAction { queue := playingQueue [some T1] }
          [LoopAction.toggle none, LoopAction.toggle (some "queue"),
           LoopAction.toggle (some "both"), LoopAction.button true 1,
           LoopAction.command
             { memberVoice := some 0, isDJ := true, humans := 2, mode := some "single" },
           LoopAction.toggle none]).queue.loopQueue = true) :=
  ⟨by decide,
   (loop_flags_never_both
      [LoopAction.toggle none, LoopAction.toggle (some "queue"),
       LoopAction.toggle (some "both"), LoopAction.button true 1,
       LoopAction.command
         { memberVoice := some 0, isDJ := true, humans := 2, mode := some "single" },
       LoopAction.toggle none]
      { queue := playingQueue [some T1] } (by decide)).1⟩

/-! ## The Idle handler on an empty queue -/

/-- C28 fails in Queue loop mode. On an empty queue with `loopQueue` set (loop, autoplay and
24/7 off) the Idle handler pushes the `undefined` it got from `shift()` into the queue,
calls `playNext`, which makes one attempt on that entry, drops it and sends a
`Stream Error` embed; the session ends with an empty queue, not playing, and with no idle
timer armed. In the modes Off and Single the handler does what the claim says: the queue
stays empty, nothing is sent and the idle timer is armed. -/
theorem onIdle_empty_queue_loopQueue :
    ((finishAdvance (emptyIdleQueue false true)).songs = [none] ∧
      (playNextCounted envOk (finishAdvance (emptyIdleQueue false true))).2 = 1 ∧
      (onIdle envOk (emptyIdleQueue false true)).sent = ["Stream Error"] ∧
      (onIdle envOk (emptyIdleQueue false true)).songs = [] ∧
      (onIdle envOk (emptyIdleQueue false true)).playing = false ∧
      (onIdle envOk (emptyIdleQueue false true)).timeout = none ∧
      idleTimerArmed (onIdle envOk (emptyIdleQueue false true)) = false) ∧
    ((finishAdvance (emptyIdleQueue false false)).songs = [] ∧
      (onIdle envOk (emptyIdleQueue false false)).sent = [] ∧
      (onIdle envOk (emptyIdleQueue false false)).songs = [] ∧
      idleTimerArmed (onIdle envOk (emptyIdleQueue false false)) = true) ∧
    ((finishAdvance (emptyIdleQueue true false)).songs = [] ∧
      (onIdle envOk (emptyIdleQueue true false)).sent = [] ∧
      (onIdle envOk (emptyIdleQueue true false)).songs = [] ∧
      idleTimerArmed (onIdle envOk (emptyIdleQueue true false)) = true) := by
  decide

/-! ## Pausing through the command or the button -/

/-- C29 fails: the pause command and the pause button call `queue.player.pause()` only.
On a session started at epoch 1000 and paused at epoch 61000, `MusicPlayer.pause` records
`lastPauseStart` and the progress stays at 60 seconds; after the pause command or the pause
button `lastPauseStart` is still null and the reported progress goes on from 60 at epoch
61000 to 90 at epoch 91000, although the player is paused. -/
theorem pause_command_clock_advances :
    ((pause 61000 (playingQueue [some T1])).2.lastPauseStart = some 61000 ∧
      getCurrentProgress 61000 (some (pause 61000 (playingQueue [some T1])).2) = 60 ∧
      getCurrentProgress 91000 (some (pause 61000 (playingQueue [some T1])).2) = 60) ∧
    ((pauseCommand pauseRequest (some (playingQueue [some T1]))).1 = "Music Paused" ∧
      (pauseCommand pauseRequest (some (playingQueue [some T1]))).2
        = some { playingQueue [some T1] with player := some AudioPlayerStatus.paused } ∧
      getCurrentProgress 61000 (pauseCommand pauseRequest (some (playingQueue [some T1]))).2
        = 60 ∧
      getCurrentProgress 91000 (pauseCommand pauseRequest (some (playingQueue [some T1]))).2
        = 90) ∧
    ((handlePauseButton true (playingQueue [some T1])).1 = "Music Paused" ∧
      (handlePauseButton true (playingQueue [some T1])).2.player
        = some AudioPlayerStatus.paused ∧
      (handlePauseButton true (playingQueue [some T1])).2.lastPauseStart = none ∧
      getCurrentProgress 61000 (some (handlePauseButton true (playingQueue [some T1])).2)
        = 60 ∧
      getCurrentProgress 91000 (some (handlePauseButton true (playingQueue [some T1])).2)
        = 90) := by
  decide

/-! ## `removeDuplicates` -/

theorem removeDuplicatesFrom_sublist (lower : String → String) (l : List Song) :
    ∀ titles urls : List String, (removeDuplicatesFrom lower titles urls l).Sublist l := by
  induction l with
  | nil => intro titles urls; exact List.Sublist.slnil
  | cons song rest ih =>
    intro titles urls
    unfold removeDuplicatesFrom
    split
    · exact (ih titles urls).cons song
    · exact (ih _ _).cons₂ song

theorem removeDuplicatesFrom_congr (lower : String → String) (l : List Song) :
    ∀ titles urls titles' urls' : List String,
      (∀ x, x ∈ titles ↔ x ∈ titles') → (∀ x, x ∈ urls ↔ x ∈ urls') →
      removeDuplicatesFrom lower titles urls l = removeDuplicatesFrom lower titles' urls' l := by
  induction l with
  | nil => intro _ _ _ _ _ _; rfl
  | cons song rest ih =>
    intro titles urls titles' urls' ht hu
    unfold removeDuplicatesFrom
    have hc : (lower song.title ∈ titles ∨ song.url ∈ urls)
        ↔ (lower song.title ∈ titles' ∨ song.url ∈ urls') := by
      rw [ht, hu]
    by_cases h : lower song.title ∈ titles ∨ song.url ∈ urls
    · rw [if_pos h, if_pos (hc.mp h)]
      exact ih _ _ _ _ ht hu
    · rw [if_neg h, if_neg (fun h' => h (hc.mpr h'))]
      congr 1
      apply ih
      · intro x; simp only [List.mem_cons, ht]
      · intro x; simp only [List.mem_cons, hu]

theorem removeDuplicatesFrom_mem (lower : String → String) (l : List Song) :
    ∀ (titles urls : List String) (song : Song),
      song ∈ removeDuplicatesFrom lower titles urls l →
      lower song.title ∉ titles ∧ song.url ∉ urls := by
  induction l with
  | nil => intro _ _ song h; simp [removeDuplicatesFrom] at h
  | cons first rest ih =>
    intro titles urls song h
    unfold removeDuplicatesFrom at h
    split at h
    · exact ih titles urls song h
    · next hn =>
      rcases List.mem_cons.mp h with h1 | h1
      · subst h1
        exact ⟨fun ht => hn (Or.inl ht), fun hu => hn (Or.inr hu)⟩
      · have h2 := ih _ _ song h1
        exact ⟨fun ht => h2.1 (List.mem_cons_of_mem _ ht),
          fun hu => h2.2 (List.mem_cons_of_mem _ hu)⟩

theorem removeDuplicatesFrom_nodup (lower : String → String) (l : List Song) :
    ∀ titles urls : List String,
      ((removeDuplicatesFrom lower titles urls l).map (fun song => lower song.title)).Nodup ∧
      ((removeDuplicatesFrom lower titles urls l).map (fun song => song.url)).Nodup := by
  induction l with
  | nil => intro _ _; simp [removeDuplicatesFrom]
  | cons first rest ih =>
    intro titles urls
    unfold removeDuplicatesFrom
    split
    · exact ih titles urls
    · have h := ih (lower first.title :: titles) (first.url :: urls)
      simp only [List.map_cons, List.nodup_cons, List.mem_map, not_exists, not_and]
      refine ⟨⟨?_, h.1⟩, ⟨?_, h.2⟩⟩
      · intro song hs heq
        exact (removeDuplicatesFrom_mem lower rest _ _ song hs).1
          (by rw [heq]; exact List.mem_cons_self _ _)
      · intro song hs heq
        exact (removeDuplicatesFrom_mem lower rest _ _ song hs).2
          (by rw [heq]; exact List.mem_cons_self _ _)

theorem removeDuplicatesFrom_idem (lower : String → String) (l : List Song) :
    ∀ titles urls : List String,
      removeDuplicatesFrom lower titles urls (removeDuplicatesFrom lower titles urls l)
        = removeDuplicatesFrom lower titles urls l := by
  induction l with
  | nil => intro _ _; rfl
  | cons first rest ih =>
    intro titles urls
    by_cases h : lower first.title ∈ titles ∨ first.url ∈ urls
    · have e : removeDuplicatesFrom lower titles urls (first :: rest)
          = removeDuplicatesFrom lower titles urls rest := by
        rw [removeDuplicatesFrom, if_pos h]
      rw [e]
      exact ih titles urls
    · have e : removeDuplicatesFrom lower titles urls (first :: rest)
          = first :: removeDuplicatesFrom lower (lower first.title :: titles)
              (first.url :: urls) rest := by
        rw [removeDuplicatesFrom, if_neg h]
      rw [e, removeDuplicatesFrom, if_neg h, ih]

theorem removeDuplicatesFrom_append (lower : String → String) (l₁ l₂ : List Song) :
    ∀ titles urls : List String,
      removeDuplicatesFrom lower titles urls (l₁ ++ l₂)
        = removeDuplicatesFrom lower titles urls l₁ ++
          removeDuplicatesFrom lower
            ((removeDuplicatesFrom lower titles urls l₁).map (fun song => lower song.title)
              ++ titles)
            ((removeDuplicatesFrom lower titles urls l₁).map (fun song => song.url) ++ urls)
            l₂ := by
  induction l₁ with
  | nil => intro titles urls; simp [removeDuplicatesFrom]
  | cons first rest ih =>
    intro titles urls
    by_cases h : lower first.title ∈ titles ∨ first.url ∈ urls
    · have e : removeDuplicatesFrom lower titles urls (first :: rest)
          = removeDuplicatesFrom lower titles urls rest := by
        rw [removeDuplicatesFrom, if_pos h]
      rw [e, List.cons_append, removeDuplicatesFrom, if_pos h]
      exact ih titles urls
    · have e : removeDuplicatesFrom lower titles urls (first :: rest)
          = first :: removeDuplicatesFrom lower (lower first.title :: titles)
              (first.url :: urls) rest := by
        rw [removeDuplicatesFrom, if_neg h]
      rw [e, List.cons_append, removeDuplicatesFrom, if_neg h, ih, List.cons_append]
      congr 2
      apply removeDuplicatesFrom_congr
      · intro x
        simp only [List.mem_append, List.mem_cons, List.map_cons]
        tauto
      · intro x
        simp only [List.mem_append, List.mem_cons, List.map_cons]
        tauto

/-- C25: `removeDuplicates(newSongs, existingSongs)` returns a sublist of `newSongs` (order
kept), built from left to right: the result for a prefix of `newSongs` is a prefix of the
result, and the song that follows the prefix is kept exactly when its lower-cased title
and its url are found neither among `existingSongs` nor among the songs kept so far. No kept
song shares a lower-cased title or a url with a song of `existingSongs`, the kept songs
have pairwise distinct lower-cased titles and pairwise distinct urls, and filtering the
result again against the same `existingSongs` gives it back unchanged. -/
theorem removeDuplicates_spec (lower : String → String) (newSongs existingSongs : List Song) :
    (removeDuplicates lower newSongs existingSongs).Sublist newSongs ∧
    (∀ pre post : List Song, newSongs = pre ++ post →
      removeDuplicates lower pre existingSongs
        <+: removeDuplicates lower newSongs existingSongs) ∧
    (∀ (pre : List Song) (song : Song),
      removeDuplicates lower (pre ++ [song]) existingSongs
        = removeDuplicates lower pre existingSongs ++
          (if lower song.title ∈
                (removeDuplicates lower pre existingSongs ++ existingSongs).map
                  (fun s => lower s.title) ∨
              song.url ∈
                (removeDuplicates lower pre existingSongs ++ existingSongs).map
                  (fun s => s.url)
           then [] else [song])) ∧
    (∀ song ∈ removeDuplicates lower newSongs existingSongs, ∀ old ∈ existingSongs,
      lower song.title ≠ lower old.title ∧ song.url ≠ old.url) ∧
    ((removeDuplicates lower newSongs existingSongs).map (fun s => lower s.title)).Nodup ∧
    ((removeDuplicates lower newSongs existingSongs).map (fun s => s.url)).Nodup ∧
    removeDuplicates lower (removeDuplicates lower newSongs existingSongs) existingSongs
      = removeDuplicates lower newSongs existingSongs := by
  unfold removeDuplicates
  refine ⟨removeDuplicatesFrom_sublist lower newSongs _ _, ?_, ?_, ?_,
    (removeDuplicatesFrom_nodup lower newSongs _ _).1,
    (removeDuplicatesFrom_nodup lower newSongs _ _).2,
    removeDuplicatesFrom_idem lower newSongs _ _⟩
  · intro pre post hsplit
    rw [hsplit, removeDuplicatesFrom_append]
    exact List.prefix_append _ _
  · intro pre song
    rw [removeDuplicatesFrom_append]
    congr 1
    simp only [removeDuplicatesFrom, List.map_append]
  · intro song hs old hold
    have h := removeDuplicatesFrom_mem lower newSongs _ _ song hs
    constructor
    · intro heq
      exact h.1 (List.mem_map.mpr ⟨old, hold, heq.symm⟩)
    · intro heq
      exact h.2 (List.mem_map.mpr ⟨old, hold, heq.symm⟩)

/-- Filtering `[T4, T1, T4, T5]` against the history `[T1]` keeps `[T4, T5]`: `T1` is in the
history and the second `T4` repeats a kept song. -/
theorem removeDuplicates_spec_witness :
    removeDuplicates (fun t => t) [T4, T1, T4, T5] [T1] = [T4, T5] ∧
    removeDuplicates (fun t => t) [T4, T1] [T1]
      <+: removeDuplicates (fun t => t) [T4, T1, T4, T5] [T1] ∧
    removeDuplicates (fun t => t) (removeDuplicates (fun t => t) [T4, T1, T4, T5] [T1]) [T1]
      = removeDuplicates (fun t => t) [T4, T1, T4, T5] [T1] :=
  have h := removeDuplicates_spec (fun t => t) [T4, T1, T4, T5] [T1]
  ⟨by decide, h.2.1 [T4, T1] [T4, T5] rfl, h.2.2.2.2.2.2⟩

/-! ## `findRelatedSongs` -/

/-- C23 fails on a cache hit. The first call, `findRelatedSongs([T1], 3)` at epoch 1000,
finds `[T4, T5]` and caches them under the key of `T1`. Later `T4`, `T5` and `T1` again
have been played; the call with the history `[T1, T4, T5, T1]` at epoch 600000 (ten
minutes later) hits the cache and returns `[T4, T5]`, both of which are in the given
history. The fresh search on the same history (empty cache) filters them out. -/
theorem findRelatedSongs_cache_hit_repeats_history :
    (findRelatedSongs engineEnv [] 1000 [T1] 3).1 = [T4, T5] ∧
    cacheGet cacheAfterT1 (cacheKeyOf T1) = some { songs := [T4, T5], timestamp := 1000 } ∧
    (findRelatedSongs engineEnv cacheAfterT1 600000 [T1, T4, T5, T1] 3).1 = [T4, T5] ∧
    (T4 ∈ [T1, T4, T5, T1] ∧
      T4 ∈ (findRelatedSongs engineEnv cacheAfterT1 600000 [T1, T4, T5, T1] 3).1) ∧
    (findRelatedSongs engineEnv [] 600000 [T1, T4, T5, T1] 3).1 = [] := by
  decide

theorem collectMusic_length (limit : Nat) (items : List SearchItem) :
    ∀ musicResults : List Song, musicResults.length ≤ limit →
      (collectMusic limit items musicResults).length ≤ limit := by
  induction items with
  | nil => intro acc h; exact h
  | cons item rest ih =>
    intro acc h
    unfold collectMusic
    split
    · exact ih acc h
    · split
      · exact h
      · next hlt =>
        split
        · apply ih
          simp only [List.length_append, List.length_singleton]
          omega
        · exact ih acc h

theorem generateMockSearchResults_length (env : EngineEnv) (now : Int) (query : String)
    (count : Nat) : (generateMockSearchResults env now query count).length ≤ count := by
  unfold generateMockSearchResults
  simp only [List.length_map, List.enum_length, List.length_take]
  exact Nat.min_le_left _ _

theorem searchYouTube_length (env : EngineEnv) (now : Int) (query : String) (limit : Nat) :
    (searchYouTube env now query limit).length ≤ limit := by
  unfold searchYouTube
  split
  · exact collectMusic_length limit _ [] (Nat.zero_le _)
  · exact generateMockSearchResults_length env now query limit

theorem findRelatedFresh_length (env : EngineEnv) (cache : Cache) (now : Int)
    (recentSongs : List Song) (lastSong : Song) (count : Nat) :
    (findRelatedFresh env cache now recentSongs lastSong count).1.length ≤ count := by
  unfold findRelatedFresh
  split
  · exact searchYouTube_length env now _ count
  · simp only [List.length_take]
    exact Nat.min_le_left _ _

/-- C24: for every history, every cache content, every time and every count (a natural
number), `findRelatedSongs` returns at most `count` songs. The same bound holds for each
path it can take: the popular-songs fallback, `searchYouTube` with its mock-result fallback,
and the fresh search. -/
theorem findRelatedSongs_length_le (env : EngineEnv) (cache : Cache) (now : Int)
    (recentSongs : List Song) (count : Nat) :
    (findRelatedSongs env cache now recentSongs count).1.length ≤ count ∧
    (getPopularSongs env now count).length ≤ count ∧
    (∀ query : String, (searchYouTube env now query count).length ≤ count) ∧
    (∀ query : String, (generateMockSearchResults env now query count).length ≤ count) ∧
    (∀ lastSong : Song,
      (findRelatedFresh env cache now recentSongs lastSong count).1.length ≤ count) := by
  refine ⟨?_, searchYouTube_length env now _ count,
    fun query => searchYouTube_length env now query count,
    fun query => generateMockSearchResults_length env now query count,
    fun lastSong => findRelatedFresh_length env cache now recentSongs lastSong count⟩
  unfold findRelatedSongs
  split
  · exact searchYouTube_length env now _ count
  · split
    · split
      · simp only [List.length_take]
        exact Nat.min_le_left _ _
      · exact findRelatedFresh_length env cache now recentSongs _ count
    · exact findRelatedFresh_length env cache now recentSongs _ count

/-! ## Durations as text -/

theorem digit_bounds {c : Char} (h : isDecimalDigit c = true) :
    48 ≤ c.toNat ∧ c.toNat ≤ 57 := by
  simpa [isDecimalDigit] using h

theorem digitChar_toNat {k : Nat} (h : k < 10) : (Nat.digitChar k).toNat = 48 + k := by
  interval_cases k <;> rfl

theorem digitChar_isDecimalDigit {k : Nat} (h : k < 10) :
    isDecimalDigit (Nat.digitChar k) = true := by
  have := digitChar_toNat h
  simp only [isDecimalDigit, this, Bool.and_eq_true, decide_eq_true_eq]
  omega

theorem digitValue_of_digit {c : Char} (h : isDecimalDigit c = true) :
    digitValue c = some (c.toNat - 48) := by
  have hb := digit_bounds h
  unfold digitValue
  rw [if_pos hb]

theorem digitValue_digitChar {k : Nat} (h : k < 10) :
    digitValue (Nat.digitChar k) = some k := by
  rw [digitValue_of_digit (digitChar_isDecimalDigit h), digitChar_toNat h]
  simp

theorem isDigitIn_of_digit {c : Char} (h : isDecimalDigit c = true) :
    isDigitIn 10 c = true := by
  have hb := digit_bounds h
  unfold isDigitIn
  rw [digitValue_of_digit h]
  simp only [decide_eq_true_eq]
  omega

theorem not_whiteSpace_of_digit {c : Char} (h : isDecimalDigit c = true) :
    isWhiteSpace c = false := by
  have hb := digit_bounds h
  simp only [isWhiteSpace, Bool.or_eq_false_iff, beq_eq_false_iff_ne, ne_eq]
  refine ⟨⟨⟨⟨⟨⟨?_, ?_⟩, ?_⟩, ?_⟩, ?_⟩, ?_⟩, ?_⟩ <;> omega

theorem digitsValue_append_single (radix : Nat) (l : List Char) (c : Char) :
    digitsValue radix (l ++ [c]) = digitsValue radix l * radix + (digitValue c).getD 0 := by
  simp [digitsValue, List.foldl_append]

theorem digitsValue_zero_cons (l : List Char) :
    digitsValue 10 ('0' :: l) = digitsValue 10 l := by
  have h0 : (digitValue '0').getD 0 = 0 := by decide
  simp [digitsValue, h0]

theorem toDigitsCore_spec (fuel : Nat) :
    ∀ (n : Nat) (ds : List Char), n < fuel →
      ∃ l : List Char, Nat.toDigitsCore 10 fuel n ds = l ++ ds ∧ l ≠ [] ∧
        (∀ c ∈ l, isDecimalDigit c = true) ∧ digitsValue 10 l = n := by
  induction fuel with
  | zero => intro n ds h; exact absurd h (Nat.not_lt_zero _)
  | succ fuel ih =>
    intro n ds h
    have hmod : n % 10 < 10 := Nat.mod_lt _ (by decide)
    unfold Nat.toDigitsCore
    simp only
    by_cases hz : n / 10 = 0
    · rw [if_pos hz]
      refine ⟨[Nat.digitChar (n % 10)], rfl, by simp, ?_, ?_⟩
      · intro c hc
        rw [List.mem_singleton.mp hc]
        exact digitChar_isDecimalDigit hmod
      · have hv := digitValue_digitChar hmod
        simp only [digitsValue, List.foldl_cons, List.foldl_nil, hv, Option.getD_some]
        omega
    · rw [if_neg hz]
      have hlt : n / 10 < fuel := by omega
      obtain ⟨l, hl, hne, hdig, hval⟩ := ih (n / 10) (Nat.digitChar (n % 10) :: ds) hlt
      refine ⟨l ++ [Nat.digitChar (n % 10)], ?_, by simp, ?_, ?_⟩
      · rw [hl]; simp
      · intro c hc
        rcases List.mem_append.mp hc with h1 | h1
        · exact hdig c h1
        · rw [List.mem_singleton.mp h1]
          exact digitChar_isDecimalDigit hmod
      · rw [digitsValue_append_single, hval, digitValue_digitChar hmod]
        simp only [Option.getD_some]
        omega

theorem numberToString_spec (n : Nat) :
    numberToString n ≠ [] ∧ (∀ c ∈ numberToString n, isDecimalDigit c = true) ∧
      digitsValue 10 (numberToString n) = n := by
  obtain ⟨l, hl, hne, hdig, hval⟩ := toDigitsCore_spec (n + 1) n [] (Nat.lt_succ_self n)
  have e : numberToString n = l := by
    unfold numberToString Nat.toDigits
    rw [hl]; simp
  rw [e]
  exact ⟨hne, hdig, hval⟩

theorem padStart_spec {l : List Char} (hne : l ≠ [])
    (hdig : ∀ c ∈ l, isDecimalDigit c = true) :
    padStart 2 '0' l ≠ [] ∧ (∀ c ∈ padStart 2 '0' l, isDecimalDigit c = true) ∧
      digitsValue 10 (padStart 2 '0' l) = digitsValue 10 l := by
  unfold padStart
  have hz : isDecimalDigit '0' = true := by decide
  refine ⟨by simp [hne], ?_, ?_⟩
  · intro c hc
    rcases List.mem_append.mp hc with h1 | h1
    · rw [(List.mem_replicate.mp h1).2]; exact hz
    · exact hdig c h1
  · generalize 2 - l.length = m
    induction m with
    | zero => rfl
    | succ m ih =>
      rw [List.replicate_succ, List.cons_append, digitsValue_zero_cons]
      exact ih

theorem digit_ne_of_toNat {c d : Char} (h : isDecimalDigit c = true)
    (hd : d.toNat < 48 ∨ 57 < d.toNat) : c ≠ d := by
  have hb := digit_bounds h
  intro heq
  rw [heq] at hb
  omega

theorem parseInt_of_digits {l : List Char} (hne : l ≠ [])
    (hdig : ∀ c ∈ l, isDecimalDigit c = true) :
    parseInt l = some ((digitsValue 10 l : Nat) : Int) := by
  cases l with
  | nil => exact absurd rfl hne
  | cons c r =>
    have hc : isDecimalDigit c = true := hdig c (List.mem_cons_self _ _)
    have hdrop : (c :: r).dropWhile isWhiteSpace = c :: r := by
      rw [List.dropWhile_cons_of_neg]
      rw [not_whiteSpace_of_digit hc]
      simp
    have hsign : stripSign (c :: r) = (false, c :: r) := by
      unfold stripSign
      have h1 : c ≠ '-' := digit_ne_of_toNat hc (Or.inl (by decide))
      have h2 : c ≠ '+' := digit_ne_of_toNat hc (Or.inl (by decide))
      simp [h1, h2]
    have hradix : stripRadix (c :: r) = (10, c :: r) := by
      unfold stripRadix
      cases r with
      | nil => rfl
      | cons d rest =>
        have hd : isDecimalDigit d = true :=
          hdig d (List.mem_cons_of_mem _ (List.mem_cons_self _ _))
        have h1 : d ≠ 'x' := digit_ne_of_toNat hd (Or.inr (by decide))
        have h2 : d ≠ 'X' := digit_ne_of_toNat hd (Or.inr (by decide))
        simp [h1, h2]
    have htake : (c :: r).takeWhile (isDigitIn 10) = c :: r := by
      rw [List.takeWhile_eq_self_iff]
      intro x hx
      exact isDigitIn_of_digit (hdig x hx)
    unfold parseInt
    simp only [hdrop, hsign, hradix, htake]
    simp

theorem splitAt_of_not_mem (sep : Char) (l : List Char) (h : sep ∉ l) :
    splitAt sep l = [l] := by
  induction l with
  | nil => rfl
  | cons c rest ih =>
    have hc : c ≠ sep := fun e => h (by rw [e]; exact List.mem_cons_self _ _)
    have hr : sep ∉ rest := fun e => h (List.mem_cons_of_mem _ e)
    unfold splitAt
    rw [if_neg hc, ih hr]

theorem splitAt_append (sep : Char) (xs ys : List Char) (h : sep ∉ xs) :
    splitAt sep (xs ++ sep :: ys) = xs :: splitAt sep ys := by
  induction xs with
  | nil =>
    simp only [List.nil_append]
    rw [splitAt, if_pos rfl]
  | cons c rest ih =>
    have hc : c ≠ sep := fun e => h (by rw [e]; exact List.mem_cons_self _ _)
    have hr : sep ∉ rest := fun e => h (List.mem_cons_of_mem _ e)
    rw [List.cons_append, splitAt, if_neg hc, ih hr]

theorem colon_not_mem_digits {l : List Char} (hdig : ∀ c ∈ l, isDecimalDigit c = true) :
    ':' ∉ l := by
  intro h
  exact absurd (hdig ':' h) (by decide)

theorem toLowerCase_of_plain {l : List Char} (h : ∀ c ∈ l, c.toNat < 65) :
    toLowerCase l = l := by
  unfold toLowerCase
  conv => rhs; rw [← List.map_id l]
  apply List.map_congr_left
  intro c hc
  have := h c hc
  rw [if_neg (by omega)]
  rfl

theorem trim_of_plain {l : List Char} (h : ∀ c ∈ l, isWhiteSpace c = false) : trim l = l := by
  have key : ∀ m : List Char, (∀ c ∈ m, isWhiteSpace c = false) →
      m.dropWhile isWhiteSpace = m := by
    intro m hm
    cases m with
    | nil => rfl
    | cons c r =>
      rw [List.dropWhile_cons_of_neg]
      rw [hm c (List.mem_cons_self _ _)]
      simp
  unfold trim
  rw [key l h, key l.reverse (fun c hc => h c (List.mem_reverse.mp hc)), List.reverse_reverse]

theorem plain_chars {l : List Char}
    (h : ∀ c ∈ l, isDecimalDigit c = true ∨ c = ':') :
    (∀ c ∈ l, c.toNat < 65) ∧ (∀ c ∈ l, isWhiteSpace c = false) := by
  constructor
  · intro c hc
    rcases h c hc with h1 | h1
    · have := digit_bounds h1; omega
    · rw [h1]; decide
  · intro c hc
    rcases h c hc with h1 | h1
    · exact not_whiteSpace_of_digit h1
    · rw [h1]; decide

theorem parseTimeString_two {a b : List Char} (ha : a ≠ [])
    (hda : ∀ c ∈ a, isDecimalDigit c = true) (hb : b ≠ [])
    (hdb : ∀ c ∈ b, isDecimalDigit c = true) (hlt : digitsValue 10 b < 60) :
    parseTimeString (a ++ [':'] ++ b)
      = some (((digitsValue 10 a * 60 + digitsValue 10 b : Nat)) : Int) := by
  have hplain : ∀ c ∈ a ++ [':'] ++ b, isDecimalDigit c = true ∨ c = ':' := by
    intro c hc
    simp only [List.mem_append, List.mem_singleton] at hc
    rcases hc with (h | h) | h
    · exact Or.inl (hda c h)
    · exact Or.inr h
    · exact Or.inl (hdb c h)
  have hp := plain_chars hplain
  have hne : a ++ [':'] ++ b ≠ [] := by simp
  have hmem : ':' ∈ a ++ [':'] ++ b := by simp
  have hsplit : splitAt ':' (a ++ [':'] ++ b) = [a, b] := by
    rw [List.append_assoc, List.singleton_append, splitAt_append _ _ _ (colon_not_mem_digits hda),
      splitAt_of_not_mem _ _ (colon_not_mem_digits hdb)]
  unfold parseTimeString
  rw [if_neg hne]
  simp only [toLowerCase_of_plain hp.1, trim_of_plain hp.2, if_pos hmem, hsplit, List.map_cons,
    List.map_nil, parseInt_of_digits ha hda, parseInt_of_digits hb hdb]
  rw [if_neg (by omega)]
  push_cast
  rfl

theorem parseTimeString_three {a b d : List Char} (ha : a ≠ [])
    (hda : ∀ c ∈ a, isDecimalDigit c = true) (hb : b ≠ [])
    (hdb : ∀ c ∈ b, isDecimalDigit c = true) (hd : d ≠ [])
    (hdd : ∀ c ∈ d, isDecimalDigit c = true)
    (hltb : digitsValue 10 b < 60) (hltd : digitsValue 10 d < 60) :
    parseTimeString (a ++ [':'] ++ b ++ [':'] ++ d)
      = some (((digitsValue 10 a * 3600 + digitsValue 10 b * 60 + digitsValue 10 d : Nat))
          : Int) := by
  have hplain : ∀ c ∈ a ++ [':'] ++ b ++ [':'] ++ d, isDecimalDigit c = true ∨ c = ':' := by
    intro c hc
    simp only [List.mem_append, List.mem_singleton] at hc
    rcases hc with (((h | h) | h) | h) | h
    · exact Or.inl (hda c h)
    · exact Or.inr h
    · exact Or.inl (hdb c h)
    · exact Or.inr h
    · exact Or.inl (hdd c h)
  have hp := plain_chars hplain
  have hne : a ++ [':'] ++ b ++ [':'] ++ d ≠ [] := by simp
  have hmem : ':' ∈ a ++ [':'] ++ b ++ [':'] ++ d := by simp
  have hsplit : splitAt ':' (a ++ [':'] ++ b ++ [':'] ++ d) = [a, b, d] := by
    have e : a ++ [':'] ++ b ++ [':'] ++ d = a ++ ':' :: (b ++ ':' :: d) := by simp
    rw [e, splitAt_append _ _ _ (colon_not_mem_digits hda),
      splitAt_append _ _ _ (colon_not_mem_digits hdb),
      splitAt_of_not_mem _ _ (colon_not_mem_digits hdd)]
  unfold parseTimeString
  rw [if_neg hne]
  simp only [toLowerCase_of_plain hp.1, trim_of_plain hp.2, if_pos hmem, hsplit, List.map_cons,
    List.map_nil, parseInt_of_digits ha hda, parseInt_of_digits hb hdb,
    parseInt_of_digits hd hdd]
  rw [if_neg (by omega)]
  push_cast
  rfl

theorem padStart_length_two (k : Nat) (hk : k < 60) :
    (padStart 2 '0' (numberToString k)).length = 2 := by
  interval_cases k <;> rfl

/-- C30: for every natural number `n`, `parseTimeString (formatDuration n)` is `n`. The text
is minutes, a colon and seconds when `n < 3600` (the text `0:00` for `n = 0` included), and
hours, minutes and seconds separated by colons from 3600 on; the padded minutes and seconds
are two characters long and stand for values below 60. Numbers are exact naturals here, as
JavaScript numbers are on the safe integers. -/
theorem parseTimeString_formatDuration (n : Nat) :
    parseTimeString (formatDuration n) = some (n : Int) ∧
      (n < 3600 → formatDuration n
        = numberToString (n / 60) ++ [':'] ++ padStart 2 '0' (numberToString (n % 60))) ∧
      (3600 ≤ n → formatDuration n
        = numberToString (n / 3600) ++ [':'] ++
            padStart 2 '0' (numberToString (n % 3600 / 60)) ++ [':'] ++
            padStart 2 '0' (numberToString (n % 60))) ∧
      (padStart 2 '0' (numberToString (n % 3600 / 60))).length = 2 ∧
      (padStart 2 '0' (numberToString (n % 60))).length = 2 ∧
      n % 3600 / 60 < 60 ∧ n % 60 < 60 := by
  have hm : n % 3600 / 60 < 60 := by omega
  have hs : n % 60 < 60 := by omega
  have hsmall : n < 3600 → formatDuration n
      = numberToString (n / 60) ++ [':'] ++ padStart 2 '0' (numberToString (n % 60)) := by
    intro hlt
    by_cases h0 : n = 0
    · rw [h0]; rfl
    · unfold formatDuration
      have hh : ¬ n / 3600 > 0 := by
        have : n / 3600 = 0 := Nat.div_eq_of_lt hlt
        omega
      have hmod : n % 3600 = n := Nat.mod_eq_of_lt hlt
      simp only [if_neg h0, if_neg hh, hmod]
  have hlarge : 3600 ≤ n → formatDuration n
      = numberToString (n / 3600) ++ [':'] ++
          padStart 2 '0' (numberToString (n % 3600 / 60)) ++ [':'] ++
          padStart 2 '0' (numberToString (n % 60)) := by
    intro hge
    unfold formatDuration
    have h0 : n ≠ 0 := by omega
    have hh : n / 3600 > 0 := Nat.div_pos hge (by decide)
    simp only [if_neg h0, if_pos hh]
  refine ⟨?_, hsmall, hlarge, padStart_length_two _ hm, padStart_length_two _ hs, hm, hs⟩
  obtain ⟨s1, s2, s3⟩ := numberToString_spec (n % 60)
  obtain ⟨p1, p2, p3⟩ := padStart_spec s1 s2
  by_cases hlt : n < 3600
  · obtain ⟨m1, m2, m3⟩ := numberToString_spec (n / 60)
    rw [hsmall hlt, parseTimeString_two m1 m2 p1 p2 (by rw [p3, s3]; exact hs), p3, s3, m3]
    congr 2
    omega
  · have hge : 3600 ≤ n := by omega
    obtain ⟨a1, a2, a3⟩ := numberToString_spec (n / 3600)
    obtain ⟨m1, m2, m3⟩ := numberToString_spec (n % 3600 / 60)
    obtain ⟨q1, q2, q3⟩ := padStart_spec m1 m2
    rw [hlarge hge, parseTimeString_three a1 a2 q1 q2 p1 p2 (by rw [q3, m3]; exact hm)
      (by rw [p3, s3]; exact hs), p3, s3, q3, m3, a3]
    congr 2
    omega

theorem parseTimeString_formatDuration_witness :
    parseTimeString (formatDuration 3725) = some 3725 ∧
      formatDuration 3725 = ['1', ':', '0', '2', ':', '0', '5'] ∧
      formatDuration 225 = ['3', ':', '4', '5'] :=
  ⟨(parseTimeString_formatDuration 3725).1, by decide, by decide⟩

end Musicbot
